import Mathlib

/-!
Interaction state machine of the diagram widget (`DiagramBase`).

Shallow embedding of `src/src/DiagramBase.cpp` / `DiagramBase.hpp`.

Conventions of the embedding:

* `float` fields (`windowOffsetX`, `windowWidth`, `scaleFactor`, `resizeMargin`, ...) are
  modelled by exact rationals `ℚ`; `int` fields and pixel coordinates by `ℤ`.
  `float(i)` of an `int` is the cast `ℤ → ℚ`.
* The unscoped enum `ResizeDirection` is a bit mask over `int`; it is modelled by `Nat`
  with the bitwise operators `|||` and `&&&`.
* Everything the sgl library reports during one call of `update` (mouse state, dock-space
  mode, the answer of `VectorWidget::getIsMouseOverDiagram`, the display size that
  `VectorWidget::onWindowSizeChanged` stores) is collected in the record `SglFrame`.
* The parameter `mousePositionScaled` of the event handlers is never read by them and is
  therefore not passed around.
* The definitions with the suffix `F32` repeat the geometry updates of the move handlers
  with the machine arithmetic made explicit: the `int` subtraction wraps to 32 bits, and
  `float(int)` and every `float` operation round to the nearest `float` (`f32round`). Their
  result is `none` when a `float` result is not finite.
-/

namespace Diagram

/-- Cursor glyphs of `sgl::CursorType` that the widget selects. -/
inductive CursorType where
  | DEFAULT
  | SIZEWE
  | SIZENS
  | SIZENESW
  | SIZENWSE
  deriving DecidableEq, Repr

/-- The enum `ResizeDirection` (`DiagramBase.hpp`, lines 155-158), a bit mask. -/
abbrev ResizeDirection := Nat

namespace ResizeDirection

abbrev NONE : ResizeDirection := 0
abbrev LEFT : ResizeDirection := 1
abbrev RIGHT : ResizeDirection := 2
abbrev BOTTOM : ResizeDirection := 4
abbrev TOP : ResizeDirection := 8
abbrev BOTTOM_LEFT : ResizeDirection := BOTTOM ||| LEFT
abbrev BOTTOM_RIGHT : ResizeDirection := BOTTOM ||| RIGHT
abbrev TOP_LEFT : ResizeDirection := TOP ||| LEFT
abbrev TOP_RIGHT : ResizeDirection := TOP ||| RIGHT

end ResizeDirection

open ResizeDirection

/-- Axis-aligned rectangle `sgl::AABB2` with its corners `min` and `max`. -/
structure AABB2 where
  minX : ℚ
  minY : ℚ
  maxX : ℚ
  maxY : ℚ

/-- Modelled from the spec: `sgl::AABB2::contains` belongs to the sgl library and is not
under `src/`. The spec describes each margin as a rectangle along one border of the
bounding box and the hit test as "the pointer falls within" it; the model is membership
in the closed rectangle `[min.x, max.x] x [min.y, max.y]`. -/
def AABB2.contains (b : AABB2) (x y : ℚ) : Bool :=
  decide (b.minX ≤ x) && decide (b.minY ≤ y) && decide (x ≤ b.maxX) && decide (y ≤ b.maxY)

/-- What the sgl library reports during one call of `DiagramBase::update`. -/
structure SglFrame where
  /-- Value of `sgl::Mouse->getX()`. -/
  mouseX : ℤ
  /-- Value of `sgl::Mouse->getY()`. -/
  mouseY : ℤ
  /-- Value of `sgl::Mouse->buttonPressed(1)`. -/
  buttonPressed : Bool
  /-- Value of `sgl::Mouse->buttonReleased(1)`. -/
  buttonReleased : Bool
  /-- Value of `sgl::Mouse->isButtonUp(1)`. -/
  isButtonUp : Bool
  /-- Value of `sgl::Mouse->mouseMoved()`. -/
  mouseMoved : Bool
  /-- Value of `sgl::ImGuiWrapper::get()->getUseDockSpaceMode()`. -/
  useDockSpaceMode : Bool
  /-- Answer of `VectorWidget::getIsMouseOverDiagram(mousePositionPx)`. -/
  isMouseOverDiagram : Bool
  /-- Display width that `VectorWidget::onWindowSizeChanged` stores when it is called. -/
  fboWidthDisplay : ℤ
  /-- Display height that `VectorWidget::onWindowSizeChanged` stores when it is called. -/
  fboHeightDisplay : ℤ

/-- The fields of `DiagramBase` (and of its base class `sgl::VectorWidget`) that the
move/resize interaction reads or writes. -/
structure DiagramBase where
  windowOffsetX : ℚ
  windowOffsetY : ℚ
  windowWidth : ℚ
  windowHeight : ℚ
  scaleFactor : ℚ
  fboWidthDisplay : ℤ
  fboHeightDisplay : ℤ
  needsReRender : Bool
  isDraggingWindow : Bool
  mouseDragStartPosX : ℤ
  mouseDragStartPosY : ℤ
  windowOffsetXBase : ℚ
  windowOffsetYBase : ℚ
  isResizingWindow : Bool
  resizeDirection : ResizeDirection
  resizeMargin : ℚ
  lastResizeMouseX : ℤ
  lastResizeMouseY : ℤ
  cursorShape : CursorType
  imGuiWindowOffsetX : ℤ
  imGuiWindowOffsetY : ℤ
  isMouseGrabbedByParent : Bool
  isMouseGrabbed : Bool
  windowMoveOrResizeJustFinished : Bool
  isWindowFixed : Bool

/-- Rectangle `leftAabb` (lines 225-227 and 334-336). -/
def leftAabb (s : DiagramBase) : AABB2 :=
  { minX := s.windowOffsetX
    minY := s.windowOffsetY
    maxX := s.windowOffsetX + s.resizeMargin
    maxY := s.windowOffsetY + (s.fboHeightDisplay : ℚ) }

/-- Rectangle `rightAabb` (lines 228-230 and 337-339). -/
def rightAabb (s : DiagramBase) : AABB2 :=
  { minX := s.windowOffsetX + (s.fboWidthDisplay : ℚ) - s.resizeMargin
    minY := s.windowOffsetY
    maxX := s.windowOffsetX + (s.fboWidthDisplay : ℚ)
    maxY := s.windowOffsetY + (s.fboHeightDisplay : ℚ) }

/-- Rectangle `bottomAabb` (lines 231-233 and 340-342). -/
def bottomAabb (s : DiagramBase) : AABB2 :=
  { minX := s.windowOffsetX
    minY := s.windowOffsetY
    maxX := s.windowOffsetX + (s.fboWidthDisplay : ℚ)
    maxY := s.windowOffsetY + s.resizeMargin }

/-- Rectangle `topAabb` (lines 234-236 and 343-345). -/
def topAabb (s : DiagramBase) : AABB2 :=
  { minX := s.windowOffsetX
    minY := s.windowOffsetY + (s.fboHeightDisplay : ℚ) - s.resizeMargin
    maxX := s.windowOffsetX + (s.fboWidthDisplay : ℚ)
    maxY := s.windowOffsetY + (s.fboHeightDisplay : ℚ) }

/-- Method `DiagramBase::setImGuiWindowOffset` (lines 105-108). -/
def setImGuiWindowOffset (s : DiagramBase) (offsetX offsetY : ℤ) : DiagramBase :=
  { s with imGuiWindowOffsetX := offsetX, imGuiWindowOffsetY := offsetY }

/-- Method `DiagramBase::setIsMouseGrabbedByParent` (lines 118-120). -/
def setIsMouseGrabbedByParent (s : DiagramBase) (b : Bool) : DiagramBase :=
  { s with isMouseGrabbedByParent := b }

/-- Method `DiagramBase::checkWindowMoveOrResizeJustFinished` (lines 174-181). -/
def checkWindowMoveOrResizeJustFinished (s : DiagramBase) (px py : ℤ) : DiagramBase :=
  let dragFinished : Bool :=
    s.isDraggingWindow &&
      (decide (px - s.mouseDragStartPosX ≠ 0) || decide (py - s.mouseDragStartPosY ≠ 0))
  let resizeFinished : Bool := s.isResizingWindow
  if dragFinished || resizeFinished then
    { s with windowMoveOrResizeJustFinished := true }
  else s

/-- The resize branch shared verbatim by `mouseMoveEvent` (lines 200-221) and
`mouseMoveEventParent` (lines 292-313): apply the per-axis delta since the last move,
gated by the active direction bits, then remember the pointer and notify the library. -/
def resizeByMouseDelta (s : DiagramBase) (m : SglFrame) (px py : ℤ) : DiagramBase :=
  let diffX : ℚ := ((px - s.lastResizeMouseX : ℤ) : ℚ)
  let diffY : ℚ := ((py - s.lastResizeMouseY : ℤ) : ℚ)
  let s := if s.resizeDirection &&& LEFT ≠ 0 then
      { s with windowOffsetX := s.windowOffsetX + diffX
               windowWidth := s.windowWidth - diffX / s.scaleFactor }
    else s
  let s := if s.resizeDirection &&& RIGHT ≠ 0 then
      { s with windowWidth := s.windowWidth + diffX / s.scaleFactor }
    else s
  let s := if s.resizeDirection &&& BOTTOM ≠ 0 then
      { s with windowOffsetY := s.windowOffsetY + diffY
               windowHeight := s.windowHeight - diffY / s.scaleFactor }
    else s
  let s := if s.resizeDirection &&& TOP ≠ 0 then
      { s with windowHeight := s.windowHeight + diffY / s.scaleFactor }
    else s
  -- syncRendererWithCpu(); onWindowSizeChanged(); onUpdatedWindowSize() (empty here)
  { s with lastResizeMouseX := px
           lastResizeMouseY := py
           needsReRender := true
           fboWidthDisplay := m.fboWidthDisplay
           fboHeightDisplay := m.fboHeightDisplay }

/-- The local `resizeDirectionCurr` of `mouseMoveEvent` (lines 238-250): the union of the
margins that contain the pointer. -/
def resizeDirectionCurr (s : DiagramBase) (px py : ℤ) : ResizeDirection :=
  let d : ResizeDirection := NONE
  let d := if (leftAabb s).contains px py then d ||| LEFT else d
  let d := if (rightAabb s).contains px py then d ||| RIGHT else d
  let d := if (bottomAabb s).contains px py then d ||| BOTTOM else d
  let d := if (topAabb s).contains px py then d ||| TOP else d
  d

/-- The cursor selection of `mouseMoveEvent` (lines 252-267). -/
def newCursorShape (d : ResizeDirection) : CursorType :=
  if d = LEFT ∨ d = RIGHT then CursorType.SIZEWE
  else if d = BOTTOM ∨ d = TOP then CursorType.SIZENS
  else if d = BOTTOM_LEFT ∨ d = TOP_RIGHT then CursorType.SIZENESW
  else if d = TOP_LEFT ∨ d = BOTTOM_RIGHT then CursorType.SIZENWSE
  else CursorType.DEFAULT

/-- The block `checkWindowMoveOrResizeJustFinished(mousePositionPx); resizeDirection = NONE;
isDraggingWindow = false; isResizingWindow = false;` that ends a gesture
(lines 193-196, 285-288 and 166-169). -/
def endMoveOrResize (s : DiagramBase) (px py : ℤ) : DiagramBase :=
  let s := checkWindowMoveOrResizeJustFinished s px py
  { s with resizeDirection := NONE
           isDraggingWindow := false
           isResizingWindow := false }

/-- The hover branch of `mouseMoveEvent` (lines 223-273): choose the cursor from the
margins under the pointer and store it when it differs from the current one. -/
def updateCursorShape (s : DiagramBase) (px py : ℤ) : DiagramBase :=
  let shape := newCursorShape (resizeDirectionCurr s px py)
  if shape ≠ s.cursorShape then { s with cursorShape := shape } else s

/-- The hover branch of `mouseMoveEventParent` (lines 315-319): back to the default
cursor. -/
def resetCursorShape (s : DiagramBase) : DiagramBase :=
  if s.cursorShape ≠ CursorType.DEFAULT then
    { s with cursorShape := CursorType.DEFAULT }
  else s

/-- The drag block shared verbatim by `mouseMoveEvent` (lines 276-280) and
`mouseMoveEventParent` (lines 322-326). -/
def dragWindowOffset (s : DiagramBase) (px py : ℤ) : DiagramBase :=
  if s.isDraggingWindow then
    { s with windowOffsetX := s.windowOffsetXBase + ((px - s.mouseDragStartPosX : ℤ) : ℚ)
             windowOffsetY := s.windowOffsetYBase + ((py - s.mouseDragStartPosY : ℤ) : ℚ)
             needsReRender := true }
  else s

/-- Method `DiagramBase::mouseMoveEvent` (lines 191-281). -/
def mouseMoveEvent (s : DiagramBase) (m : SglFrame) (px py : ℤ) : DiagramBase :=
  let s := if m.buttonReleased then endMoveOrResize s px py else s
  let s := if s.resizeDirection ≠ NONE then resizeByMouseDelta s m px py
    else updateCursorShape s px py
  dragWindowOffset s px py

/-- Method `DiagramBase::mouseMoveEventParent` (lines 283-327). -/
def mouseMoveEventParent (s : DiagramBase) (m : SglFrame) (px py : ℤ) : DiagramBase :=
  let s := if m.isButtonUp then endMoveOrResize s px py else s
  let s := if s.resizeDirection ≠ NONE then resizeByMouseDelta s m px py
    else resetCursorShape s
  dragWindowOffset s px py

/-- Method `DiagramBase::mousePressEventResizeWindow` (lines 329-367). -/
def mousePressEventResizeWindow (s : DiagramBase) (m : SglFrame) (px py : ℤ) : DiagramBase :=
  if m.buttonPressed then
    let d : ResizeDirection := NONE
    let d := if (leftAabb s).contains px py then d ||| LEFT else d
    let d := if (rightAabb s).contains px py then d ||| RIGHT else d
    let d := if (bottomAabb s).contains px py then d ||| BOTTOM else d
    let d := if (topAabb s).contains px py then d ||| TOP else d
    let s := { s with resizeDirection := d }
    if s.resizeDirection ≠ NONE then
      { s with isResizingWindow := true
               lastResizeMouseX := px
               lastResizeMouseY := py }
    else s
  else s

/-- Method `DiagramBase::mousePressEventMoveWindow` (lines 369-377). -/
def mousePressEventMoveWindow (s : DiagramBase) (m : SglFrame) (px py : ℤ) : DiagramBase :=
  if s.resizeDirection = NONE ∧ m.buttonPressed = true then
    { s with isDraggingWindow := true
             windowOffsetXBase := s.windowOffsetX
             windowOffsetYBase := s.windowOffsetY
             mouseDragStartPosX := px
             mouseDragStartPosY := py }
  else s

/-- The local `mousePositionPx` of `update` (lines 134-139): the pointer position in
pixels, relative to the ImGui window when the dock-space mode is on. -/
def mousePositionPx (s : DiagramBase) (m : SglFrame) : ℤ × ℤ :=
  if m.useDockSpaceMode then
    (m.mouseX - s.imGuiWindowOffsetX, m.mouseY - s.imGuiWindowOffsetY)
  else (m.mouseX, m.mouseY)

/-- The block "Mouse press event." of `update` (lines 146-153); `isMouseOverDiagram` is
the local variable of `update`. -/
def mousePressEvent (s : DiagramBase) (m : SglFrame) (isMouseOverDiagram : Bool)
    (px py : ℤ) : DiagramBase :=
  if isMouseOverDiagram && !s.isWindowFixed then
    let s := if m.buttonPressed then { s with isMouseGrabbed := true } else s
    let s := mousePressEventResizeWindow s m px py
    mousePressEventMoveWindow s m px py
  else s

/-- The block "Mouse move event." of `update` (lines 155-162). -/
def mouseMoveDispatch (s : DiagramBase) (m : SglFrame) (isMouseOverDiagram : Bool)
    (px py : ℤ) : DiagramBase :=
  if m.mouseMoved then
    if isMouseOverDiagram || s.isMouseGrabbed then mouseMoveEvent s m px py
    else mouseMoveEventParent s m px py
  else s

/-- The block "Mouse release event." of `update` (lines 164-171). -/
def mouseReleaseEvent (s : DiagramBase) (m : SglFrame) (px py : ℤ) : DiagramBase :=
  if m.buttonReleased then
    { endMoveOrResize s px py with isMouseGrabbed := false }
  else s

/-- Method `DiagramBase::update` (lines 133-172). -/
def update (s : DiagramBase) (m : SglFrame) : DiagramBase :=
  let p := mousePositionPx s m
  let isMouseOverDiagram : Bool := m.isMouseOverDiagram && !s.isMouseGrabbedByParent
  let s := { s with windowMoveOrResizeJustFinished := false }
  let s := mousePressEvent s m isMouseOverDiagram p.1 p.2
  let s := mouseMoveDispatch s m isMouseOverDiagram p.1 p.2
  mouseReleaseEvent s m p.1 p.2

/-- The widget right after construction: the default member initialisers of
`DiagramBase.hpp` (lines 139-183) for the fields of `DiagramBase`; the geometry kept by the
base class `sgl::VectorWidget` is given by the arguments. -/
def initialState (offsetX offsetY width height scale : ℚ) (fboWidth fboHeight : ℤ) :
    DiagramBase :=
  { windowOffsetX := offsetX
    windowOffsetY := offsetY
    windowWidth := width
    windowHeight := height
    scaleFactor := scale
    fboWidthDisplay := fboWidth
    fboHeightDisplay := fboHeight
    needsReRender := false
    isDraggingWindow := false
    mouseDragStartPosX := 0
    mouseDragStartPosY := 0
    windowOffsetXBase := 0
    windowOffsetYBase := 0
    isResizingWindow := false
    resizeDirection := NONE
    resizeMargin := 4
    lastResizeMouseX := 0
    lastResizeMouseY := 0
    cursorShape := CursorType.DEFAULT
    imGuiWindowOffsetX := 0
    imGuiWindowOffsetY := 0
    isMouseGrabbedByParent := false
    isMouseGrabbed := false
    windowMoveOrResizeJustFinished := false
    isWindowFixed := false }

/-- One call of the host into the public interface of the widget. -/
inductive Call where
  | update (m : SglFrame)
  | setIsMouseGrabbedByParent (b : Bool)
  | setImGuiWindowOffset (offsetX offsetY : ℤ)

/-- Effect of one host call on the widget. -/
def Call.apply (s : DiagramBase) : Call → DiagramBase
  | Call.update m => Diagram.update s m
  | Call.setIsMouseGrabbedByParent b => Diagram.setIsMouseGrabbedByParent s b
  | Call.setImGuiWindowOffset x y => Diagram.setImGuiWindowOffset s x y

/-- A run of host calls, applied from left to right. -/
def run (s : DiagramBase) (calls : List Call) : DiagramBase :=
  calls.foldl Call.apply s

/-- A run of `update` calls only, one per reported frame. -/
def runUpdates (s : DiagramBase) (frames : List SglFrame) : DiagramBase :=
  frames.foldl update s

/-- The state invariant of the interaction machine: an active direction implies the resize
flag, and an active drag or resize implies that the mouse is grabbed. -/
def GestureInv (s : DiagramBase) : Prop :=
  (s.resizeDirection ≠ NONE → s.isResizingWindow = true) ∧
  (s.isDraggingWindow = true ∨ s.isResizingWindow = true → s.isMouseGrabbed = true)

/-- The facts that hold between the press that starts a drag and the release: the drag is
on with no direction active, the mouse is grabbed, and drag start, offset base, window size
and ImGui offset are those fixed at the press. -/
def DragInv (startX startY : ℤ) (baseX baseY width height : ℚ) (imX imY : ℤ)
    (s : DiagramBase) : Prop :=
  s.isDraggingWindow = true ∧ s.resizeDirection = NONE ∧ s.isMouseGrabbed = true ∧
  s.mouseDragStartPosX = startX ∧ s.mouseDragStartPosY = startY ∧
  s.windowOffsetXBase = baseX ∧ s.windowOffsetYBase = baseY ∧
  s.windowWidth = width ∧ s.windowHeight = height ∧
  s.imGuiWindowOffsetX = imX ∧ s.imGuiWindowOffsetY = imY

/-- A frame that reports a primary-button press at pixel `(x, y)` inside the widget, without a
move (so the display size fields are not read). -/
def pressFrame (x y : ℤ) : SglFrame :=
  { mouseX := x, mouseY := y
    buttonPressed := true, buttonReleased := false, isButtonUp := false
    mouseMoved := false, useDockSpaceMode := false, isMouseOverDiagram := true
    fboWidthDisplay := 0, fboHeightDisplay := 0 }

/-- A frame that reports a mouse move to pixel `(x, y)` with the button held; `w` and `h`
are the display size the library stores if the window size changes. -/
def heldMoveFrame (x y w h : ℤ) : SglFrame :=
  { mouseX := x, mouseY := y
    buttonPressed := false, buttonReleased := false, isButtonUp := false
    mouseMoved := true, useDockSpaceMode := false, isMouseOverDiagram := true
    fboWidthDisplay := w, fboHeightDisplay := h }

/-- A frame that reports the primary-button release at pixel `(x, y)` inside the widget,
without a move (so the display size fields are not read). -/
def releaseFrame (x y : ℤ) : SglFrame :=
  { mouseX := x, mouseY := y
    buttonPressed := false, buttonReleased := true, isButtonUp := true
    mouseMoved := false, useDockSpaceMode := false, isMouseOverDiagram := true
    fboWidthDisplay := 0, fboHeightDisplay := 0 }

/-- A widget of 420 by 420 pixels at the origin with scale factor 1. -/
def squareWidget : DiagramBase := initialState 0 0 420 420 1 420 420

/-- A widget that is 6 pixels wide and 100 pixels high at the origin, scale factor 1: its
left margin `[0, 4]` and right margin `[2, 6]` overlap. -/
def narrowWidget : DiagramBase := initialState 0 0 6 100 1 6 100

/-- The square widget in the middle of a resize with only `RIGHT` active, begun by a press
at `(418, 200)`. -/
def squareWidgetResizingRight : DiagramBase :=
  { squareWidget with
    resizeDirection := RIGHT, isResizingWindow := true
    lastResizeMouseX := 418, lastResizeMouseY := 200, isMouseGrabbed := true }

/-- The square widget in the middle of a drag begun by a press at `(200, 200)`. -/
def squareWidgetDragging : DiagramBase :=
  { squareWidget with
    isDraggingWindow := true, mouseDragStartPosX := 200, mouseDragStartPosY := 200
    isMouseGrabbed := true }

/-- Presses and releases alternate along the update calls of a run: a press is only
reported while the button is up. The flag `down` says whether the button is down before the
first call; a release puts it up, a press puts it down; the setter calls do not touch it. -/
def pressesAlternate : Bool → List Call → Bool
  | _, [] => true
  | down, Call.update f :: cs =>
    (!f.buttonPressed || !down) &&
      pressesAlternate (if f.buttonReleased then false else (down || f.buttonPressed)) cs
  | down, _ :: cs => pressesAlternate down cs

/-- Drag and resize exclude each other, and neither is on while the button is up. -/
def ExclusiveInv (down : Bool) (s : DiagramBase) : Prop :=
  (down = false → s.isDraggingWindow = false ∧ s.isResizingWindow = false) ∧
  ¬ (s.isDraggingWindow = true ∧ s.isResizingWindow = true)

/-- Method `DiagramBase::getNeedsReRender` (`DiagramBase.hpp`, line 57): returns the old
value of `needsReRender` and the state with the flag cleared. -/
def getNeedsReRender (s : DiagramBase) : Bool × DiagramBase :=
  let tmp := s.needsReRender
  (tmp, { s with needsReRender := false })

/-- The method `std::string::find(char)`: the position of the first occurrence, `none` for
`npos`. -/
def stringFind (str : List Char) (c : Char) : Option Nat :=
  if str.indexOf c < str.length then some (str.indexOf c) else none

/-- The loop of `removeTrailingZeros` (lines 422-432) for the loop variable `i` and the
current `lastPos`; the index `i` never exceeds `size - 1`, so `at(i)` does not throw. -/
def removeTrailingZerosLoop (numberString : List Char) : Nat → Nat → Nat
  | 0, lastPos => lastPos
  | i + 1, lastPos =>
    let c := numberString.getD (i + 1) ' '
    if c = '.' then lastPos - 1
    else if c ≠ '0' then lastPos
    else removeTrailingZerosLoop numberString i (lastPos - 1)

/-- Function `removeTrailingZeros` (lines 420-434); a `std::string` is a list of
characters. -/
def removeTrailingZeros (numberString : List Char) : List Char :=
  let lastPos := removeTrailingZerosLoop numberString (numberString.length - 1)
    numberString.length
  numberString.take lastPos

/-- The constant `std::numeric_limits<float>::epsilon()`, that is `2^-23`. -/
def floatEpsilon : ℚ := 1 / 8388608

/-- The block "Can we remove digits after the decimal point?" of `getNiceNumberString`
(lines 441-449). -/
def removeDigitsAfterDecimalPoint (outString : List Char) (maxDigits : ℤ) : List Char :=
  match stringFind outString '.' with
  | some dotPos =>
    if (outString.length : ℤ) > maxDigits then
      let substrSize : Nat := if (dotPos : ℤ) < maxDigits - 1 then maxDigits.toNat else dotPos
      outString.take substrSize
    else outString
  | none => outString

/-- Method `DiagramBase::getNiceNumberString` (lines 437-456). The library function
`sgl::toString(number, precision, fixed, noshowpoint, scientific)` is the parameter
`toString`. -/
def getNiceNumberString (toString : ℚ → ℤ → Bool → Bool → Bool → List Char)
    (number : ℚ) (digits : ℤ) : List Char :=
  let maxDigits : ℤ := digits + 2
  let outString := removeTrailingZeros (toString number digits true false false)
  let outString := removeDigitsAfterDecimalPoint outString maxDigits
  -- Still too large?
  if (outString.length : ℤ) > maxDigits ∨ (outString = ['0'] ∧ number > floatEpsilon) then
    toString number (max (digits - 2) 1) false false true
  else outString

/-- What `sgl::toString` returns for the float `0.00001`: `0.00` in fixed notation with
precision 2 and `1.0e-05` in scientific notation with precision 1. -/
def toStringOfSmallNumber : ℚ → ℤ → Bool → Bool → Bool → List Char :=
  fun _ _ fixed _ _ => if fixed then "0.00".toList else "1.0e-05".toList

/-- What `sgl::toString` returns for the float `10.01`: `10.01` in fixed notation with
precision 2 and `1.0e+01` in scientific notation with precision 1. -/
def toStringOfTenPointZeroOne : ℚ → ℤ → Bool → Bool → Bool → List Char :=
  fun _ _ fixed _ _ => if fixed then "10.01".toList else "1.0e+01".toList

/-- Modelled from the spec: the knot vector of `evaluateBSpline` (`BSpline.hpp` is not under
`src/`). Spec section 4.1 speaks of a "clamped uniform knot vector implied by the
control-point count and order": for `n` control points and order `k` the `n + k` knots are
`k` zeros, then the interior knots at equal steps, then `k` ones. -/
def bsplineKnot (n k j : ℕ) : ℚ :=
  if j < k then 0
  else if n ≤ j then 1
  else ((j - k + 1 : ℕ) : ℚ) / ((n - k + 1 : ℕ) : ℚ)

/-- Modelled from the spec: the basis functions of `evaluateBSpline` (`BSpline.hpp` is not
under `src/`), "the standard Cox-de Boor recursive basis" of spec section 4.1 over the knots
`u`. `bsplineBasis u r i t` is the basis function of order `r` with index `i` at `t`; a
quotient with denominator zero counts as zero, and the last non-empty knot span is closed at
its right end `1`, so that the curve is defined on all of `[0, 1]`. -/
def bsplineBasis (u : ℕ → ℚ) : ℕ → ℕ → ℚ → ℚ
  | 0, _, _ => 0
  | 1, i, t =>
    if u i ≤ t ∧ (t < u (i + 1) ∨ (t = u (i + 1) ∧ u (i + 1) = 1 ∧ u i < u (i + 1))) then 1
    else 0
  | r + 2, i, t =>
    (if u (i + r + 1) - u i = 0 then 0
      else (t - u i) / (u (i + r + 1) - u i) * bsplineBasis u (r + 1) i t) +
    (if u (i + r + 2) - u (i + 1) = 0 then 0
      else (u (i + r + 2) - t) / (u (i + r + 2) - u (i + 1)) * bsplineBasis u (r + 1) (i + 1) t)

/-- The sum of the points `p_i, p_(i+1), ...` of a list with the weights `w i, w (i+1), ...`. -/
def weightedSum (w : ℕ → ℚ) : ℕ → List (ℚ × ℚ) → ℚ × ℚ
  | _, [] => (0, 0)
  | i, p :: ps => (w i * p.1 + (weightedSum w (i + 1) ps).1,
      w i * p.2 + (weightedSum w (i + 1) ps).2)

/-- Modelled from the spec: `evaluateBSpline(t, k, controlPoints)` of `BSpline.hpp`, which is
not under `src/`. Spec section 4.1: "given a parameter t in [0,1], a spline order k (3 or 4),
and an ordered list of control points, returns the point on the B-spline curve at t using the
standard Cox-de Boor recursive basis evaluated over a uniform (or clamped uniform) knot
vector implied by the control-point count and order". Points are pairs of rationals. -/
def evaluateBSpline (t : ℚ) (k : ℕ) (controlPoints : List (ℚ × ℚ)) : ℚ × ℚ :=
  weightedSum (fun i => bsplineBasis (bsplineKnot controlPoints.length k) k i t) 0 controlPoints

/-- The constant `NUM_SUBDIVISIONS` (`DiagramBase.hpp`, line 86). -/
def NUM_SUBDIVISIONS : ℕ := 50

/-- The floating-point library values used by `initialize`: the constant `sgl::TWO_PI` and
the functions `std::cos` and `std::sin`, taken as given. -/
structure FloatMath where
  twoPi : ℚ
  cos : ℚ → ℚ
  sin : ℚ → ℚ

/-- A colour of the sgl library (`sgl::Color`), four bytes. -/
structure SglColor where
  r : ℕ
  g : ℕ
  b : ℕ
  a : ℕ

/-- A colour of NanoVG (`NVGcolor`), four floats. -/
structure NVGcolor where
  r : ℚ
  g : ℚ
  b : ℚ
  a : ℚ

/-- The NanoVG function `nvgRGBA`: bytes to floats in `[0, 1]`. -/
def nvgRGBA (r g b a : ℕ) : NVGcolor :=
  { r := (r : ℚ) / 255, g := (g : ℚ) / 255, b := (b : ℚ) / 255, a := (a : ℚ) / 255 }

/-- A call of the NanoVG drawing interface, in the order the widget issues them. -/
inductive NvgCmd where
  | nvgStrokeWidth (size : ℚ)
  | nvgBeginPath
  | nvgMoveTo (x y : ℚ)
  | nvgLineTo (x y : ℚ)
  | nvgStrokeColor (color : NVGcolor)
  | nvgStroke
  | nvgCircle (cx cy r : ℚ)
  | nvgFillColor (color : NVGcolor)
  | nvgFill

/-- The fields of `DiagramBase` (and the window size of `sgl::VectorWidget`) that
`initialize` and `renderChordDiagramNanoVG` read or write. A `glm::vec2` is a pair of
rationals; a node is represented by its `normalizedPosition`. -/
structure ChordDiagram where
  windowWidth : ℚ
  windowHeight : ℚ
  borderSizeX : ℚ
  borderSizeY : ℚ
  numLinesTotal : ℤ
  curveThickness : ℚ
  curveOpacity : ℚ
  curvePoints : List (ℚ × ℚ)
  chartRadius : ℚ
  totalRadius : ℚ
  showRing : Bool
  outerRingOffset : ℚ
  outerRingWidth : ℚ
  outerRingSizePct : ℚ
  selectedLineIdx : ℤ
  pointRadiusBase : ℚ
  circleFillColor : SglColor
  circleFillColorSelected0 : SglColor
  selectedPointIndices0 : ℤ
  selectedPointIndices1 : ℤ
  nodesList : List (ℚ × ℚ)
  isDarkMode : Bool
  backgroundFillColorDark : SglColor
  backgroundFillColorBright : SglColor

/-- The widget right after construction: the default member initialisers of
`DiagramBase.hpp` (lines 84-150); the window size is that of the base class. -/
def ChordDiagram.new (windowWidth windowHeight : ℚ) : ChordDiagram :=
  { windowWidth := windowWidth
    windowHeight := windowHeight
    borderSizeX := 0
    borderSizeY := 0
    numLinesTotal := 0
    curveThickness := 3 / 2
    curveOpacity := 1 / 10
    curvePoints := []
    chartRadius := 0
    totalRadius := 0
    showRing := true
    outerRingOffset := 3
    outerRingWidth := 0
    outerRingSizePct := 1 / 10
    selectedLineIdx := -1
    pointRadiusBase := 3 / 2
    circleFillColor := { r := 180, g := 180, b := 180, a := 255 }
    circleFillColorSelected0 := { r := 180, g := 80, b := 80, a := 255 }
    selectedPointIndices0 := -1
    selectedPointIndices1 := -1
    nodesList := []
    isDarkMode := true
    backgroundFillColorDark := { r := 20, g := 20, b := 20, a := 255 }
    backgroundFillColorBright := { r := 245, g := 245, b := 245, a := 255 } }

/-- Bounds-checked read `v.at(i)` of a `std::vector` with an `int` index: `none` stands for
the exception `std::out_of_range` (a negative index converts to a huge `size_t`). -/
def vectorAt {α : Type} (v : List α) (i : ℤ) : Option α :=
  if 0 ≤ i then v.get? i.toNat else none

/-- Bounds-checked write `v.at(i) = x` of a `std::vector` with an `int` index: `none` stands
for the exception `std::out_of_range`. -/
def vectorSet {α : Type} (v : List α) (i : ℤ) (x : α) : Option (List α) :=
  if 0 ≤ i ∧ i.toNat < v.length then some (v.set i.toNat x) else none

/-- The method `std::vector::resize(n)`: keep the first `n` elements and fill up with
value-initialised elements. -/
def vectorResize {α : Type} (v : List α) (n : ℕ) (x : α) : List α :=
  v.take n ++ List.replicate (n - v.length) x

/-- A counting loop `for (int i = start; i < start + count; i++) body`, where the body may
throw (`none`). -/
def forLoop {σ : Type} (body : ℕ → σ → Option σ) : ℕ → ℕ → σ → Option σ
  | _, 0, s => some s
  | i, n + 1, s =>
    match body i s with
    | some s1 => forLoop body (i + 1) n s1
    | none => none

/-- The body of the inner loop of `initialize` (lines 87-94): one sample of the curve of
line `lineIdx`. -/
def initCurvePoint (controlPoints : List (ℚ × ℚ)) (lineIdx ptIdx : ℕ)
    (curvePoints : List (ℚ × ℚ)) : Option (List (ℚ × ℚ)) :=
  let t : ℚ := (ptIdx : ℚ) / ((NUM_SUBDIVISIONS - 1 : ℕ) : ℚ)
  let k : ℕ := if controlPoints.length = 3 then 3 else 4
  vectorSet curvePoints ((lineIdx : ℤ) * (NUM_SUBDIVISIONS : ℤ) + (ptIdx : ℤ))
    (evaluateBSpline t k controlPoints)

/-- The body of the outer loop of `initialize` (lines 74-95): the curve of line `lineIdx`
between the nodes `lineIdx / numPoints` and `lineIdx % numPoints`. -/
def initCurve (numPoints : ℕ) (nodesList : List (ℚ × ℚ)) (lineIdx : ℕ)
    (curvePoints : List (ℚ × ℚ)) : Option (List (ℚ × ℚ)) :=
  let i := lineIdx / numPoints
  let j := lineIdx % numPoints
  match vectorAt nodesList (i : ℤ), vectorAt nodesList (j : ℤ) with
  | some pt0, some pt1 =>
    let ptx : ℚ × ℚ := (-1 / 10, 1 / 10)
    let pty : ℚ × ℚ := (1 / 10, -1 / 10)
    let controlPoints := [pt0, ptx, pty, pt1]
    forLoop (initCurvePoint controlPoints lineIdx) 0 NUM_SUBDIVISIONS curvePoints
  | _, _ => none

/-- The body of the node loop of `initialize` (lines 66-69). -/
def initNode (math : FloatMath) (numPoints : ℕ) (i : ℕ) (nodesList : List (ℚ × ℚ)) :
    Option (List (ℚ × ℚ)) :=
  let angle : ℚ := math.twoPi * (i : ℚ) / (numPoints : ℚ)
  vectorSet nodesList (i : ℤ) (math.cos angle, math.sin angle)

/-- Method `DiagramBase::initialize` (lines 57-96), named `initDiagram` here because
`initialize` is a reserved word; `none` stands for an exception thrown by an access out of
range. The library call `_initialize()` does not touch the fields
modelled here. -/
def initDiagram (math : FloatMath) (d : ChordDiagram) : Option ChordDiagram :=
  let d := { d with borderSizeX := 10, borderSizeY := 10 }
  let d := { d with windowWidth := (200 + d.borderSizeX) * 2
                    windowHeight := (200 + d.borderSizeY) * 2 }
  let numPoints : ℕ := 25
  let nodesList := vectorResize d.nodesList numPoints (0, 0)
  match forLoop (initNode math numPoints) 0 numPoints nodesList with
  | none => none
  | some nodesList =>
    let numLinesTotal := numPoints * numPoints
    let curvePoints := vectorResize d.curvePoints (numLinesTotal * NUM_SUBDIVISIONS) (0, 0)
    match forLoop (initCurve numPoints nodesList) 0 numLinesTotal curvePoints with
    | none => none
    | some curvePoints =>
      some { d with nodesList := nodesList
                    numLinesTotal := (numLinesTotal : ℤ)
                    curvePoints := curvePoints }

/-- The function `std::round`: the nearest integer, halfway cases away from zero. -/
def stdRound (x : ℚ) : ℚ :=
  if 0 ≤ x then (⌊x + 1 / 2⌋ : ℤ) else -(⌊-x + 1 / 2⌋ : ℤ)

/-- The layout block of `renderChordDiagramNanoVG` (lines 460-473): border size and radii
from the window size. -/
def updateRadii (d : ChordDiagram) : ChordDiagram :=
  let d :=
    if d.windowWidth < 360 ∨ d.windowHeight < 360 then
      { d with borderSizeX := 10, borderSizeY := 10 }
    else
      { d with borderSizeX := min d.windowWidth d.windowHeight / 36
               borderSizeY := min d.windowWidth d.windowHeight / 36 }
  let minDim := min (d.windowWidth - 2 * d.borderSizeX) (d.windowHeight - 2 * d.borderSizeY)
  let d := { d with totalRadius := stdRound (1 / 2 * minDim) }
  let d :=
    if d.showRing then { d with chartRadius := d.totalRadius * (1 - d.outerRingSizePct) }
    else { d with chartRadius := d.totalRadius }
  let d := { d with outerRingWidth := d.totalRadius - d.chartRadius - d.outerRingOffset }
  { d with chartRadius := d.totalRadius * (1 - d.outerRingSizePct) }

/-- The screen position of the curve sample `curvePoints.at(idx)` (lines 485-487, 490-492
and their copies): `none` when the access is out of range. -/
def curveVertex (d : ChordDiagram) (idx : ℤ) : Option (ℚ × ℚ) :=
  match vectorAt d.curvePoints idx with
  | some pt => some (d.windowWidth / 2 + pt.1 * d.chartRadius,
      d.windowHeight / 2 + pt.2 * d.chartRadius)
  | none => none

/-- The body of the inner loops of `renderChordDiagramNanoVG` (lines 489-494, 509-514 and
523-528): one `nvgLineTo` to the sample `ptIdx` of line `lineIdx`. -/
def curveLineTo (d : ChordDiagram) (lineIdx : ℤ) (ptIdx : ℕ) (cmds : List NvgCmd) :
    Option (List NvgCmd) :=
  match curveVertex d (lineIdx * (NUM_SUBDIVISIONS : ℤ) + (ptIdx : ℤ)) with
  | some pt => some (cmds ++ [NvgCmd.nvgLineTo pt.1 pt.2])
  | none => none

/-- The body of the curve loop of `renderChordDiagramNanoVG` (lines 480-498): the polyline
of one curve that is not selected. -/
def renderCurve (d : ChordDiagram) (curveStrokeColor : NVGcolor) (lineIdx : ℕ)
    (cmds : List NvgCmd) : Option (List NvgCmd) :=
  if (lineIdx : ℤ) = d.selectedLineIdx then some cmds
  else
    let cmds := cmds ++ [NvgCmd.nvgBeginPath]
    match curveVertex d ((lineIdx : ℤ) * (NUM_SUBDIVISIONS : ℤ) + 0) with
    | none => none
    | some pt0 =>
      let cmds := cmds ++ [NvgCmd.nvgMoveTo pt0.1 pt0.2]
      match forLoop (curveLineTo d (lineIdx : ℤ)) 1 (NUM_SUBDIVISIONS - 1) cmds with
      | none => none
      | some cmds => some (cmds ++ [NvgCmd.nvgStrokeColor curveStrokeColor, NvgCmd.nvgStroke])

/-- The block for the selected curve of `renderChordDiagramNanoVG` (lines 500-532): the
outline in the background colour, then the line itself. -/
def renderSelectedCurve (d : ChordDiagram) (curveStrokeColor : NVGcolor)
    (cmds : List NvgCmd) : Option (List NvgCmd) :=
  if 0 ≤ d.selectedLineIdx then
    -- Background color outline.
    let outlineColor :=
      if d.isDarkMode then d.backgroundFillColorDark else d.backgroundFillColorBright
    let cmds := cmds ++ [NvgCmd.nvgStrokeWidth (d.curveThickness * 3), NvgCmd.nvgBeginPath]
    match curveVertex d (d.selectedLineIdx * (NUM_SUBDIVISIONS : ℤ) + 0) with
    | none => none
    | some pt0 =>
      let cmds := cmds ++ [NvgCmd.nvgMoveTo pt0.1 pt0.2]
      match forLoop (curveLineTo d d.selectedLineIdx) 1 (NUM_SUBDIVISIONS - 1) cmds with
      | none => none
      | some cmds =>
        let cmds := cmds ++ [NvgCmd.nvgStrokeColor
          (nvgRGBA outlineColor.r outlineColor.g outlineColor.b outlineColor.a),
          NvgCmd.nvgStroke]
        -- Line itself.
        let cmds := cmds ++ [NvgCmd.nvgStrokeWidth (d.curveThickness * 2), NvgCmd.nvgBeginPath,
          NvgCmd.nvgMoveTo pt0.1 pt0.2]
        match forLoop (curveLineTo d d.selectedLineIdx) 1 (NUM_SUBDIVISIONS - 1) cmds with
        | none => none
        | some cmds =>
          some (cmds ++ [NvgCmd.nvgStrokeColor { curveStrokeColor with a := 1 },
            NvgCmd.nvgStroke])
  else some cmds

/-- The body of the first point loop of `renderChordDiagramNanoVG` (lines 538-547): the
circle of a node that is not selected. -/
def renderPoint (d : ChordDiagram) (pointRadius : ℚ) (leafIdx : ℕ) (cmds : List NvgCmd) :
    Option (List NvgCmd) :=
  match vectorAt d.nodesList (leafIdx : ℤ) with
  | none => none
  | some leaf =>
    let pointIdx : ℤ := (leafIdx : ℤ) - 0
    if pointIdx = d.selectedPointIndices0 ∨ pointIdx = d.selectedPointIndices1 then some cmds
    else
      let pointX := d.windowWidth / 2 + leaf.1 * d.chartRadius
      let pointY := d.windowHeight / 2 + leaf.2 * d.chartRadius
      some (cmds ++ [NvgCmd.nvgCircle pointX pointY pointRadius])

/-- The body of the second point loop of `renderChordDiagramNanoVG` (lines 558-566): the
circle of the selected node number `idx`. -/
def renderSelectedPoint (d : ChordDiagram) (pointRadius : ℚ)
    (circleFillColorSelectedNvg : NVGcolor) (idx : ℕ) (cmds : List NvgCmd) :
    Option (List NvgCmd) :=
  let selected := if idx = 0 then d.selectedPointIndices0 else d.selectedPointIndices1
  match vectorAt d.nodesList (0 + selected) with
  | none => none
  | some leaf =>
    let pointX := d.windowWidth / 2 + leaf.1 * d.chartRadius
    let pointY := d.windowHeight / 2 + leaf.2 * d.chartRadius
    some (cmds ++ [NvgCmd.nvgBeginPath, NvgCmd.nvgCircle pointX pointY (pointRadius * 3 / 2),
      NvgCmd.nvgFillColor circleFillColorSelectedNvg, NvgCmd.nvgFill])

/-- Method `DiagramBase::renderChordDiagramNanoVG` (lines 459-571): the state with the new
radii and the drawing calls in order; `none` stands for an exception thrown by an access out
of range. The body of `renderRings` is commented out in the source and draws nothing. -/
def renderChordDiagramNanoVG (d : ChordDiagram) : Option (ChordDiagram × List NvgCmd) :=
  let d := updateRadii d
  -- Draw the B-spline curves.
  let alpha : ℤ := max 0 (min 255 ⌈d.curveOpacity * 255⌉)
  let curveStrokeColor := nvgRGBA 100 255 100 alpha.toNat
  let curves : Option (List NvgCmd) :=
    if d.curvePoints ≠ [] then
      match forLoop (renderCurve d curveStrokeColor) 0 d.numLinesTotal.toNat
          [NvgCmd.nvgStrokeWidth d.curveThickness] with
      | none => none
      | some cmds => renderSelectedCurve d curveStrokeColor cmds
    else some []
  match curves with
  | none => none
  | some cmds =>
    -- Draw the point circles.
    let pointRadius := d.curveThickness * d.pointRadiusBase
    let cmds := cmds ++ [NvgCmd.nvgBeginPath]
    match forLoop (renderPoint d pointRadius) 0 d.nodesList.length cmds with
    | none => none
    | some cmds =>
      let circleFillColorNvg := nvgRGBA d.circleFillColor.r d.circleFillColor.g
        d.circleFillColor.b d.circleFillColor.a
      let cmds := cmds ++ [NvgCmd.nvgFillColor circleFillColorNvg, NvgCmd.nvgFill]
      let numPointsSelected : ℕ :=
        if d.selectedPointIndices0 < 0 then 0 else (if d.selectedPointIndices1 < 0 then 1 else 2)
      let circleFillColorSelectedNvg := nvgRGBA d.circleFillColorSelected0.r
        d.circleFillColorSelected0.g d.circleFillColorSelected0.b d.circleFillColorSelected0.a
      match forLoop (renderSelectedPoint d pointRadius circleFillColorSelectedNvg) 0
          numPointsSelected cmds with
      | none => none
      | some cmds => some (d, cmds)

/-- The position that the node loop of `initialize` (lines 66-69) computes for node `i` of
`numPoints` nodes on the unit circle. -/
def nodePosition (math : FloatMath) (numPoints i : ℕ) : ℚ × ℚ :=
  (math.cos (math.twoPi * (i : ℚ) / (numPoints : ℚ)),
    math.sin (math.twoPi * (i : ℚ) / (numPoints : ℚ)))

/-- The sample number `ptIdx` that the curve loops of `initialize` (lines 74-94) compute for
the curve between the nodes `i` and `j`: the B-spline of order 4 through the two node
positions and the two fixed control points, at `t = ptIdx / (NUM_SUBDIVISIONS - 1)`. -/
def curveSample (math : FloatMath) (numPoints i j ptIdx : ℕ) : ℚ × ℚ :=
  evaluateBSpline ((ptIdx : ℚ) / ((NUM_SUBDIVISIONS - 1 : ℕ) : ℚ)) 4
    [nodePosition math numPoints i, (-1 / 10, 1 / 10), (1 / 10, -1 / 10),
      nodePosition math numPoints j]

/-- The effect of one NanoVG call on the part of the drawing context that decides what is
stroked: the stroke width in force, the path built since the last `nvgBeginPath`, and the
strokes drawn so far, each with its width and its path. `nvgStroke` strokes the current path
with the width in force and keeps the path. -/
def strokeStep (st : ℚ × List NvgCmd × List (ℚ × List NvgCmd)) (c : NvgCmd) :
    ℚ × List NvgCmd × List (ℚ × List NvgCmd) :=
  match c with
  | NvgCmd.nvgStrokeWidth size => (size, st.2.1, st.2.2)
  | NvgCmd.nvgBeginPath => (st.1, [], st.2.2)
  | NvgCmd.nvgMoveTo x y => (st.1, st.2.1 ++ [NvgCmd.nvgMoveTo x y], st.2.2)
  | NvgCmd.nvgLineTo x y => (st.1, st.2.1 ++ [NvgCmd.nvgLineTo x y], st.2.2)
  | NvgCmd.nvgCircle cx cy r => (st.1, st.2.1 ++ [NvgCmd.nvgCircle cx cy r], st.2.2)
  | NvgCmd.nvgStroke => (st.1, st.2.1, st.2.2 ++ [(st.1, st.2.1)])
  | NvgCmd.nvgStrokeColor _ => st
  | NvgCmd.nvgFillColor _ => st
  | NvgCmd.nvgFill => st

/-- The drawing context after a sequence of NanoVG calls in a fresh frame (stroke width 1,
empty path, nothing stroked). -/
def strokeState (cmds : List NvgCmd) : ℚ × List NvgCmd × List (ℚ × List NvgCmd) :=
  cmds.foldl strokeStep (1, [], [])

/-- The strokes that a sequence of NanoVG calls draws, in order: the width and the path of
every `nvgStroke`. -/
def strokes (cmds : List NvgCmd) : List (ℚ × List NvgCmd) :=
  (strokeState cmds).2.2

/-- The screen position of sample `ptIdx` of line `lineIdx` (lines 485-487), with a default
for an index out of range. -/
def curveVertexD (d : ChordDiagram) (lineIdx : ℤ) (ptIdx : ℕ) : ℚ × ℚ :=
  (curveVertex d (lineIdx * (NUM_SUBDIVISIONS : ℤ) + (ptIdx : ℤ))).getD (0, 0)

/-- The polyline of line `lineIdx`: one `nvgMoveTo` to its sample 0 followed by
`NUM_SUBDIVISIONS - 1` calls of `nvgLineTo` to its samples `1, 2, ...`. -/
def curvePolyline (d : ChordDiagram) (lineIdx : ℤ) : List NvgCmd :=
  NvgCmd.nvgMoveTo (curveVertexD d lineIdx 0).1 (curveVertexD d lineIdx 0).2 ::
    (List.range (NUM_SUBDIVISIONS - 1)).map (fun p =>
      NvgCmd.nvgLineTo (curveVertexD d lineIdx (1 + p)).1 (curveVertexD d lineIdx (1 + p)).2)

/-- A diagram with a single curve of 50 samples, all at the origin, which is the selected
line; no nodes. -/
def oneCurveDiagram : ChordDiagram :=
  { ChordDiagram.new 420 420 with
    numLinesTotal := 1
    curvePoints := List.replicate 50 (0, 0)
    selectedLineIdx := 0 }

/-- Two's complement wrap of an integer into the range of a 32-bit `int`. -/
def wrapInt32 (x : ℤ) : ℤ := (x + 2147483648) % 4294967296 - 2147483648

/-- Rounding of a rational to the nearest integer, ties to the even one. -/
def roundHalfEven (q : ℚ) : ℤ :=
  if q - (⌊q⌋ : ℤ) < 1 / 2 then ⌊q⌋
  else if 1 / 2 < q - (⌊q⌋ : ℤ) then ⌊q⌋ + 1
  else if ⌊q⌋ % 2 = 0 then ⌊q⌋ else ⌊q⌋ + 1

/-- Rounding of an exact value to `float` (IEEE 754 binary32, round to nearest, ties to
even): 24 significant bits, least exponent `-126` (subnormal numbers below), `none` when the
result is infinite. Finite floats are the rationals they denote; the two zeros are not
told apart. -/
def f32round (x : ℚ) : Option ℚ :=
  if x = 0 then some 0
  else
    let e : ℤ := max (Int.log 2 |x|) (-126)
    let ulp : ℚ := (2 : ℚ) ^ (e - 23)
    let y : ℚ := (roundHalfEven (x / ulp) : ℚ) * ulp
    if |y| < (2 : ℚ) ^ (128 : ℤ) then some y else none

/-- The conversion `float(i)` of an `int`. -/
def f32ofInt (i : ℤ) : Option ℚ := f32round (i : ℚ)

/-- The sum of two floats as a float; `none` when it is not finite. -/
def f32add (a b : ℚ) : Option ℚ := f32round (a + b)

/-- The difference of two floats as a float; `none` when it is not finite. -/
def f32sub (a b : ℚ) : Option ℚ := f32round (a - b)

/-- The quotient of two floats as a float; `none` when it is not finite (division by zero
gives an infinity or NaN). -/
def f32div (a b : ℚ) : Option ℚ := if b = 0 then none else f32round (a / b)

/-- The rational `x` is the value of a finite `float`. -/
def IsF32 (x : ℚ) : Prop := f32round x = some x

/-- The float value of `size + float(delta) / scaleFactor` as the machine computes it for an
`int` difference `delta`: the difference wrapped to 32 bits, converted, divided and added,
each step rounded; `none` when a step has no finite result. -/
def growSizeF32 (size scaleFactor : ℚ) (delta : ℤ) : Option ℚ :=
  (f32ofInt (wrapInt32 delta)).bind fun d =>
  (f32div d scaleFactor).bind fun q => f32add size q

/-- The float value of `base + float(delta)` as the machine computes it for an `int`
difference `delta`: the difference wrapped to 32 bits, converted and added, each step
rounded; `none` when a step has no finite result. -/
def dragOffsetF32 (base : ℚ) (delta : ℤ) : Option ℚ :=
  (f32ofInt (wrapInt32 delta)).bind fun d => f32add base d

/-- The `LEFT` block of the resize branch (lines 203-206 and 295-298) in `float` arithmetic:
`windowOffsetX += diffX; windowWidth -= diffX / scaleFactor;`. -/
def resizeLeftF32 (s : DiagramBase) (diffX : ℚ) : Option DiagramBase :=
  if s.resizeDirection &&& LEFT ≠ 0 then
    (f32add s.windowOffsetX diffX).bind fun x =>
    (f32div diffX s.scaleFactor).bind fun q =>
    (f32sub s.windowWidth q).bind fun w =>
    some { s with windowOffsetX := x, windowWidth := w }
  else some s

/-- The `RIGHT` block of the resize branch (lines 207-209 and 299-301) in `float`
arithmetic: `windowWidth += diffX / scaleFactor;`. -/
def resizeRightF32 (s : DiagramBase) (diffX : ℚ) : Option DiagramBase :=
  if s.resizeDirection &&& RIGHT ≠ 0 then
    (f32div diffX s.scaleFactor).bind fun q =>
    (f32add s.windowWidth q).bind fun w =>
    some { s with windowWidth := w }
  else some s

/-- The `BOTTOM` block of the resize branch (lines 210-213 and 302-305) in `float`
arithmetic: `windowOffsetY += diffY; windowHeight -= diffY / scaleFactor;`. -/
def resizeBottomF32 (s : DiagramBase) (diffY : ℚ) : Option DiagramBase :=
  if s.resizeDirection &&& BOTTOM ≠ 0 then
    (f32add s.windowOffsetY diffY).bind fun y =>
    (f32div diffY s.scaleFactor).bind fun q =>
    (f32sub s.windowHeight q).bind fun h =>
    some { s with windowOffsetY := y, windowHeight := h }
  else some s

/-- The `TOP` block of the resize branch (lines 214-216 and 306-308) in `float` arithmetic:
`windowHeight += diffY / scaleFactor;`. -/
def resizeTopF32 (s : DiagramBase) (diffY : ℚ) : Option DiagramBase :=
  if s.resizeDirection &&& TOP ≠ 0 then
    (f32div diffY s.scaleFactor).bind fun q =>
    (f32add s.windowHeight q).bind fun h =>
    some { s with windowHeight := h }
  else some s

/-- The resize branch of `mouseMoveEvent` (lines 200-221) and `mouseMoveEventParent`
(lines 292-313) with the machine arithmetic made explicit: the `int` subtractions wrap to
32 bits, `float(int)` and every `float` operation round to the nearest `float`. The result is
`none` when a `float` result is not finite (an infinity or NaN, which the rational fields of
the state cannot hold). -/
def resizeByMouseDeltaF32 (s : DiagramBase) (m : SglFrame) (px py : ℤ) : Option DiagramBase :=
  (f32ofInt (wrapInt32 (px - s.lastResizeMouseX))).bind fun diffX =>
  (f32ofInt (wrapInt32 (py - s.lastResizeMouseY))).bind fun diffY =>
  (resizeLeftF32 s diffX).bind fun s =>
  (resizeRightF32 s diffX).bind fun s =>
  (resizeBottomF32 s diffY).bind fun s =>
  (resizeTopF32 s diffY).bind fun s =>
  some { s with lastResizeMouseX := px
                lastResizeMouseY := py
                needsReRender := true
                fboWidthDisplay := m.fboWidthDisplay
                fboHeightDisplay := m.fboHeightDisplay }

/-- The drag block of `mouseMoveEvent` (lines 276-280) and `mouseMoveEventParent`
(lines 322-326) with the machine arithmetic made explicit:
`windowOffsetX = windowOffsetXBase + float(mousePositionPx.x - mouseDragStartPosX)` with a
32-bit `int` subtraction, a rounding conversion and a rounding sum; `none` when a `float`
result is not finite. -/
def dragWindowOffsetF32 (s : DiagramBase) (px py : ℤ) : Option DiagramBase :=
  if s.isDraggingWindow then
    (f32ofInt (wrapInt32 (px - s.mouseDragStartPosX))).bind fun dx =>
    (f32add s.windowOffsetXBase dx).bind fun x =>
    (f32ofInt (wrapInt32 (py - s.mouseDragStartPosY))).bind fun dy =>
    (f32add s.windowOffsetYBase dy).bind fun y =>
    some { s with windowOffsetX := x, windowOffsetY := y, needsReRender := true }
  else some s

/-- Method `DiagramBase::mouseMoveEvent` (lines 191-281) with the machine arithmetic of the
geometry updates made explicit. -/
def mouseMoveEventF32 (s : DiagramBase) (m : SglFrame) (px py : ℤ) : Option DiagramBase :=
  let s := if m.buttonReleased then endMoveOrResize s px py else s
  (if s.resizeDirection ≠ NONE then resizeByMouseDeltaF32 s m px py
    else some (updateCursorShape s px py)).bind fun s =>
  dragWindowOffsetF32 s px py

/-- Method `DiagramBase::mouseMoveEventParent` (lines 283-327) with the machine arithmetic
of the geometry updates made explicit. -/
def mouseMoveEventParentF32 (s : DiagramBase) (m : SglFrame) (px py : ℤ) :
    Option DiagramBase :=
  let s := if m.isButtonUp then endMoveOrResize s px py else s
  (if s.resizeDirection ≠ NONE then resizeByMouseDeltaF32 s m px py
    else some (resetCursorShape s)).bind fun s =>
  dragWindowOffsetF32 s px py

/-- The block "Mouse move event." of `update` (lines 155-162) over the handlers with
explicit machine arithmetic. -/
def mouseMoveDispatchF32 (s : DiagramBase) (m : SglFrame) (isMouseOverDiagram : Bool)
    (px py : ℤ) : Option DiagramBase :=
  if m.mouseMoved then
    if isMouseOverDiagram || s.isMouseGrabbed then mouseMoveEventF32 s m px py
    else mouseMoveEventParentF32 s m px py
  else some s

/-- Method `DiagramBase::update` (lines 133-172) over the move handlers with explicit
machine arithmetic; `none` when a `float` result is not finite. -/
def updateF32 (s : DiagramBase) (m : SglFrame) : Option DiagramBase :=
  let p := mousePositionPx s m
  let isMouseOverDiagram : Bool := m.isMouseOverDiagram && !s.isMouseGrabbedByParent
  let s := { s with windowMoveOrResizeJustFinished := false }
  let s := mousePressEvent s m isMouseOverDiagram p.1 p.2
  (mouseMoveDispatchF32 s m isMouseOverDiagram p.1 p.2).map fun s =>
    mouseReleaseEvent s m p.1 p.2

/-- A run of `updateF32` calls, one per reported frame. -/
def runUpdatesF32 (s : DiagramBase) : List SglFrame → Option DiagramBase
  | [] => some s
  | f :: fs => (updateF32 s f).bind fun s1 => runUpdatesF32 s1 fs

/-- Frame of `checkWindowMoveOrResizeJustFinished`: only the just-finished flag may change. -/
@[simp]
theorem checkWindowMoveOrResizeJustFinished_frame (s : DiagramBase) (px py : ℤ) :
    (checkWindowMoveOrResizeJustFinished s px py).windowOffsetX = s.windowOffsetX ∧
    (checkWindowMoveOrResizeJustFinished s px py).windowOffsetY = s.windowOffsetY ∧
    (checkWindowMoveOrResizeJustFinished s px py).windowWidth = s.windowWidth ∧
    (checkWindowMoveOrResizeJustFinished s px py).windowHeight = s.windowHeight ∧
    (checkWindowMoveOrResizeJustFinished s px py).scaleFactor = s.scaleFactor ∧
    (checkWindowMoveOrResizeJustFinished s px py).fboWidthDisplay = s.fboWidthDisplay ∧
    (checkWindowMoveOrResizeJustFinished s px py).fboHeightDisplay = s.fboHeightDisplay ∧
    (checkWindowMoveOrResizeJustFinished s px py).needsReRender = s.needsReRender ∧
    (checkWindowMoveOrResizeJustFinished s px py).isDraggingWindow = s.isDraggingWindow ∧
    (checkWindowMoveOrResizeJustFinished s px py).mouseDragStartPosX = s.mouseDragStartPosX ∧
    (checkWindowMoveOrResizeJustFinished s px py).mouseDragStartPosY = s.mouseDragStartPosY ∧
    (checkWindowMoveOrResizeJustFinished s px py).windowOffsetXBase = s.windowOffsetXBase ∧
    (checkWindowMoveOrResizeJustFinished s px py).windowOffsetYBase = s.windowOffsetYBase ∧
    (checkWindowMoveOrResizeJustFinished s px py).isResizingWindow = s.isResizingWindow ∧
    (checkWindowMoveOrResizeJustFinished s px py).resizeDirection = s.resizeDirection ∧
    (checkWindowMoveOrResizeJustFinished s px py).resizeMargin = s.resizeMargin ∧
    (checkWindowMoveOrResizeJustFinished s px py).lastResizeMouseX = s.lastResizeMouseX ∧
    (checkWindowMoveOrResizeJustFinished s px py).lastResizeMouseY = s.lastResizeMouseY ∧
    (checkWindowMoveOrResizeJustFinished s px py).cursorShape = s.cursorShape ∧
    (checkWindowMoveOrResizeJustFinished s px py).imGuiWindowOffsetX = s.imGuiWindowOffsetX ∧
    (checkWindowMoveOrResizeJustFinished s px py).imGuiWindowOffsetY = s.imGuiWindowOffsetY ∧
    (checkWindowMoveOrResizeJustFinished s px py).isMouseGrabbedByParent = s.isMouseGrabbedByParent ∧
    (checkWindowMoveOrResizeJustFinished s px py).isMouseGrabbed = s.isMouseGrabbed ∧
    (checkWindowMoveOrResizeJustFinished s px py).isWindowFixed = s.isWindowFixed := by
  simp only [checkWindowMoveOrResizeJustFinished]
  split_ifs <;> simp

/-- Frame of `endMoveOrResize`: only the flag and the three gesture fields change. -/
@[simp]
theorem endMoveOrResize_frame (s : DiagramBase) (px py : ℤ) :
    (endMoveOrResize s px py).windowOffsetX = s.windowOffsetX ∧
    (endMoveOrResize s px py).windowOffsetY = s.windowOffsetY ∧
    (endMoveOrResize s px py).windowWidth = s.windowWidth ∧
    (endMoveOrResize s px py).windowHeight = s.windowHeight ∧
    (endMoveOrResize s px py).scaleFactor = s.scaleFactor ∧
    (endMoveOrResize s px py).fboWidthDisplay = s.fboWidthDisplay ∧
    (endMoveOrResize s px py).fboHeightDisplay = s.fboHeightDisplay ∧
    (endMoveOrResize s px py).needsReRender = s.needsReRender ∧
    (endMoveOrResize s px py).mouseDragStartPosX = s.mouseDragStartPosX ∧
    (endMoveOrResize s px py).mouseDragStartPosY = s.mouseDragStartPosY ∧
    (endMoveOrResize s px py).windowOffsetXBase = s.windowOffsetXBase ∧
    (endMoveOrResize s px py).windowOffsetYBase = s.windowOffsetYBase ∧
    (endMoveOrResize s px py).resizeMargin = s.resizeMargin ∧
    (endMoveOrResize s px py).lastResizeMouseX = s.lastResizeMouseX ∧
    (endMoveOrResize s px py).lastResizeMouseY = s.lastResizeMouseY ∧
    (endMoveOrResize s px py).cursorShape = s.cursorShape ∧
    (endMoveOrResize s px py).imGuiWindowOffsetX = s.imGuiWindowOffsetX ∧
    (endMoveOrResize s px py).imGuiWindowOffsetY = s.imGuiWindowOffsetY ∧
    (endMoveOrResize s px py).isMouseGrabbedByParent = s.isMouseGrabbedByParent ∧
    (endMoveOrResize s px py).isMouseGrabbed = s.isMouseGrabbed ∧
    (endMoveOrResize s px py).isWindowFixed = s.isWindowFixed := by
  simp [endMoveOrResize]

/-- Frame of `resizeByMouseDelta`: geometry, last pointer and render flag only. -/
@[simp]
theorem resizeByMouseDelta_frame (s : DiagramBase) (m : SglFrame) (px py : ℤ) :
    (resizeByMouseDelta s m px py).scaleFactor = s.scaleFactor ∧
    (resizeByMouseDelta s m px py).isDraggingWindow = s.isDraggingWindow ∧
    (resizeByMouseDelta s m px py).mouseDragStartPosX = s.mouseDragStartPosX ∧
    (resizeByMouseDelta s m px py).mouseDragStartPosY = s.mouseDragStartPosY ∧
    (resizeByMouseDelta s m px py).windowOffsetXBase = s.windowOffsetXBase ∧
    (resizeByMouseDelta s m px py).windowOffsetYBase = s.windowOffsetYBase ∧
    (resizeByMouseDelta s m px py).isResizingWindow = s.isResizingWindow ∧
    (resizeByMouseDelta s m px py).resizeDirection = s.resizeDirection ∧
    (resizeByMouseDelta s m px py).resizeMargin = s.resizeMargin ∧
    (resizeByMouseDelta s m px py).cursorShape = s.cursorShape ∧
    (resizeByMouseDelta s m px py).imGuiWindowOffsetX = s.imGuiWindowOffsetX ∧
    (resizeByMouseDelta s m px py).imGuiWindowOffsetY = s.imGuiWindowOffsetY ∧
    (resizeByMouseDelta s m px py).isMouseGrabbedByParent = s.isMouseGrabbedByParent ∧
    (resizeByMouseDelta s m px py).isMouseGrabbed = s.isMouseGrabbed ∧
    (resizeByMouseDelta s m px py).windowMoveOrResizeJustFinished = s.windowMoveOrResizeJustFinished ∧
    (resizeByMouseDelta s m px py).isWindowFixed = s.isWindowFixed := by
  simp only [resizeByMouseDelta]
  split_ifs <;> simp

/-- Frame of `updateCursorShape`: only the cursor shape changes. -/
@[simp]
theorem updateCursorShape_frame (s : DiagramBase) (px py : ℤ) :
    (updateCursorShape s px py).windowOffsetX = s.windowOffsetX ∧
    (updateCursorShape s px py).windowOffsetY = s.windowOffsetY ∧
    (updateCursorShape s px py).windowWidth = s.windowWidth ∧
    (updateCursorShape s px py).windowHeight = s.windowHeight ∧
    (updateCursorShape s px py).scaleFactor = s.scaleFactor ∧
    (updateCursorShape s px py).fboWidthDisplay = s.fboWidthDisplay ∧
    (updateCursorShape s px py).fboHeightDisplay = s.fboHeightDisplay ∧
    (updateCursorShape s px py).needsReRender = s.needsReRender ∧
    (updateCursorShape s px py).isDraggingWindow = s.isDraggingWindow ∧
    (updateCursorShape s px py).mouseDragStartPosX = s.mouseDragStartPosX ∧
    (updateCursorShape s px py).mouseDragStartPosY = s.mouseDragStartPosY ∧
    (updateCursorShape s px py).windowOffsetXBase = s.windowOffsetXBase ∧
    (updateCursorShape s px py).windowOffsetYBase = s.windowOffsetYBase ∧
    (updateCursorShape s px py).isResizingWindow = s.isResizingWindow ∧
    (updateCursorShape s px py).resizeDirection = s.resizeDirection ∧
    (updateCursorShape s px py).resizeMargin = s.resizeMargin ∧
    (updateCursorShape s px py).lastResizeMouseX = s.lastResizeMouseX ∧
    (updateCursorShape s px py).lastResizeMouseY = s.lastResizeMouseY ∧
    (updateCursorShape s px py).imGuiWindowOffsetX = s.imGuiWindowOffsetX ∧
    (updateCursorShape s px py).imGuiWindowOffsetY = s.imGuiWindowOffsetY ∧
    (updateCursorShape s px py).isMouseGrabbedByParent = s.isMouseGrabbedByParent ∧
    (updateCursorShape s px py).isMouseGrabbed = s.isMouseGrabbed ∧
    (updateCursorShape s px py).windowMoveOrResizeJustFinished = s.windowMoveOrResizeJustFinished ∧
    (updateCursorShape s px py).isWindowFixed = s.isWindowFixed := by
  simp only [updateCursorShape]
  split_ifs <;> simp

/-- Frame of `resetCursorShape`: only the cursor shape changes. -/
@[simp]
theorem resetCursorShape_frame (s : DiagramBase) :
    (resetCursorShape s).windowOffsetX = s.windowOffsetX ∧
    (resetCursorShape s).windowOffsetY = s.windowOffsetY ∧
    (resetCursorShape s).windowWidth = s.windowWidth ∧
    (resetCursorShape s).windowHeight = s.windowHeight ∧
    (resetCursorShape s).scaleFactor = s.scaleFactor ∧
    (resetCursorShape s).fboWidthDisplay = s.fboWidthDisplay ∧
    (resetCursorShape s).fboHeightDisplay = s.fboHeightDisplay ∧
    (resetCursorShape s).needsReRender = s.needsReRender ∧
    (resetCursorShape s).isDraggingWindow = s.isDraggingWindow ∧
    (resetCursorShape s).mouseDragStartPosX = s.mouseDragStartPosX ∧
    (resetCursorShape s).mouseDragStartPosY = s.mouseDragStartPosY ∧
    (resetCursorShape s).windowOffsetXBase = s.windowOffsetXBase ∧
    (resetCursorShape s).windowOffsetYBase = s.windowOffsetYBase ∧
    (resetCursorShape s).isResizingWindow = s.isResizingWindow ∧
    (resetCursorShape s).resizeDirection = s.resizeDirection ∧
    (resetCursorShape s).resizeMargin = s.resizeMargin ∧
    (resetCursorShape s).lastResizeMouseX = s.lastResizeMouseX ∧
    (resetCursorShape s).lastResizeMouseY = s.lastResizeMouseY ∧
    (resetCursorShape s).imGuiWindowOffsetX = s.imGuiWindowOffsetX ∧
    (resetCursorShape s).imGuiWindowOffsetY = s.imGuiWindowOffsetY ∧
    (resetCursorShape s).isMouseGrabbedByParent = s.isMouseGrabbedByParent ∧
    (resetCursorShape s).isMouseGrabbed = s.isMouseGrabbed ∧
    (resetCursorShape s).windowMoveOrResizeJustFinished = s.windowMoveOrResizeJustFinished ∧
    (resetCursorShape s).isWindowFixed = s.isWindowFixed := by
  simp only [resetCursorShape]
  split_ifs <;> simp

/-- Frame of `dragWindowOffset`: only the window offset and the render flag change. -/
@[simp]
theorem dragWindowOffset_frame (s : DiagramBase) (px py : ℤ) :
    (dragWindowOffset s px py).windowWidth = s.windowWidth ∧
    (dragWindowOffset s px py).windowHeight = s.windowHeight ∧
    (dragWindowOffset s px py).scaleFactor = s.scaleFactor ∧
    (dragWindowOffset s px py).fboWidthDisplay = s.fboWidthDisplay ∧
    (dragWindowOffset s px py).fboHeightDisplay = s.fboHeightDisplay ∧
    (dragWindowOffset s px py).isDraggingWindow = s.isDraggingWindow ∧
    (dragWindowOffset s px py).mouseDragStartPosX = s.mouseDragStartPosX ∧
    (dragWindowOffset s px py).mouseDragStartPosY = s.mouseDragStartPosY ∧
    (dragWindowOffset s px py).windowOffsetXBase = s.windowOffsetXBase ∧
    (dragWindowOffset s px py).windowOffsetYBase = s.windowOffsetYBase ∧
    (dragWindowOffset s px py).isResizingWindow = s.isResizingWindow ∧
    (dragWindowOffset s px py).resizeDirection = s.resizeDirection ∧
    (dragWindowOffset s px py).resizeMargin = s.resizeMargin ∧
    (dragWindowOffset s px py).lastResizeMouseX = s.lastResizeMouseX ∧
    (dragWindowOffset s px py).lastResizeMouseY = s.lastResizeMouseY ∧
    (dragWindowOffset s px py).cursorShape = s.cursorShape ∧
    (dragWindowOffset s px py).imGuiWindowOffsetX = s.imGuiWindowOffsetX ∧
    (dragWindowOffset s px py).imGuiWindowOffsetY = s.imGuiWindowOffsetY ∧
    (dragWindowOffset s px py).isMouseGrabbedByParent = s.isMouseGrabbedByParent ∧
    (dragWindowOffset s px py).isMouseGrabbed = s.isMouseGrabbed ∧
    (dragWindowOffset s px py).windowMoveOrResizeJustFinished = s.windowMoveOrResizeJustFinished ∧
    (dragWindowOffset s px py).isWindowFixed = s.isWindowFixed := by
  simp only [dragWindowOffset]
  split_ifs <;> simp

/-- Frame of `mousePressEventResizeWindow`: direction, resize flag and last pointer only. -/
@[simp]
theorem mousePressEventResizeWindow_frame (s : DiagramBase) (m : SglFrame) (px py : ℤ) :
    (mousePressEventResizeWindow s m px py).windowOffsetX = s.windowOffsetX ∧
    (mousePressEventResizeWindow s m px py).windowOffsetY = s.windowOffsetY ∧
    (mousePressEventResizeWindow s m px py).windowWidth = s.windowWidth ∧
    (mousePressEventResizeWindow s m px py).windowHeight = s.windowHeight ∧
    (mousePressEventResizeWindow s m px py).scaleFactor = s.scaleFactor ∧
    (mousePressEventResizeWindow s m px py).fboWidthDisplay = s.fboWidthDisplay ∧
    (mousePressEventResizeWindow s m px py).fboHeightDisplay = s.fboHeightDisplay ∧
    (mousePressEventResizeWindow s m px py).needsReRender = s.needsReRender ∧
    (mousePressEventResizeWindow s m px py).isDraggingWindow = s.isDraggingWindow ∧
    (mousePressEventResizeWindow s m px py).mouseDragStartPosX = s.mouseDragStartPosX ∧
    (mousePressEventResizeWindow s m px py).mouseDragStartPosY = s.mouseDragStartPosY ∧
    (mousePressEventResizeWindow s m px py).windowOffsetXBase = s.windowOffsetXBase ∧
    (mousePressEventResizeWindow s m px py).windowOffsetYBase = s.windowOffsetYBase ∧
    (mousePressEventResizeWindow s m px py).resizeMargin = s.resizeMargin ∧
    (mousePressEventResizeWindow s m px py).cursorShape = s.cursorShape ∧
    (mousePressEventResizeWindow s m px py).imGuiWindowOffsetX = s.imGuiWindowOffsetX ∧
    (mousePressEventResizeWindow s m px py).imGuiWindowOffsetY = s.imGuiWindowOffsetY ∧
    (mousePressEventResizeWindow s m px py).isMouseGrabbedByParent = s.isMouseGrabbedByParent ∧
    (mousePressEventResizeWindow s m px py).isMouseGrabbed = s.isMouseGrabbed ∧
    (mousePressEventResizeWindow s m px py).windowMoveOrResizeJustFinished = s.windowMoveOrResizeJustFinished ∧
    (mousePressEventResizeWindow s m px py).isWindowFixed = s.isWindowFixed := by
  simp only [mousePressEventResizeWindow]
  split_ifs <;> simp

/-- Frame of `mousePressEventMoveWindow`: drag flag, offset base and drag start only. -/
@[simp]
theorem mousePressEventMoveWindow_frame (s : DiagramBase) (m : SglFrame) (px py : ℤ) :
    (mousePressEventMoveWindow s m px py).windowOffsetX = s.windowOffsetX ∧
    (mousePressEventMoveWindow s m px py).windowOffsetY = s.windowOffsetY ∧
    (mousePressEventMoveWindow s m px py).windowWidth = s.windowWidth ∧
    (mousePressEventMoveWindow s m px py).windowHeight = s.windowHeight ∧
    (mousePressEventMoveWindow s m px py).scaleFactor = s.scaleFactor ∧
    (mousePressEventMoveWindow s m px py).fboWidthDisplay = s.fboWidthDisplay ∧
    (mousePressEventMoveWindow s m px py).fboHeightDisplay = s.fboHeightDisplay ∧
    (mousePressEventMoveWindow s m px py).needsReRender = s.needsReRender ∧
    (mousePressEventMoveWindow s m px py).isResizingWindow = s.isResizingWindow ∧
    (mousePressEventMoveWindow s m px py).resizeDirection = s.resizeDirection ∧
    (mousePressEventMoveWindow s m px py).resizeMargin = s.resizeMargin ∧
    (mousePressEventMoveWindow s m px py).lastResizeMouseX = s.lastResizeMouseX ∧
    (mousePressEventMoveWindow s m px py).lastResizeMouseY = s.lastResizeMouseY ∧
    (mousePressEventMoveWindow s m px py).cursorShape = s.cursorShape ∧
    (mousePressEventMoveWindow s m px py).imGuiWindowOffsetX = s.imGuiWindowOffsetX ∧
    (mousePressEventMoveWindow s m px py).imGuiWindowOffsetY = s.imGuiWindowOffsetY ∧
    (mousePressEventMoveWindow s m px py).isMouseGrabbedByParent = s.isMouseGrabbedByParent ∧
    (mousePressEventMoveWindow s m px py).isMouseGrabbed = s.isMouseGrabbed ∧
    (mousePressEventMoveWindow s m px py).windowMoveOrResizeJustFinished = s.windowMoveOrResizeJustFinished ∧
    (mousePressEventMoveWindow s m px py).isWindowFixed = s.isWindowFixed := by
  simp only [mousePressEventMoveWindow]
  split_ifs <;> simp

/-- Value of the just-finished flag after `checkWindowMoveOrResizeJustFinished`. -/
@[simp]
theorem checkWindowMoveOrResizeJustFinished_flag (s : DiagramBase) (px py : ℤ) :
    (checkWindowMoveOrResizeJustFinished s px py).windowMoveOrResizeJustFinished =
      (s.windowMoveOrResizeJustFinished || s.isResizingWindow ||
        (s.isDraggingWindow &&
          (decide (px ≠ s.mouseDragStartPosX) || decide (py ≠ s.mouseDragStartPosY)))) := by
  simp only [checkWindowMoveOrResizeJustFinished]
  cases hd : s.isDraggingWindow <;> cases hz : s.isResizingWindow <;>
    cases hf : s.windowMoveOrResizeJustFinished <;>
    by_cases hx : px = s.mouseDragStartPosX <;> by_cases hy : py = s.mouseDragStartPosY <;>
    simp [hd, hz, hf, hx, hy, sub_eq_zero]

/-- Values of the fields that `endMoveOrResize` writes. -/
@[simp]
theorem endMoveOrResize_values (s : DiagramBase) (px py : ℤ) :
    (endMoveOrResize s px py).resizeDirection = NONE ∧
    (endMoveOrResize s px py).isDraggingWindow = false ∧
    (endMoveOrResize s px py).isResizingWindow = false ∧
    (endMoveOrResize s px py).windowMoveOrResizeJustFinished =
      (s.windowMoveOrResizeJustFinished || s.isResizingWindow ||
        (s.isDraggingWindow &&
          (decide (px ≠ s.mouseDragStartPosX) || decide (py ≠ s.mouseDragStartPosY)))) := by
  simp [endMoveOrResize]

/-- Gesture fields are not touched by `mouseMoveEvent` when no release is reported. -/
theorem mouseMoveEvent_gesture (s : DiagramBase) (m : SglFrame) (px py : ℤ)
    (hr : m.buttonReleased = false) :
    (mouseMoveEvent s m px py).isDraggingWindow = s.isDraggingWindow ∧
    (mouseMoveEvent s m px py).isResizingWindow = s.isResizingWindow ∧
    (mouseMoveEvent s m px py).resizeDirection = s.resizeDirection ∧
    (mouseMoveEvent s m px py).isMouseGrabbed = s.isMouseGrabbed ∧
    (mouseMoveEvent s m px py).windowMoveOrResizeJustFinished =
      s.windowMoveOrResizeJustFinished := by
  simp only [mouseMoveEvent, hr]
  by_cases h : s.resizeDirection = NONE <;> simp [h]

/-- The direction that `mousePressEventResizeWindow` stores on a press. -/
theorem mousePressEventResizeWindow_direction (s : DiagramBase) (m : SglFrame) (px py : ℤ)
    (hp : m.buttonPressed = true) :
    (mousePressEventResizeWindow s m px py).resizeDirection =
      (if (leftAabb s).contains px py then LEFT else NONE) |||
      (if (rightAabb s).contains px py then RIGHT else NONE) |||
      (if (bottomAabb s).contains px py then BOTTOM else NONE) |||
      (if (topAabb s).contains px py then TOP else NONE) := by
  simp only [mousePressEventResizeWindow, hp]
  cases (leftAabb s).contains px py <;> cases (rightAabb s).contains px py <;>
    cases (bottomAabb s).contains px py <;> cases (topAabb s).contains px py <;> simp

/-- On a press the stored direction is non-zero exactly when some margin is hit. -/
theorem mousePressEventResizeWindow_direction_ne_none (s : DiagramBase) (m : SglFrame)
    (px py : ℤ) (hp : m.buttonPressed = true) :
    (mousePressEventResizeWindow s m px py).resizeDirection ≠ NONE ↔
      ((leftAabb s).contains px py = true ∨ (rightAabb s).contains px py = true ∨
       (bottomAabb s).contains px py = true ∨ (topAabb s).contains px py = true) := by
  rw [mousePressEventResizeWindow_direction s m px py hp]
  cases (leftAabb s).contains px py <;> cases (rightAabb s).contains px py <;>
    cases (bottomAabb s).contains px py <;> cases (topAabb s).contains px py <;> simp

/-- On a press the resize flag is raised exactly when the stored direction is non-zero. -/
theorem mousePressEventResizeWindow_isResizingWindow (s : DiagramBase) (m : SglFrame)
    (px py : ℤ) (hp : m.buttonPressed = true) :
    (mousePressEventResizeWindow s m px py).isResizingWindow =
      (s.isResizingWindow ||
        decide ((mousePressEventResizeWindow s m px py).resizeDirection ≠ NONE)) := by
  simp only [mousePressEventResizeWindow, hp]
  split_ifs with h <;> simp_all

/-- On a press the drag flag is raised exactly when no direction is active. -/
theorem mousePressEventMoveWindow_isDraggingWindow (s : DiagramBase) (m : SglFrame)
    (px py : ℤ) (hp : m.buttonPressed = true) :
    (mousePressEventMoveWindow s m px py).isDraggingWindow =
      (s.isDraggingWindow || decide (s.resizeDirection = NONE)) := by
  simp only [mousePressEventMoveWindow, hp]
  split_ifs with h <;> simp_all

/-- The state after the press block of `update` when a press is delivered to the widget. -/
theorem update_of_press (s : DiagramBase) (m : SglFrame)
    (hp : m.buttonPressed = true) (hr : m.buttonReleased = false)
    (ho : m.isMouseOverDiagram = true) (hg : s.isMouseGrabbedByParent = false)
    (hf : s.isWindowFixed = false) :
    update s m =
      (if m.mouseMoved = true then
        mouseMoveEvent
          (mousePressEventMoveWindow
            (mousePressEventResizeWindow
              { s with windowMoveOrResizeJustFinished := false, isMouseGrabbed := true }
              m (mousePositionPx s m).1 (mousePositionPx s m).2)
            m (mousePositionPx s m).1 (mousePositionPx s m).2)
          m (mousePositionPx s m).1 (mousePositionPx s m).2
      else
        mousePressEventMoveWindow
          (mousePressEventResizeWindow
            { s with windowMoveOrResizeJustFinished := false, isMouseGrabbed := true }
            m (mousePositionPx s m).1 (mousePositionPx s m).2)
          m (mousePositionPx s m).1 (mousePositionPx s m).2) := by
  simp [update, mousePressEvent, mouseMoveDispatch, mouseReleaseEvent, hp, hr, ho, hg, hf]

/-- Claim C1. A primary-button press (no release) delivered to an idle widget (not
dragging, not resizing; the old direction is overwritten by the press) with the pointer over
the diagram, the mouse not grabbed by the parent and the window not fixed: afterwards
`isResizingWindow` holds exactly when the pointer lies in at least one of the four
edge-margin rectangles, `isDraggingWindow` exactly when it lies in none of them, and
`isMouseGrabbed` is true. -/
theorem update_press_idle_starts_resize_or_drag (s : DiagramBase) (m : SglFrame)
    (hp : m.buttonPressed = true) (hr : m.buttonReleased = false)
    (hd : s.isDraggingWindow = false) (hz : s.isResizingWindow = false)
    (ho : m.isMouseOverDiagram = true) (hg : s.isMouseGrabbedByParent = false)
    (hf : s.isWindowFixed = false) :
    ((update s m).isResizingWindow = true ↔
      ((leftAabb s).contains (mousePositionPx s m).1 (mousePositionPx s m).2 = true ∨
       (rightAabb s).contains (mousePositionPx s m).1 (mousePositionPx s m).2 = true ∨
       (bottomAabb s).contains (mousePositionPx s m).1 (mousePositionPx s m).2 = true ∨
       (topAabb s).contains (mousePositionPx s m).1 (mousePositionPx s m).2 = true)) ∧
    ((update s m).isDraggingWindow = true ↔
      ¬ ((leftAabb s).contains (mousePositionPx s m).1 (mousePositionPx s m).2 = true ∨
       (rightAabb s).contains (mousePositionPx s m).1 (mousePositionPx s m).2 = true ∨
       (bottomAabb s).contains (mousePositionPx s m).1 (mousePositionPx s m).2 = true ∨
       (topAabb s).contains (mousePositionPx s m).1 (mousePositionPx s m).2 = true)) ∧
    (update s m).isMouseGrabbed = true := by
  rw [update_of_press s m hp hr ho hg hf]
  generalize (mousePositionPx s m).1 = px
  generalize (mousePositionPx s m).2 = py
  set s0 : DiagramBase :=
    { s with windowMoveOrResizeJustFinished := false, isMouseGrabbed := true } with hs0
  have hgeo : leftAabb s0 = leftAabb s ∧ rightAabb s0 = rightAabb s ∧
      bottomAabb s0 = bottomAabb s ∧ topAabb s0 = topAabb s := ⟨rfl, rfl, rfl, rfl⟩
  have hne := mousePressEventResizeWindow_direction_ne_none s0 m px py hp
  rw [hgeo.1, hgeo.2.1, hgeo.2.2.1, hgeo.2.2.2] at hne
  have hres := mousePressEventResizeWindow_isResizingWindow s0 m px py hp
  have hdrag := mousePressEventMoveWindow_isDraggingWindow
    (mousePressEventResizeWindow s0 m px py) m px py hp
  have hmv := mouseMoveEvent_gesture
    (mousePressEventMoveWindow (mousePressEventResizeWindow s0 m px py) m px py) m px py hr
  have hz0 : s0.isResizingWindow = false := hz
  have hd0 : s0.isDraggingWindow = false := hd
  have hg0 : s0.isMouseGrabbed = true := rfl
  rw [← hne]
  split_ifs
  · rw [hmv.1, hmv.2.1, hmv.2.2.2.1]
    simp [hres, hdrag, hz0, hd0, hg0, hz, hd]
  · simp [hres, hdrag, hz0, hd0, hg0, hz, hd]

/-- Without a press `mousePressEventResizeWindow` does nothing. -/
theorem mousePressEventResizeWindow_of_not_pressed (s : DiagramBase) (m : SglFrame)
    (px py : ℤ) (hp : m.buttonPressed = false) :
    mousePressEventResizeWindow s m px py = s := by
  simp [mousePressEventResizeWindow, hp]

/-- Without a press `mousePressEventMoveWindow` does nothing. -/
theorem mousePressEventMoveWindow_of_not_pressed (s : DiagramBase) (m : SglFrame)
    (px py : ℤ) (hp : m.buttonPressed = false) :
    mousePressEventMoveWindow s m px py = s := by
  simp [mousePressEventMoveWindow, hp]

/-- Drag start and offset base are never written by `mouseMoveEvent`. -/
@[simp]
theorem mouseMoveEvent_dragStart (s : DiagramBase) (m : SglFrame) (px py : ℤ) :
    (mouseMoveEvent s m px py).mouseDragStartPosX = s.mouseDragStartPosX ∧
    (mouseMoveEvent s m px py).mouseDragStartPosY = s.mouseDragStartPosY ∧
    (mouseMoveEvent s m px py).windowOffsetXBase = s.windowOffsetXBase ∧
    (mouseMoveEvent s m px py).windowOffsetYBase = s.windowOffsetYBase ∧
    (mouseMoveEvent s m px py).isMouseGrabbed = s.isMouseGrabbed ∧
    (mouseMoveEvent s m px py).isMouseGrabbedByParent = s.isMouseGrabbedByParent ∧
    (mouseMoveEvent s m px py).isWindowFixed = s.isWindowFixed ∧
    (mouseMoveEvent s m px py).imGuiWindowOffsetX = s.imGuiWindowOffsetX ∧
    (mouseMoveEvent s m px py).imGuiWindowOffsetY = s.imGuiWindowOffsetY ∧
    (mouseMoveEvent s m px py).scaleFactor = s.scaleFactor ∧
    (mouseMoveEvent s m px py).resizeMargin = s.resizeMargin := by
  simp only [mouseMoveEvent]
  split_ifs <;> simp

/-- Drag start and offset base are never written by `mouseMoveEventParent`. -/
@[simp]
theorem mouseMoveEventParent_dragStart (s : DiagramBase) (m : SglFrame) (px py : ℤ) :
    (mouseMoveEventParent s m px py).mouseDragStartPosX = s.mouseDragStartPosX ∧
    (mouseMoveEventParent s m px py).mouseDragStartPosY = s.mouseDragStartPosY ∧
    (mouseMoveEventParent s m px py).windowOffsetXBase = s.windowOffsetXBase ∧
    (mouseMoveEventParent s m px py).windowOffsetYBase = s.windowOffsetYBase ∧
    (mouseMoveEventParent s m px py).isMouseGrabbed = s.isMouseGrabbed ∧
    (mouseMoveEventParent s m px py).isMouseGrabbedByParent = s.isMouseGrabbedByParent ∧
    (mouseMoveEventParent s m px py).isWindowFixed = s.isWindowFixed ∧
    (mouseMoveEventParent s m px py).imGuiWindowOffsetX = s.imGuiWindowOffsetX ∧
    (mouseMoveEventParent s m px py).imGuiWindowOffsetY = s.imGuiWindowOffsetY ∧
    (mouseMoveEventParent s m px py).scaleFactor = s.scaleFactor ∧
    (mouseMoveEventParent s m px py).resizeMargin = s.resizeMargin := by
  simp only [mouseMoveEventParent]
  split_ifs <;> simp

/-- Gesture fields after `mouseMoveEvent` when the release is reported with the move. -/
theorem mouseMoveEvent_of_released (s : DiagramBase) (m : SglFrame) (px py : ℤ)
    (hr : m.buttonReleased = true) :
    (mouseMoveEvent s m px py).isDraggingWindow = false ∧
    (mouseMoveEvent s m px py).isResizingWindow = false ∧
    (mouseMoveEvent s m px py).resizeDirection = NONE ∧
    (mouseMoveEvent s m px py).windowMoveOrResizeJustFinished =
      (s.windowMoveOrResizeJustFinished || s.isResizingWindow ||
        (s.isDraggingWindow &&
          (decide (px ≠ s.mouseDragStartPosX) || decide (py ≠ s.mouseDragStartPosY)))) := by
  simp [mouseMoveEvent, hr]

/-- Gesture fields after `mouseMoveEventParent` when the button is up. -/
theorem mouseMoveEventParent_of_buttonUp (s : DiagramBase) (m : SglFrame) (px py : ℤ)
    (hu : m.isButtonUp = true) :
    (mouseMoveEventParent s m px py).isDraggingWindow = false ∧
    (mouseMoveEventParent s m px py).isResizingWindow = false ∧
    (mouseMoveEventParent s m px py).resizeDirection = NONE ∧
    (mouseMoveEventParent s m px py).windowMoveOrResizeJustFinished =
      (s.windowMoveOrResizeJustFinished || s.isResizingWindow ||
        (s.isDraggingWindow &&
          (decide (px ≠ s.mouseDragStartPosX) || decide (py ≠ s.mouseDragStartPosY)))) := by
  simp [mouseMoveEventParent, hu]

/-- Gesture fields are not touched by `mouseMoveEventParent` while the button is down. -/
theorem mouseMoveEventParent_gesture (s : DiagramBase) (m : SglFrame) (px py : ℤ)
    (hu : m.isButtonUp = false) :
    (mouseMoveEventParent s m px py).isDraggingWindow = s.isDraggingWindow ∧
    (mouseMoveEventParent s m px py).isResizingWindow = s.isResizingWindow ∧
    (mouseMoveEventParent s m px py).resizeDirection = s.resizeDirection ∧
    (mouseMoveEventParent s m px py).windowMoveOrResizeJustFinished =
      s.windowMoveOrResizeJustFinished := by
  simp only [mouseMoveEventParent, hu]
  by_cases h : s.resizeDirection = NONE <;> simp [h]

/-- The state before the release block of `update` when no press is reported. -/
theorem update_of_release_no_press (s : DiagramBase) (m : SglFrame)
    (hr : m.buttonReleased = true) (hp : m.buttonPressed = false) :
    update s m =
      { endMoveOrResize
          (if m.mouseMoved = true then
            if (m.isMouseOverDiagram && !s.isMouseGrabbedByParent || s.isMouseGrabbed) = true then
              mouseMoveEvent { s with windowMoveOrResizeJustFinished := false } m
                (mousePositionPx s m).1 (mousePositionPx s m).2
            else
              mouseMoveEventParent { s with windowMoveOrResizeJustFinished := false } m
                (mousePositionPx s m).1 (mousePositionPx s m).2
          else { s with windowMoveOrResizeJustFinished := false })
          (mousePositionPx s m).1 (mousePositionPx s m).2 with isMouseGrabbed := false } := by
  simp only [update, mousePressEvent, mouseMoveDispatch, mouseReleaseEvent, hr, hp,
    mousePressEventResizeWindow_of_not_pressed, mousePressEventMoveWindow_of_not_pressed]
  simp

/-- Claim C3. Every update that reports a primary-button release leaves the widget idle:
not dragging, not resizing, direction `NONE`, mouse not grabbed, from every state and
whether or not a mouse move is reported in the same update. -/
theorem update_release_makes_idle (s : DiagramBase) (m : SglFrame) (hr : m.buttonReleased = true) :
    (update s m).isDraggingWindow = false ∧ (update s m).isResizingWindow = false ∧
    (update s m).resizeDirection = NONE ∧ (update s m).isMouseGrabbed = false := by
  simp only [update, mouseReleaseEvent, hr]
  simp

/-- Claim C4. For an update that reports a release and no press, the just-finished flag is
true afterwards exactly when the widget was resizing, or was dragging and the pointer
position of the release differs from the drag start in x or in y. -/
theorem update_release_flag_iff (s : DiagramBase) (m : SglFrame)
    (hr : m.buttonReleased = true) (hp : m.buttonPressed = false) :
    (update s m).windowMoveOrResizeJustFinished = true ↔
      (s.isResizingWindow = true ∨
        (s.isDraggingWindow = true ∧
          ((mousePositionPx s m).1 ≠ s.mouseDragStartPosX ∨
           (mousePositionPx s m).2 ≠ s.mouseDragStartPosY))) := by
  rw [update_of_release_no_press s m hr hp]
  generalize (mousePositionPx s m).1 = px
  generalize (mousePositionPx s m).2 = py
  generalize hs0 : ({ s with windowMoveOrResizeJustFinished := false } : DiagramBase) = s0
  have h1 : s0.isResizingWindow = s.isResizingWindow := by rw [← hs0]
  have h2 : s0.isDraggingWindow = s.isDraggingWindow := by rw [← hs0]
  have h3 : s0.mouseDragStartPosX = s.mouseDragStartPosX := by rw [← hs0]
  have h4 : s0.mouseDragStartPosY = s.mouseDragStartPosY := by rw [← hs0]
  have h5 : s0.windowMoveOrResizeJustFinished = false := by rw [← hs0]
  have e1 := mouseMoveEvent_of_released s0 m px py hr
  have e2 := mouseMoveEventParent_of_buttonUp s0 m px py
  have e3 := mouseMoveEventParent_gesture s0 m px py
  split_ifs with hm ho
  · simp [e1, h1, h2, h3, h4, h5]
  · cases hu : m.isButtonUp
    · simp [e3 hu, h1, h2, h3, h4, h5]
    · simp [e2 hu, h1, h2, h3, h4, h5]
  · simp [h1, h2, h3, h4, h5]

/-- The press block of `update` keeps the invariant. -/
theorem mousePressEvent_inv (s : DiagramBase) (m : SglFrame) (o : Bool) (px py : ℤ)
    (h : GestureInv s) : GestureInv (mousePressEvent s m o px py) := by
  unfold mousePressEvent
  by_cases hc : (o && !s.isWindowFixed) = true
  · rw [if_pos hc]
    cases hp : m.buttonPressed
    · simpa [mousePressEventResizeWindow_of_not_pressed,
        mousePressEventMoveWindow_of_not_pressed, hp] using h
    · simp only [if_true]
      generalize hs1 : ({ s with isMouseGrabbed := true } : DiagramBase) = s1
      have hg : s1.isMouseGrabbed = true := by rw [← hs1]
      have h1 := mousePressEventResizeWindow_isResizingWindow s1 m px py hp
      refine ⟨?_, ?_⟩
      · intro hne
        simp only [mousePressEventMoveWindow_frame] at hne ⊢
        rw [h1]
        simp [hne]
      · intro _
        simp [hg]
  · rw [if_neg hc]
    exact h

/-- The move handler `mouseMoveEvent` keeps the invariant. -/
theorem mouseMoveEvent_inv (s : DiagramBase) (m : SglFrame) (px py : ℤ) (h : GestureInv s) :
    GestureInv (mouseMoveEvent s m px py) := by
  cases hr : m.buttonReleased
  · obtain ⟨h1, h2, h3, h4, -⟩ := mouseMoveEvent_gesture s m px py hr
    simpa [GestureInv, h1, h2, h3, h4] using h
  · obtain ⟨h1, h2, h3, -⟩ := mouseMoveEvent_of_released s m px py hr
    simp [GestureInv, h1, h2, h3]

/-- The move handler `mouseMoveEventParent` keeps the invariant. -/
theorem mouseMoveEventParent_inv (s : DiagramBase) (m : SglFrame) (px py : ℤ)
    (h : GestureInv s) : GestureInv (mouseMoveEventParent s m px py) := by
  cases hu : m.isButtonUp
  · obtain ⟨h1, h2, h3, -⟩ := mouseMoveEventParent_gesture s m px py hu
    simpa [GestureInv, h1, h2, h3] using h
  · obtain ⟨h1, h2, h3, -⟩ := mouseMoveEventParent_of_buttonUp s m px py hu
    simp [GestureInv, h1, h2, h3]

/-- The move block of `update` keeps the invariant. -/
theorem mouseMoveDispatch_inv (s : DiagramBase) (m : SglFrame) (o : Bool) (px py : ℤ)
    (h : GestureInv s) : GestureInv (mouseMoveDispatch s m o px py) := by
  simp only [mouseMoveDispatch]
  split_ifs
  · exact mouseMoveEvent_inv s m px py h
  · exact mouseMoveEventParent_inv s m px py h
  · exact h

/-- The release block of `update` keeps the invariant. -/
theorem mouseReleaseEvent_inv (s : DiagramBase) (m : SglFrame) (px py : ℤ)
    (h : GestureInv s) : GestureInv (mouseReleaseEvent s m px py) := by
  simp only [mouseReleaseEvent]
  split_ifs
  · simp [GestureInv]
  · exact h

/-- Every call of `update` keeps the invariant. -/
theorem update_inv (s : DiagramBase) (m : SglFrame) (h : GestureInv s) :
    GestureInv (update s m) := by
  have h0 : GestureInv { s with windowMoveOrResizeJustFinished := false } := h
  exact mouseReleaseEvent_inv _ m _ _ (mouseMoveDispatch_inv _ m _ _ _
    (mousePressEvent_inv _ m _ _ _ h0))

/-- Every host call keeps the invariant. -/
theorem Call.apply_inv (s : DiagramBase) (c : Call) (h : GestureInv s) :
    GestureInv (Call.apply s c) := by
  cases c with
  | update m => exact update_inv s m h
  | setIsMouseGrabbedByParent b => exact h
  | setImGuiWindowOffset x y => exact h

/-- The invariant holds along every run that starts in a state satisfying it. -/
theorem run_inv (calls : List Call) (s : DiagramBase) (h : GestureInv s) :
    GestureInv (run s calls) := by
  induction calls generalizing s with
  | nil => exact h
  | cons c cs ih => exact ih (Call.apply s c) (Call.apply_inv s c h)

/-- The initial state satisfies the invariant. -/
theorem initialState_inv (offsetX offsetY width height scale : ℚ) (fboWidth fboHeight : ℤ) :
    GestureInv (initialState offsetX offsetY width height scale fboWidth fboHeight) := by
  simp [GestureInv, initialState]

/-- The press block never writes the just-finished flag. -/
theorem mousePressEvent_flag (s : DiagramBase) (m : SglFrame) (o : Bool) (px py : ℤ) :
    (mousePressEvent s m o px py).windowMoveOrResizeJustFinished =
      s.windowMoveOrResizeJustFinished := by
  simp only [mousePressEvent]
  split_ifs <;> simp

/-- When the press block is skipped or no press is reported, it changes nothing. -/
theorem mousePressEvent_of_not_pressed (s : DiagramBase) (m : SglFrame) (o : Bool)
    (px py : ℤ) (h : o = false ∨ m.buttonPressed = false) :
    mousePressEvent s m o px py = s := by
  unfold mousePressEvent
  rcases h with h | h
  · simp [h]
  · simp [h, mousePressEventResizeWindow_of_not_pressed,
      mousePressEventMoveWindow_of_not_pressed]

/-- Without a release the release block changes nothing. -/
theorem mouseReleaseEvent_of_not_released (s : DiagramBase) (m : SglFrame) (px py : ℤ)
    (hr : m.buttonReleased = false) : mouseReleaseEvent s m px py = s := by
  simp [mouseReleaseEvent, hr]

/-- Without a release, and from a state satisfying the invariant, `update` leaves the
just-finished flag down. -/
theorem update_flag_of_not_released (s : DiagramBase) (m : SglFrame) (h : GestureInv s)
    (hr : m.buttonReleased = false) : (update s m).windowMoveOrResizeJustFinished = false := by
  have h0 : GestureInv { s with windowMoveOrResizeJustFinished := false } := h
  simp only [update, mouseReleaseEvent_of_not_released _ m _ _ hr]
  generalize (mousePositionPx s m).1 = px
  generalize (mousePositionPx s m).2 = py
  generalize (m.isMouseOverDiagram && !s.isMouseGrabbedByParent) = o
  have h1 := mousePressEvent_inv _ m o px py h0
  have hf := mousePressEvent_flag { s with windowMoveOrResizeJustFinished := false } m o px py
  generalize mousePressEvent { s with windowMoveOrResizeJustFinished := false } m o px py = s1
    at h1 hf ⊢
  have hf : s1.windowMoveOrResizeJustFinished = false := hf
  simp only [mouseMoveDispatch]
  split_ifs with hm hc
  · rw [(mouseMoveEvent_gesture s1 m px py hr).2.2.2.2, hf]
  · have hg : s1.isMouseGrabbed = false := by
      cases hg : s1.isMouseGrabbed
      · rfl
      · simp [hg] at hc
    have hd : s1.isDraggingWindow = false := by
      cases hd : s1.isDraggingWindow
      · rfl
      · have := h1.2 (Or.inl hd); simp [hg] at this
    have hz : s1.isResizingWindow = false := by
      cases hz : s1.isResizingWindow
      · rfl
      · have := h1.2 (Or.inr hz); simp [hg] at this
    cases hu : m.isButtonUp
    · rw [(mouseMoveEventParent_gesture s1 m px py hu).2.2.2, hf]
    · rw [(mouseMoveEventParent_of_buttonUp s1 m px py hu).2.2.2, hf, hd, hz]
      rfl
  · exact hf


/-- A state without gesture and with the flag down stays so under `mouseMoveEvent`. -/
theorem mouseMoveEvent_quiet (s : DiagramBase) (m : SglFrame) (px py : ℤ)
    (hf : s.windowMoveOrResizeJustFinished = false) (hd : s.isDraggingWindow = false)
    (hz : s.isResizingWindow = false) :
    (mouseMoveEvent s m px py).windowMoveOrResizeJustFinished = false ∧
    (mouseMoveEvent s m px py).isDraggingWindow = false ∧
    (mouseMoveEvent s m px py).isResizingWindow = false := by
  cases hr : m.buttonReleased
  · obtain ⟨h1, h2, -, -, h5⟩ := mouseMoveEvent_gesture s m px py hr
    simp [h1, h2, h5, hf, hd, hz]
  · obtain ⟨h1, h2, -, h4⟩ := mouseMoveEvent_of_released s m px py hr
    simp [h1, h2, h4, hf, hd, hz]

/-- A state without gesture and with the flag down stays so under `mouseMoveEventParent`. -/
theorem mouseMoveEventParent_quiet (s : DiagramBase) (m : SglFrame) (px py : ℤ)
    (hf : s.windowMoveOrResizeJustFinished = false) (hd : s.isDraggingWindow = false)
    (hz : s.isResizingWindow = false) :
    (mouseMoveEventParent s m px py).windowMoveOrResizeJustFinished = false ∧
    (mouseMoveEventParent s m px py).isDraggingWindow = false ∧
    (mouseMoveEventParent s m px py).isResizingWindow = false := by
  cases hu : m.isButtonUp
  · obtain ⟨h1, h2, -, h4⟩ := mouseMoveEventParent_gesture s m px py hu
    simp [h1, h2, h4, hf, hd, hz]
  · obtain ⟨h1, h2, -, h4⟩ := mouseMoveEventParent_of_buttonUp s m px py hu
    simp [h1, h2, h4, hf, hd, hz]

/-- An update without a press, from a state without gesture, leaves the flag down. -/
theorem update_flag_of_idle_no_press (s : DiagramBase) (m : SglFrame)
    (hd : s.isDraggingWindow = false) (hz : s.isResizingWindow = false)
    (hp : m.buttonPressed = false) : (update s m).windowMoveOrResizeJustFinished = false := by
  simp only [update, mousePressEvent_of_not_pressed _ m _ _ _ (Or.inr hp)]
  generalize (mousePositionPx s m).1 = px
  generalize (mousePositionPx s m).2 = py
  generalize (m.isMouseOverDiagram && !s.isMouseGrabbedByParent) = o
  generalize hs0 : ({ s with windowMoveOrResizeJustFinished := false } : DiagramBase) = s0
  have hf0 : s0.windowMoveOrResizeJustFinished = false := by rw [← hs0]
  have hd0 : s0.isDraggingWindow = false := by rw [← hs0]; exact hd
  have hz0 : s0.isResizingWindow = false := by rw [← hs0]; exact hz
  have h2 : (mouseMoveDispatch s0 m o px py).windowMoveOrResizeJustFinished = false ∧
      (mouseMoveDispatch s0 m o px py).isDraggingWindow = false ∧
      (mouseMoveDispatch s0 m o px py).isResizingWindow = false := by
    unfold mouseMoveDispatch
    split_ifs
    · exact mouseMoveEvent_quiet s0 m px py hf0 hd0 hz0
    · exact mouseMoveEventParent_quiet s0 m px py hf0 hd0 hz0
    · exact ⟨hf0, hd0, hz0⟩
  generalize mouseMoveDispatch s0 m o px py = s2 at h2 ⊢
  unfold mouseReleaseEvent
  split_ifs
  · simp [h2.1, h2.2.1, h2.2.2]
  · exact h2.1

/-- Claim C5. The just-finished flag lasts one update. Along every run of host calls from
the initial state: if the flag is true after an `update`, that update reported a release, and
a drag or resize was active before it or was begun by a press reported in that same update;
after every `update` that reports no release the flag is false (this includes moves routed
to `mouseMoveEventParent` while the button is up). -/
theorem run_flag_only_after_release_of_gesture (offsetX offsetY width height scale : ℚ) (fboWidth fboHeight : ℤ)
    (calls : List Call) (m : SglFrame) :
    ((update (run (initialState offsetX offsetY width height scale fboWidth fboHeight) calls)
        m).windowMoveOrResizeJustFinished = true →
      m.buttonReleased = true ∧
      ((run (initialState offsetX offsetY width height scale fboWidth fboHeight)
          calls).isDraggingWindow = true ∨
       (run (initialState offsetX offsetY width height scale fboWidth fboHeight)
          calls).isResizingWindow = true ∨
       m.buttonPressed = true)) ∧
    (m.buttonReleased = false →
      (update (run (initialState offsetX offsetY width height scale fboWidth fboHeight) calls)
        m).windowMoveOrResizeJustFinished = false) := by
  have hinv := run_inv calls _
    (initialState_inv offsetX offsetY width height scale fboWidth fboHeight)
  generalize run (initialState offsetX offsetY width height scale fboWidth fboHeight) calls = s
    at hinv ⊢
  refine ⟨fun hflag => ⟨?_, ?_⟩, fun hr => update_flag_of_not_released s m hinv hr⟩
  · cases hr : m.buttonReleased
    · rw [update_flag_of_not_released s m hinv hr] at hflag
      cases hflag
    · rfl
  · cases hd : s.isDraggingWindow
    · cases hz : s.isResizingWindow
      · cases hp : m.buttonPressed
        · rw [update_flag_of_idle_no_press s m hd hz hp] at hflag
          cases hflag
        · exact Or.inr (Or.inr rfl)
      · exact Or.inr (Or.inl rfl)
    · exact Or.inl rfl


/-- Geometry after `mouseMoveEvent` during a drag with the button held. -/
theorem mouseMoveEvent_of_drag (s : DiagramBase) (m : SglFrame) (px py : ℤ)
    (hr : m.buttonReleased = false) (hn : s.resizeDirection = NONE)
    (hd : s.isDraggingWindow = true) :
    (mouseMoveEvent s m px py).windowOffsetX =
      s.windowOffsetXBase + ((px - s.mouseDragStartPosX : ℤ) : ℚ) ∧
    (mouseMoveEvent s m px py).windowOffsetY =
      s.windowOffsetYBase + ((py - s.mouseDragStartPosY : ℤ) : ℚ) ∧
    (mouseMoveEvent s m px py).windowWidth = s.windowWidth ∧
    (mouseMoveEvent s m px py).windowHeight = s.windowHeight := by
  simp [mouseMoveEvent, hr, hn, dragWindowOffset, hd]

/-- Geometry is untouched by `mouseMoveEvent` when the button is held and neither a
direction nor a drag is active. -/
theorem mouseMoveEvent_geometry_of_idle (s : DiagramBase) (m : SglFrame) (px py : ℤ)
    (hr : m.buttonReleased = false) (hn : s.resizeDirection = NONE)
    (hd : s.isDraggingWindow = false) :
    (mouseMoveEvent s m px py).windowOffsetX = s.windowOffsetX ∧
    (mouseMoveEvent s m px py).windowOffsetY = s.windowOffsetY ∧
    (mouseMoveEvent s m px py).windowWidth = s.windowWidth ∧
    (mouseMoveEvent s m px py).windowHeight = s.windowHeight := by
  simp [mouseMoveEvent, hr, hn, dragWindowOffset, hd]

/-- An update with the button held (no press, no release) during a drag: the drag facts
persist, and when the update reports a move the offset is the base plus the displacement
from the drag start. -/
theorem update_of_drag_held (startX startY : ℤ) (baseX baseY width height : ℚ) (imX imY : ℤ)
    (s : DiagramBase) (m : SglFrame)
    (h : DragInv startX startY baseX baseY width height imX imY s)
    (hp : m.buttonPressed = false) (hr : m.buttonReleased = false) :
    DragInv startX startY baseX baseY width height imX imY (update s m) ∧
    (m.mouseMoved = true →
      (update s m).windowOffsetX = baseX + (((mousePositionPx s m).1 - startX : ℤ) : ℚ) ∧
      (update s m).windowOffsetY = baseY + (((mousePositionPx s m).2 - startY : ℤ) : ℚ)) := by
  obtain ⟨h1, h2, h3, h4, h5, h6, h7, h8, h9, h10, h11⟩ := h
  simp only [update, mousePressEvent_of_not_pressed _ m _ _ _ (Or.inr hp),
    mouseReleaseEvent_of_not_released _ m _ _ hr]
  generalize (mousePositionPx s m).1 = px
  generalize (mousePositionPx s m).2 = py
  generalize (m.isMouseOverDiagram && !s.isMouseGrabbedByParent) = o
  generalize hs0 : ({ s with windowMoveOrResizeJustFinished := false } : DiagramBase) = s0
  have e1 : s0.isDraggingWindow = true := by rw [← hs0]; exact h1
  have e2 : s0.resizeDirection = NONE := by rw [← hs0]; exact h2
  have e3 : s0.isMouseGrabbed = true := by rw [← hs0]; exact h3
  have e4 : s0.mouseDragStartPosX = startX := by rw [← hs0]; exact h4
  have e5 : s0.mouseDragStartPosY = startY := by rw [← hs0]; exact h5
  have e6 : s0.windowOffsetXBase = baseX := by rw [← hs0]; exact h6
  have e7 : s0.windowOffsetYBase = baseY := by rw [← hs0]; exact h7
  have e8 : s0.windowWidth = width := by rw [← hs0]; exact h8
  have e9 : s0.windowHeight = height := by rw [← hs0]; exact h9
  have e10 : s0.imGuiWindowOffsetX = imX := by rw [← hs0]; exact h10
  have e11 : s0.imGuiWindowOffsetY = imY := by rw [← hs0]; exact h11
  obtain ⟨g1, g2, g3, g4, -⟩ := mouseMoveEvent_gesture s0 m px py hr
  obtain ⟨d1, d2, d3, d4⟩ := mouseMoveEvent_of_drag s0 m px py hr e2 e1
  cases hm : m.mouseMoved
  · simp [mouseMoveDispatch, hm, DragInv, e1, e2, e3, e4, e5, e6, e7, e8, e9, e10, e11]
  · simp [mouseMoveDispatch, hm, DragInv, e1, e2, e3, e4, e5, e6, e7, e8, e9, e10, e11,
      g1, g2, g3, g4, d1, d2, d3, d4]


/-- Fields written by `mousePressEventMoveWindow` when a press starts a drag. -/
theorem mousePressEventMoveWindow_of_drag_start (s : DiagramBase) (m : SglFrame) (px py : ℤ)
    (hp : m.buttonPressed = true) (hn : s.resizeDirection = NONE) :
    (mousePressEventMoveWindow s m px py).isDraggingWindow = true ∧
    (mousePressEventMoveWindow s m px py).windowOffsetXBase = s.windowOffsetX ∧
    (mousePressEventMoveWindow s m px py).windowOffsetYBase = s.windowOffsetY ∧
    (mousePressEventMoveWindow s m px py).mouseDragStartPosX = px ∧
    (mousePressEventMoveWindow s m px py).mouseDragStartPosY = py := by
  simp [mousePressEventMoveWindow, hp, hn]

/-- The pointer position of `update` depends on the state only through the ImGui offset. -/
theorem mousePositionPx_congr (s t : DiagramBase) (m : SglFrame)
    (hx : t.imGuiWindowOffsetX = s.imGuiWindowOffsetX)
    (hy : t.imGuiWindowOffsetY = s.imGuiWindowOffsetY) :
    mousePositionPx t m = mousePositionPx s m := by
  simp [mousePositionPx, hx, hy]

/-- A press inside the widget that hits no margin starts a drag at the pointer position
and leaves the geometry as it was. -/
theorem update_press_starts_drag (s : DiagramBase) (m : SglFrame)
    (hp : m.buttonPressed = true) (hr : m.buttonReleased = false)
    (ho : m.isMouseOverDiagram = true) (hg : s.isMouseGrabbedByParent = false)
    (hf : s.isWindowFixed = false)
    (hL : (leftAabb s).contains (mousePositionPx s m).1 (mousePositionPx s m).2 = false)
    (hR : (rightAabb s).contains (mousePositionPx s m).1 (mousePositionPx s m).2 = false)
    (hB : (bottomAabb s).contains (mousePositionPx s m).1 (mousePositionPx s m).2 = false)
    (hT : (topAabb s).contains (mousePositionPx s m).1 (mousePositionPx s m).2 = false) :
    DragInv (mousePositionPx s m).1 (mousePositionPx s m).2 s.windowOffsetX s.windowOffsetY
      s.windowWidth s.windowHeight s.imGuiWindowOffsetX s.imGuiWindowOffsetY (update s m) ∧
    (update s m).windowOffsetX = s.windowOffsetX ∧
    (update s m).windowOffsetY = s.windowOffsetY := by
  rw [update_of_press s m hp hr ho hg hf]
  generalize (mousePositionPx s m).1 = px at *
  generalize (mousePositionPx s m).2 = py at *
  generalize hs0 :
    ({ s with windowMoveOrResizeJustFinished := false, isMouseGrabbed := true } :
      DiagramBase) = s0
  have hdir := mousePressEventResizeWindow_direction s0 m px py hp
  have hgeo : leftAabb s0 = leftAabb s ∧ rightAabb s0 = rightAabb s ∧
      bottomAabb s0 = bottomAabb s ∧ topAabb s0 = topAabb s := by
    rw [← hs0]; exact ⟨rfl, rfl, rfl, rfl⟩
  rw [hgeo.1, hgeo.2.1, hgeo.2.2.1, hgeo.2.2.2, hL, hR, hB, hT] at hdir
  have hn : (mousePressEventResizeWindow s0 m px py).resizeDirection = NONE := by
    rw [hdir]; decide
  obtain ⟨k1, k2, k3, k4, k5⟩ := mousePressEventMoveWindow_of_drag_start
    (mousePressEventResizeWindow s0 m px py) m px py hp hn
  generalize hs1 : mousePressEventMoveWindow (mousePressEventResizeWindow s0 m px py) m px py
    = s1 at k1 k2 k3 k4 k5
  have f1 : s1.resizeDirection = NONE := by rw [← hs1]; simpa using hn
  have f2 : s1.isMouseGrabbed = true := by rw [← hs1, ← hs0]; simp
  have f3 : s1.windowOffsetX = s.windowOffsetX := by rw [← hs1, ← hs0]; simp
  have f4 : s1.windowOffsetY = s.windowOffsetY := by rw [← hs1, ← hs0]; simp
  have f5 : s1.windowWidth = s.windowWidth := by rw [← hs1, ← hs0]; simp
  have f6 : s1.windowHeight = s.windowHeight := by rw [← hs1, ← hs0]; simp
  have f7 : s1.imGuiWindowOffsetX = s.imGuiWindowOffsetX := by rw [← hs1, ← hs0]; simp
  have f8 : s1.imGuiWindowOffsetY = s.imGuiWindowOffsetY := by rw [← hs1, ← hs0]; simp
  simp only [mousePressEventResizeWindow_frame] at k2 k3
  have k2 : s1.windowOffsetXBase = s.windowOffsetX := by rw [k2, ← hs0]
  have k3 : s1.windowOffsetYBase = s.windowOffsetY := by rw [k3, ← hs0]
  obtain ⟨g1, g2, g3, g4, -⟩ := mouseMoveEvent_gesture s1 m px py hr
  obtain ⟨d1, d2, d3, d4⟩ := mouseMoveEvent_of_drag s1 m px py hr f1 k1
  split_ifs
  · simp [DragInv, g1, g3, g4, d1, d2, d3, d4, k1, k2, k3, k4, k5, f1, f2, f5, f6, f7, f8]
  · simp [DragInv, k1, k2, k3, k4, k5, f1, f2, f3, f4, f5, f6, f7, f8]

/-- The drag facts persist along every run of updates with the button held. -/
theorem runUpdates_of_drag_held (startX startY : ℤ) (baseX baseY width height : ℚ)
    (imX imY : ℤ) (frames : List SglFrame) (s : DiagramBase)
    (h : DragInv startX startY baseX baseY width height imX imY s)
    (hheld : ∀ f ∈ frames, f.buttonPressed = false ∧ f.buttonReleased = false) :
    DragInv startX startY baseX baseY width height imX imY (runUpdates s frames) := by
  induction frames generalizing s with
  | nil => exact h
  | cons f fs ih =>
    have hf := hheld f (List.mem_cons_self f fs)
    exact ih (update s f)
      (update_of_drag_held startX startY baseX baseY width height imX imY s f h hf.1 hf.2).1
      (fun g hg => hheld g (List.mem_cons_of_mem f hg))

/-- Values written by the resize branch, as functions of the active direction bits. -/
theorem resizeByMouseDelta_values (s : DiagramBase) (m : SglFrame) (px py : ℤ) :
    (resizeByMouseDelta s m px py).windowOffsetX =
      (if s.resizeDirection &&& LEFT ≠ 0 then
        s.windowOffsetX + ((px - s.lastResizeMouseX : ℤ) : ℚ) else s.windowOffsetX) ∧
    (resizeByMouseDelta s m px py).windowWidth =
      (if s.resizeDirection &&& LEFT ≠ 0 then
        s.windowWidth - ((px - s.lastResizeMouseX : ℤ) : ℚ) / s.scaleFactor
       else s.windowWidth) +
      (if s.resizeDirection &&& RIGHT ≠ 0 then
        ((px - s.lastResizeMouseX : ℤ) : ℚ) / s.scaleFactor else 0) ∧
    (resizeByMouseDelta s m px py).windowOffsetY =
      (if s.resizeDirection &&& BOTTOM ≠ 0 then
        s.windowOffsetY + ((py - s.lastResizeMouseY : ℤ) : ℚ) else s.windowOffsetY) ∧
    (resizeByMouseDelta s m px py).windowHeight =
      (if s.resizeDirection &&& BOTTOM ≠ 0 then
        s.windowHeight - ((py - s.lastResizeMouseY : ℤ) : ℚ) / s.scaleFactor
       else s.windowHeight) +
      (if s.resizeDirection &&& TOP ≠ 0 then
        ((py - s.lastResizeMouseY : ℤ) : ℚ) / s.scaleFactor else 0) ∧
    (resizeByMouseDelta s m px py).lastResizeMouseX = px ∧
    (resizeByMouseDelta s m px py).lastResizeMouseY = py := by
  simp only [resizeByMouseDelta]
  split_ifs <;> simp

/-- With the button held, an active direction and no drag, `mouseMoveEvent` is the resize
branch. -/
theorem mouseMoveEvent_of_resize (s : DiagramBase) (m : SglFrame) (px py : ℤ)
    (hr : m.buttonReleased = false) (hn : s.resizeDirection ≠ NONE)
    (hd : s.isDraggingWindow = false) :
    mouseMoveEvent s m px py = resizeByMouseDelta s m px py := by
  simp [mouseMoveEvent, hr, hn, dragWindowOffset, hd]

/-- Claim C7 (as amended). With the button held (no release reported), no drag in progress
and `scaleFactor != 0`: a move handled by `mouseMoveEvent` while `LEFT` is active and `RIGHT`
is not shifts `windowOffsetX` by the delta since the last move and leaves
`windowOffsetX + scaleFactor * windowWidth` unchanged; likewise for `BOTTOM` active and `TOP`
not active with `windowOffsetY` and `windowHeight`. -/
theorem mouseMoveEvent_resize_left_bottom_keeps_opposite_edge (s : DiagramBase) (m : SglFrame) (px py : ℤ)
    (hr : m.buttonReleased = false) (hd : s.isDraggingWindow = false)
    (hsf : s.scaleFactor ≠ 0) :
    (s.resizeDirection &&& LEFT ≠ 0 → s.resizeDirection &&& RIGHT = 0 →
      (mouseMoveEvent s m px py).windowOffsetX =
        s.windowOffsetX + ((px - s.lastResizeMouseX : ℤ) : ℚ) ∧
      (mouseMoveEvent s m px py).windowOffsetX +
          (mouseMoveEvent s m px py).scaleFactor * (mouseMoveEvent s m px py).windowWidth =
        s.windowOffsetX + s.scaleFactor * s.windowWidth) ∧
    (s.resizeDirection &&& BOTTOM ≠ 0 → s.resizeDirection &&& TOP = 0 →
      (mouseMoveEvent s m px py).windowOffsetY =
        s.windowOffsetY + ((py - s.lastResizeMouseY : ℤ) : ℚ) ∧
      (mouseMoveEvent s m px py).windowOffsetY +
          (mouseMoveEvent s m px py).scaleFactor * (mouseMoveEvent s m px py).windowHeight =
        s.windowOffsetY + s.scaleFactor * s.windowHeight) := by
  obtain ⟨v1, v2, v3, v4, -, -⟩ := resizeByMouseDelta_values s m px py
  constructor
  · intro hL hR
    have hn : s.resizeDirection ≠ NONE := by
      intro h0; rw [h0] at hL; exact hL rfl
    rw [mouseMoveEvent_of_resize s m px py hr hn hd, v1, v2]
    simp only [resizeByMouseDelta_frame, hL, hR, ne_eq, not_false_eq_true, if_true,
      not_true_eq_false, if_false]
    refine ⟨trivial, ?_⟩
    field_simp
    ring
  · intro hB hT
    have hn : s.resizeDirection ≠ NONE := by
      intro h0; rw [h0] at hB; exact hB rfl
    rw [mouseMoveEvent_of_resize s m px py hr hn hd, v3, v4]
    simp only [resizeByMouseDelta_frame, hB, hT, ne_eq, not_false_eq_true, if_true,
      not_true_eq_false, if_false]
    refine ⟨trivial, ?_⟩
    field_simp
    ring

/-- A press at `(3, 50)` on the narrow widget hits the left and the right margin. -/
theorem narrowWidget_press_state :
    (update narrowWidget (pressFrame 3 50)).resizeDirection = LEFT ||| RIGHT ∧
    (update narrowWidget (pressFrame 3 50)).isResizingWindow = true ∧
    (update narrowWidget (pressFrame 3 50)).isDraggingWindow = false ∧
    (update narrowWidget (pressFrame 3 50)).lastResizeMouseX = 3 ∧
    (update narrowWidget (pressFrame 3 50)).windowOffsetX = 0 ∧
    (update narrowWidget (pressFrame 3 50)).windowWidth = 6 ∧
    (update narrowWidget (pressFrame 3 50)).scaleFactor = 1 := by
  simp [update, mousePressEvent, mouseMoveDispatch, mouseReleaseEvent,
    mousePressEventResizeWindow, mousePressEventMoveWindow, mousePositionPx, narrowWidget,
    initialState, pressFrame, AABB2.contains, leftAabb, rightAabb, bottomAabb, topAabb]
  norm_num
  simp

/-- Claim C7, counterexample. On the narrow widget a press at `(3, 50)` starts a resize with
`LEFT` (and `RIGHT`) active; the following move to `(5, 50)` with the button held shifts
`windowOffsetX` by 2 but moves the right edge `windowOffsetX + scaleFactor * windowWidth`
from 6 to 8. -/
theorem resize_left_right_moves_opposite_edge :
    (update narrowWidget (pressFrame 3 50)).isResizingWindow = true ∧
    (update narrowWidget (pressFrame 3 50)).isDraggingWindow = false ∧
    (update narrowWidget (pressFrame 3 50)).resizeDirection &&& LEFT ≠ 0 ∧
    (update narrowWidget (pressFrame 3 50)).scaleFactor ≠ 0 ∧
    (heldMoveFrame 5 50 6 100).buttonReleased = false ∧
    (update narrowWidget (pressFrame 3 50)).windowOffsetX +
      (update narrowWidget (pressFrame 3 50)).scaleFactor *
      (update narrowWidget (pressFrame 3 50)).windowWidth = 6 ∧
    (mouseMoveEvent (update narrowWidget (pressFrame 3 50)) (heldMoveFrame 5 50 6 100) 5
        50).windowOffsetX +
      (mouseMoveEvent (update narrowWidget (pressFrame 3 50)) (heldMoveFrame 5 50 6 100) 5
        50).scaleFactor *
      (mouseMoveEvent (update narrowWidget (pressFrame 3 50)) (heldMoveFrame 5 50 6 100) 5
        50).windowWidth = 8 ∧
    (mouseMoveEvent (update narrowWidget (pressFrame 3 50)) (heldMoveFrame 5 50 6 100) 5
        50).windowOffsetX +
      (mouseMoveEvent (update narrowWidget (pressFrame 3 50)) (heldMoveFrame 5 50 6 100) 5
        50).scaleFactor *
      (mouseMoveEvent (update narrowWidget (pressFrame 3 50)) (heldMoveFrame 5 50 6 100) 5
        50).windowWidth ≠
    (update narrowWidget (pressFrame 3 50)).windowOffsetX +
      (update narrowWidget (pressFrame 3 50)).scaleFactor *
      (update narrowWidget (pressFrame 3 50)).windowWidth := by
  obtain ⟨h1, h2, h3, h4, h5, h6, h7⟩ := narrowWidget_press_state
  have hn : (update narrowWidget (pressFrame 3 50)).resizeDirection ≠ NONE := by
    rw [h1]; decide
  obtain ⟨v1, v2, -, -, -, -⟩ := resizeByMouseDelta_values
    (update narrowWidget (pressFrame 3 50)) (heldMoveFrame 5 50 6 100) 5 50
  have e1 : (LEFT ||| RIGHT) &&& LEFT ≠ 0 := by decide
  have e2 : (LEFT ||| RIGHT) &&& RIGHT ≠ 0 := by decide
  rw [h1, if_pos e1] at v1 v2
  rw [if_pos e2] at v2
  refine ⟨h2, h3, by rw [h1]; decide, by rw [h7]; norm_num, rfl, ?_, ?_, ?_⟩
  · rw [h5, h6, h7]; norm_num
  · rw [mouseMoveEvent_of_resize _ _ 5 50 rfl hn h3, v1, v2]
    simp only [resizeByMouseDelta_frame]
    rw [h4, h5, h6, h7]
    norm_num
  · rw [mouseMoveEvent_of_resize _ _ 5 50 rfl hn h3, v1, v2]
    simp only [resizeByMouseDelta_frame]
    rw [h4, h5, h6, h7]
    norm_num

/-- The hover direction as the union of the margins that contain the pointer. -/
theorem resizeDirectionCurr_eq (s : DiagramBase) (px py : ℤ) :
    resizeDirectionCurr s px py =
      (if (leftAabb s).contains px py then LEFT else NONE) |||
      (if (rightAabb s).contains px py then RIGHT else NONE) |||
      (if (bottomAabb s).contains px py then BOTTOM else NONE) |||
      (if (topAabb s).contains px py then TOP else NONE) := by
  simp only [resizeDirectionCurr]
  cases (leftAabb s).contains px py <;> cases (rightAabb s).contains px py <;>
    cases (bottomAabb s).contains px py <;> cases (topAabb s).contains px py <;> simp

/-- The hover direction depends on the state only through the widget geometry. -/
theorem resizeDirectionCurr_congr (s t : DiagramBase) (px py : ℤ)
    (hx : s.windowOffsetX = t.windowOffsetX) (hy : s.windowOffsetY = t.windowOffsetY)
    (hw : s.fboWidthDisplay = t.fboWidthDisplay) (hh : s.fboHeightDisplay = t.fboHeightDisplay)
    (hm : s.resizeMargin = t.resizeMargin) :
    resizeDirectionCurr s px py = resizeDirectionCurr t px py := by
  simp [resizeDirectionCurr, leftAabb, rightAabb, bottomAabb, topAabb, hx, hy, hw, hh, hm]

/-- The cursor stored by the hover branch. -/
theorem updateCursorShape_cursorShape (s : DiagramBase) (px py : ℤ) :
    (updateCursorShape s px py).cursorShape = newCursorShape (resizeDirectionCurr s px py) := by
  simp only [updateCursorShape]
  split_ifs with h
  · rfl
  · exact (not_not.mp h).symm

/-- When the hover branch of `mouseMoveEvent` is reached (no direction active, or the
release is reported with the move), the cursor is the one chosen from the hover direction. -/
theorem mouseMoveEvent_cursorShape_of_hover (s : DiagramBase) (m : SglFrame) (px py : ℤ)
    (h : s.resizeDirection = NONE ∨ m.buttonReleased = true) :
    (mouseMoveEvent s m px py).cursorShape = newCursorShape (resizeDirectionCurr s px py) := by
  cases hr : m.buttonReleased
  · have hn : s.resizeDirection = NONE := by
      rcases h with h | h
      · exact h
      · rw [hr] at h; cases h
    simp [mouseMoveEvent, hr, hn, updateCursorShape_cursorShape]
  · simp only [mouseMoveEvent, hr, if_true, endMoveOrResize_values, ne_eq, not_true_eq_false,
      if_false, dragWindowOffset_frame, updateCursorShape_cursorShape]
    have hx : (endMoveOrResize s px py).windowOffsetX = s.windowOffsetX := by simp
    have hy : (endMoveOrResize s px py).windowOffsetY = s.windowOffsetY := by simp
    have hw : (endMoveOrResize s px py).fboWidthDisplay = s.fboWidthDisplay := by simp
    have hh : (endMoveOrResize s px py).fboHeightDisplay = s.fboHeightDisplay := by simp
    have hm : (endMoveOrResize s px py).resizeMargin = s.resizeMargin := by simp
    exact congrArg newCursorShape
      (resizeDirectionCurr_congr (endMoveOrResize s px py) s px py hx hy hw hh hm)

/-- While a direction is active and no release is reported, `mouseMoveEvent` keeps the
cursor. -/
theorem mouseMoveEvent_cursorShape_of_resize (s : DiagramBase) (m : SglFrame) (px py : ℤ)
    (hn : s.resizeDirection ≠ NONE) (hr : m.buttonReleased = false) :
    (mouseMoveEvent s m px py).cursorShape = s.cursorShape := by
  simp [mouseMoveEvent, hr, hn]

/-- Claim C9. On a move handled by `mouseMoveEvent` while no resize direction is active, with
`d` the union of the overlapped margins (`resizeDirectionCurr`): the cursor is `SIZEWE` if
`d` is exactly `LEFT` or exactly `RIGHT`, `SIZENS` if exactly `BOTTOM` or `TOP`, `SIZENESW`
if `BOTTOM|LEFT` or `TOP|RIGHT`, `SIZENWSE` if `TOP|LEFT` or `BOTTOM|RIGHT`, and `DEFAULT`
for every other `d`, in particular for no margin and for `LEFT|RIGHT`. -/
theorem mouseMoveEvent_cursor_table (s : DiagramBase) (m : SglFrame) (px py : ℤ) (hn : s.resizeDirection = NONE) :
    resizeDirectionCurr s px py =
      ((if (leftAabb s).contains px py then LEFT else NONE) |||
       (if (rightAabb s).contains px py then RIGHT else NONE) |||
       (if (bottomAabb s).contains px py then BOTTOM else NONE) |||
       (if (topAabb s).contains px py then TOP else NONE)) ∧
    (resizeDirectionCurr s px py = LEFT ∨ resizeDirectionCurr s px py = RIGHT →
      (mouseMoveEvent s m px py).cursorShape = CursorType.SIZEWE) ∧
    (resizeDirectionCurr s px py = BOTTOM ∨ resizeDirectionCurr s px py = TOP →
      (mouseMoveEvent s m px py).cursorShape = CursorType.SIZENS) ∧
    (resizeDirectionCurr s px py = BOTTOM ||| LEFT ∨
        resizeDirectionCurr s px py = TOP ||| RIGHT →
      (mouseMoveEvent s m px py).cursorShape = CursorType.SIZENESW) ∧
    (resizeDirectionCurr s px py = TOP ||| LEFT ∨
        resizeDirectionCurr s px py = BOTTOM ||| RIGHT →
      (mouseMoveEvent s m px py).cursorShape = CursorType.SIZENWSE) ∧
    (resizeDirectionCurr s px py ≠ LEFT → resizeDirectionCurr s px py ≠ RIGHT →
      resizeDirectionCurr s px py ≠ BOTTOM → resizeDirectionCurr s px py ≠ TOP →
      resizeDirectionCurr s px py ≠ BOTTOM ||| LEFT →
      resizeDirectionCurr s px py ≠ TOP ||| RIGHT →
      resizeDirectionCurr s px py ≠ TOP ||| LEFT →
      resizeDirectionCurr s px py ≠ BOTTOM ||| RIGHT →
      (mouseMoveEvent s m px py).cursorShape = CursorType.DEFAULT) ∧
    (resizeDirectionCurr s px py = NONE ∨ resizeDirectionCurr s px py = LEFT ||| RIGHT →
      (mouseMoveEvent s m px py).cursorShape = CursorType.DEFAULT) := by
  rw [mouseMoveEvent_cursorShape_of_hover s m px py (Or.inl hn)]
  refine ⟨resizeDirectionCurr_eq s px py, ?_, ?_, ?_, ?_, ?_, ?_⟩
  · rintro (h | h) <;> rw [h] <;> decide
  · rintro (h | h) <;> rw [h] <;> decide
  · rintro (h | h) <;> rw [h] <;> decide
  · rintro (h | h) <;> rw [h] <;> decide
  · intro h1 h2 h3 h4 h5 h6 h7 h8
    simp [newCursorShape, h1, h2, h3, h4, h5, h6, h7, h8]
  · rintro (h | h) <;> rw [h] <;> decide

/-- Claim C10 (as amended). For two states with the same geometry and the same pointer
position: when in both the hover branch of `mouseMoveEvent` is reached (no direction active,
or the release reported with the move) the resulting cursor is the same, whatever the drag,
resize and button state; while a direction is active and no release is reported,
`mouseMoveEvent` leaves the cursor as it was. -/
theorem mouseMoveEvent_cursor_independent_when_hovering (s t : DiagramBase) (m n : SglFrame) (px py : ℤ)
    (hx : s.windowOffsetX = t.windowOffsetX) (hy : s.windowOffsetY = t.windowOffsetY)
    (hw : s.fboWidthDisplay = t.fboWidthDisplay) (hh : s.fboHeightDisplay = t.fboHeightDisplay)
    (hm : s.resizeMargin = t.resizeMargin) :
    ((s.resizeDirection = NONE ∨ m.buttonReleased = true) →
      (t.resizeDirection = NONE ∨ n.buttonReleased = true) →
      (mouseMoveEvent s m px py).cursorShape = (mouseMoveEvent t n px py).cursorShape) ∧
    (s.resizeDirection ≠ NONE → m.buttonReleased = false →
      (mouseMoveEvent s m px py).cursorShape = s.cursorShape) := by
  refine ⟨fun h1 h2 => ?_, fun h1 h2 => mouseMoveEvent_cursorShape_of_resize s m px py h1 h2⟩
  rw [mouseMoveEvent_cursorShape_of_hover s m px py h1,
    mouseMoveEvent_cursorShape_of_hover t n px py h2,
    resizeDirectionCurr_congr s t px py hx hy hw hh hm]

/-- A press at `(2, 200)` on the square widget starts a resize with `LEFT` active. -/
theorem squareWidget_press_state :
    (update squareWidget (pressFrame 2 200)).resizeDirection = LEFT ∧
    (update squareWidget (pressFrame 2 200)).isResizingWindow = true ∧
    (update squareWidget (pressFrame 2 200)).isDraggingWindow = false ∧
    (update squareWidget (pressFrame 2 200)).cursorShape = CursorType.DEFAULT ∧
    (update squareWidget (pressFrame 2 200)).windowOffsetX = 0 ∧
    (update squareWidget (pressFrame 2 200)).windowOffsetY = 0 ∧
    (update squareWidget (pressFrame 2 200)).fboWidthDisplay = 420 ∧
    (update squareWidget (pressFrame 2 200)).fboHeightDisplay = 420 ∧
    (update squareWidget (pressFrame 2 200)).resizeMargin = 4 ∧
    (update squareWidget (pressFrame 2 200)).scaleFactor = 1 := by
  simp [update, mousePressEvent, mouseMoveDispatch, mouseReleaseEvent,
    mousePressEventResizeWindow, mousePressEventMoveWindow, mousePositionPx, squareWidget,
    initialState, pressFrame, AABB2.contains, leftAabb, rightAabb, bottomAabb, topAabb]
  norm_num

/-- The pixel `(200, 418)` of the square widget lies in the top margin only. -/
theorem squareWidget_hover_top : resizeDirectionCurr squareWidget 200 418 = TOP := by
  simp [resizeDirectionCurr, squareWidget, initialState, AABB2.contains, leftAabb, rightAabb,
    bottomAabb, topAabb]
  norm_num

/-- Claim C10, counterexample. The idle square widget and the same widget after a press at
`(2, 200)` (resize with `LEFT` active) have the same geometry and the same cursor `DEFAULT`;
a move to `(200, 418)` in the top margin sets the cursor to `SIZENS` in the first and leaves
it `DEFAULT` in the second. -/
theorem cursor_depends_on_resize_state :
    squareWidget.windowOffsetX = (update squareWidget (pressFrame 2 200)).windowOffsetX ∧
    squareWidget.windowOffsetY = (update squareWidget (pressFrame 2 200)).windowOffsetY ∧
    squareWidget.fboWidthDisplay = (update squareWidget (pressFrame 2 200)).fboWidthDisplay ∧
    squareWidget.fboHeightDisplay = (update squareWidget (pressFrame 2 200)).fboHeightDisplay ∧
    squareWidget.resizeMargin = (update squareWidget (pressFrame 2 200)).resizeMargin ∧
    squareWidget.cursorShape = (update squareWidget (pressFrame 2 200)).cursorShape ∧
    (mouseMoveEvent squareWidget (heldMoveFrame 200 418 420 420) 200 418).cursorShape =
      CursorType.SIZENS ∧
    (mouseMoveEvent (update squareWidget (pressFrame 2 200)) (heldMoveFrame 200 418 420 420)
      200 418).cursorShape = CursorType.DEFAULT := by
  obtain ⟨h1, h2, h3, h4, h5, h6, h7, h8, h9, -⟩ := squareWidget_press_state
  have hn : (update squareWidget (pressFrame 2 200)).resizeDirection ≠ NONE := by
    rw [h1]; decide
  rw [h4, h5, h6, h7, h8, h9,
    mouseMoveEvent_cursorShape_of_resize _ (heldMoveFrame 200 418 420 420) 200 418 hn rfl, h4,
    mouseMoveEvent_cursorShape_of_hover squareWidget (heldMoveFrame 200 418 420 420) 200 418
      (Or.inl rfl), squareWidget_hover_top]
  exact ⟨rfl, rfl, rfl, rfl, rfl, rfl, by decide, rfl⟩

/-- Claim C1, witness: a press at `(2, 200)` in the left margin of the idle square widget
starts a resize and grabs the mouse. -/
theorem update_press_idle_starts_resize_or_drag_witness :
    (pressFrame 2 200).buttonPressed = true ∧
    (update squareWidget (pressFrame 2 200)).isResizingWindow = true ∧
    (update squareWidget (pressFrame 2 200)).isMouseGrabbed = true :=
  have h := update_press_idle_starts_resize_or_drag squareWidget (pressFrame 2 200)
    rfl rfl rfl rfl rfl rfl rfl
  ⟨rfl, h.1.mpr (Or.inl (by
      norm_num [AABB2.contains, leftAabb, squareWidget, initialState, mousePositionPx,
        pressFrame])), h.2.2⟩

/-- Claim C3, witness: the release after a press in the left margin leaves the square widget
idle. -/
theorem update_release_makes_idle_witness :
    (releaseFrame 2 200).buttonReleased = true ∧
    (update (update squareWidget (pressFrame 2 200)) (releaseFrame 2 200)).isDraggingWindow =
      false ∧
    (update (update squareWidget (pressFrame 2 200)) (releaseFrame 2 200)).isResizingWindow =
      false ∧
    (update (update squareWidget (pressFrame 2 200)) (releaseFrame 2 200)).resizeDirection =
      NONE ∧
    (update (update squareWidget (pressFrame 2 200)) (releaseFrame 2 200)).isMouseGrabbed =
      false :=
  ⟨rfl, update_release_makes_idle (update squareWidget (pressFrame 2 200)) (releaseFrame 2 200)
    rfl⟩

/-- Claim C4, witness: the release that ends the resize begun at `(2, 200)` raises the
just-finished flag. -/
theorem update_release_flag_iff_witness :
    (releaseFrame 2 200).buttonReleased = true ∧ (releaseFrame 2 200).buttonPressed = false ∧
    (update (update squareWidget (pressFrame 2 200))
      (releaseFrame 2 200)).windowMoveOrResizeJustFinished = true :=
  ⟨rfl, rfl, (update_release_flag_iff (update squareWidget (pressFrame 2 200))
    (releaseFrame 2 200) rfl rfl).mpr (Or.inl squareWidget_press_state.2.1)⟩

/-- Claim C7, witness: during the `LEFT` resize of the square widget begun at `(2, 200)`, a
move to `(12, 200)` keeps the right edge where it was. -/
theorem mouseMoveEvent_resize_left_bottom_keeps_opposite_edge_witness :
    (mouseMoveEvent (update squareWidget (pressFrame 2 200)) (heldMoveFrame 12 200 410 420) 12
        200).windowOffsetX +
      (mouseMoveEvent (update squareWidget (pressFrame 2 200)) (heldMoveFrame 12 200 410 420) 12
        200).scaleFactor *
      (mouseMoveEvent (update squareWidget (pressFrame 2 200)) (heldMoveFrame 12 200 410 420) 12
        200).windowWidth =
    (update squareWidget (pressFrame 2 200)).windowOffsetX +
      (update squareWidget (pressFrame 2 200)).scaleFactor *
      (update squareWidget (pressFrame 2 200)).windowWidth :=
  ((mouseMoveEvent_resize_left_bottom_keeps_opposite_edge
    (update squareWidget (pressFrame 2 200)) (heldMoveFrame 12 200 410 420) 12 200 rfl
    squareWidget_press_state.2.2.1
    (by rw [squareWidget_press_state.2.2.2.2.2.2.2.2.2]; norm_num)).1
    (by rw [squareWidget_press_state.1]; decide)
    (by rw [squareWidget_press_state.1]; decide)).2

/-- Claim C9, witness: hovering over `(200, 418)` in the top margin of the idle square widget
selects the cursor `SIZENS`. -/
theorem mouseMoveEvent_cursor_table_witness :
    squareWidget.resizeDirection = NONE ∧
    (mouseMoveEvent squareWidget (heldMoveFrame 200 418 420 420) 200 418).cursorShape =
      CursorType.SIZENS :=
  ⟨rfl, (mouseMoveEvent_cursor_table squareWidget (heldMoveFrame 200 418 420 420) 200 418
    rfl).2.2.1 (Or.inr squareWidget_hover_top)⟩

/-- Claim C10, witness: the idle square widget and the same widget while dragged get the same
cursor from a move to `(200, 418)`. -/
theorem mouseMoveEvent_cursor_independent_when_hovering_witness :
    (mouseMoveEvent squareWidget (heldMoveFrame 200 418 420 420) 200 418).cursorShape =
      (mouseMoveEvent squareWidgetDragging (heldMoveFrame 200 418 420 420) 200
        418).cursorShape :=
  (mouseMoveEvent_cursor_independent_when_hovering squareWidget squareWidgetDragging
    (heldMoveFrame 200 418 420 420) (heldMoveFrame 200 418 420 420) 200 418
    rfl rfl rfl rfl rfl).1 (Or.inl rfl) (Or.inl rfl)

/-- The move block either keeps both gesture flags or clears both. -/
theorem mouseMoveDispatch_gesture (s : DiagramBase) (m : SglFrame) (o : Bool) (px py : ℤ) :
    ((mouseMoveDispatch s m o px py).isDraggingWindow = s.isDraggingWindow ∧
      (mouseMoveDispatch s m o px py).isResizingWindow = s.isResizingWindow) ∨
    ((mouseMoveDispatch s m o px py).isDraggingWindow = false ∧
      (mouseMoveDispatch s m o px py).isResizingWindow = false) := by
  unfold mouseMoveDispatch
  split_ifs
  · cases hr : m.buttonReleased
    · exact Or.inl ⟨(mouseMoveEvent_gesture s m px py hr).1,
        (mouseMoveEvent_gesture s m px py hr).2.1⟩
    · exact Or.inr ⟨(mouseMoveEvent_of_released s m px py hr).1,
        (mouseMoveEvent_of_released s m px py hr).2.1⟩
  · cases hu : m.isButtonUp
    · exact Or.inl ⟨(mouseMoveEventParent_gesture s m px py hu).1,
        (mouseMoveEventParent_gesture s m px py hu).2.1⟩
    · exact Or.inr ⟨(mouseMoveEventParent_of_buttonUp s m px py hu).1,
        (mouseMoveEventParent_of_buttonUp s m px py hu).2.1⟩
  · exact Or.inl ⟨rfl, rfl⟩

/-- The release block clears both gesture flags on a release and keeps them otherwise. -/
theorem mouseReleaseEvent_gesture (s : DiagramBase) (m : SglFrame) (px py : ℤ) :
    (m.buttonReleased = true →
      (mouseReleaseEvent s m px py).isDraggingWindow = false ∧
      (mouseReleaseEvent s m px py).isResizingWindow = false) ∧
    (m.buttonReleased = false →
      (mouseReleaseEvent s m px py).isDraggingWindow = s.isDraggingWindow ∧
      (mouseReleaseEvent s m px py).isResizingWindow = s.isResizingWindow) := by
  constructor
  · intro hr
    simp [mouseReleaseEvent, hr]
  · intro hr
    rw [mouseReleaseEvent_of_not_released s m px py hr]
    exact ⟨rfl, rfl⟩

/-- The press block on a state without gesture raises at most one of the two flags. -/
theorem mousePressEvent_exclusive (s : DiagramBase) (m : SglFrame) (o : Bool) (px py : ℤ)
    (hd : s.isDraggingWindow = false) (hz : s.isResizingWindow = false) :
    ¬ ((mousePressEvent s m o px py).isDraggingWindow = true ∧
       (mousePressEvent s m o px py).isResizingWindow = true) := by
  cases hp : m.buttonPressed
  · rw [mousePressEvent_of_not_pressed s m o px py (Or.inr hp), hd]
    rintro ⟨h, -⟩
    cases h
  · unfold mousePressEvent
    by_cases hc : (o && !s.isWindowFixed) = true
    · rw [if_pos hc]
      simp only [hp, if_true]
      generalize hs1 : ({ s with isMouseGrabbed := true } : DiagramBase) = s1
      have hd1 : s1.isDraggingWindow = false := by rw [← hs1]; exact hd
      have hz1 : s1.isResizingWindow = false := by rw [← hs1]; exact hz
      have h1 := mousePressEventResizeWindow_isResizingWindow s1 m px py hp
      have h2 := mousePressEventMoveWindow_isDraggingWindow
        (mousePressEventResizeWindow s1 m px py) m px py hp
      simp only [mousePressEventResizeWindow_frame] at h2
      simp only [mousePressEventMoveWindow_frame]
      rw [h1, h2, hd1, hz1]
      by_cases hn : (mousePressEventResizeWindow s1 m px py).resizeDirection = NONE <;>
        simp [hn]
    · rw [if_neg hc, hd]
      rintro ⟨h, -⟩
      cases h

/-- One `update` keeps `ExclusiveInv` when a press is only reported while the button is
up. -/
theorem update_exclusive (s : DiagramBase) (m : SglFrame) (down : Bool)
    (h : ExclusiveInv down s) (hpress : m.buttonPressed = true → down = false) :
    ExclusiveInv (if m.buttonReleased = true then false else (down || m.buttonPressed))
      (update s m) := by
  obtain ⟨hup, hex⟩ := h
  simp only [update]
  generalize (mousePositionPx s m).1 = px
  generalize (mousePositionPx s m).2 = py
  generalize (m.isMouseOverDiagram && !s.isMouseGrabbedByParent) = o
  generalize hs0 : ({ s with windowMoveOrResizeJustFinished := false } : DiagramBase) = s0
  have hd0 : s0.isDraggingWindow = s.isDraggingWindow := by rw [← hs0]
  have hz0 : s0.isResizingWindow = s.isResizingWindow := by rw [← hs0]
  -- the press block
  have hp1 : ¬ ((mousePressEvent s0 m o px py).isDraggingWindow = true ∧
      (mousePressEvent s0 m o px py).isResizingWindow = true) := by
    cases hp : m.buttonPressed
    · rw [mousePressEvent_of_not_pressed s0 m o px py (Or.inr hp), hd0, hz0]
      exact hex
    · obtain ⟨i1, i2⟩ := hup (hpress hp)
      exact mousePressEvent_exclusive s0 m o px py (hd0.trans i1) (hz0.trans i2)
  have hp2 : m.buttonPressed = false → down = false →
      (mousePressEvent s0 m o px py).isDraggingWindow = false ∧
      (mousePressEvent s0 m o px py).isResizingWindow = false := by
    intro hp hdown
    rw [mousePressEvent_of_not_pressed s0 m o px py (Or.inr hp), hd0, hz0]
    exact hup hdown
  generalize mousePressEvent s0 m o px py = s1 at hp1 hp2
  -- the move block
  have hm := mouseMoveDispatch_gesture s1 m o px py
  generalize mouseMoveDispatch s1 m o px py = s2 at hm
  -- the release block
  obtain ⟨r1, r2⟩ := mouseReleaseEvent_gesture s2 m px py
  cases hr : m.buttonReleased
  · obtain ⟨e1, e2⟩ := r2 hr
    simp only [Bool.false_eq_true, if_false]
    refine ⟨fun hdown => ?_, ?_⟩
    · rw [e1, e2]
      have hdn : down = false ∧ m.buttonPressed = false := by
        cases down <;> cases hp : m.buttonPressed <;> simp_all
      obtain ⟨q1, q2⟩ := hp2 hdn.2 hdn.1
      rcases hm with ⟨a, b⟩ | ⟨a, b⟩
      · exact ⟨a.trans q1, b.trans q2⟩
      · exact ⟨a, b⟩
    · rw [e1, e2]
      rcases hm with ⟨a, b⟩ | ⟨a, b⟩
      · rw [a, b]; exact hp1
      · rw [a]; rintro ⟨h, -⟩; cases h
  · obtain ⟨e1, e2⟩ := r1 hr
    simp only [if_true]
    refine ⟨fun _ => ⟨e1, e2⟩, ?_⟩
    rw [e1]
    rintro ⟨h, -⟩
    cases h

/-- Along a run with alternating presses and releases `ExclusiveInv` holds after every
prefix. -/
theorem run_exclusive (calls : List Call) (s : DiagramBase) (down : Bool)
    (h : ExclusiveInv down s) (halt : pressesAlternate down calls = true) (k : Nat) :
    ¬ ((run s (calls.take k)).isDraggingWindow = true ∧
       (run s (calls.take k)).isResizingWindow = true) := by
  induction calls generalizing s down k with
  | nil => simpa [run] using h.2
  | cons c cs ih =>
    cases k with
    | zero => simpa [run] using h.2
    | succ k =>
      cases c with
      | update f =>
        simp only [pressesAlternate, Bool.and_eq_true, Bool.or_eq_true,
          Bool.not_eq_true'] at halt
        have hpress : f.buttonPressed = true → down = false := by
          intro hp
          rcases halt.1 with h1 | h1
          · rw [hp] at h1; cases h1
          · exact h1
        have hstep := update_exclusive s f down h hpress
        have := ih (update s f) _ hstep (by simpa using halt.2) k
        simpa [run, Call.apply] using this
      | setIsMouseGrabbedByParent b =>
        have := ih (setIsMouseGrabbedByParent s b) down h (by simpa [pressesAlternate] using halt) k
        simpa [run, Call.apply] using this
      | setImGuiWindowOffset x y =>
        have := ih (setImGuiWindowOffset s x y) down h (by simpa [pressesAlternate] using halt) k
        simpa [run, Call.apply] using this

/-- Claim C13. Along every run of host calls from the initial state in which a press is only
reported while the button is up, `isDraggingWindow` and `isResizingWindow` are not both
true after any number `k` of calls. -/
theorem drag_and_resize_exclusive_when_presses_alternate (offsetX offsetY width height scale : ℚ) (fboWidth fboHeight : ℤ)
    (calls : List Call) (k : Nat) (halt : pressesAlternate false calls = true) :
    ¬ ((run (initialState offsetX offsetY width height scale fboWidth fboHeight)
          (calls.take k)).isDraggingWindow = true ∧
       (run (initialState offsetX offsetY width height scale fboWidth fboHeight)
          (calls.take k)).isResizingWindow = true) :=
  run_exclusive calls _ false
    ⟨fun _ => ⟨rfl, rfl⟩, by simp [initialState]⟩ halt k

/-- Claim C14. The method `getNeedsReRender` returns the old value of `needsReRender`, leaves
the flag false, a second call right afterwards returns false, and putting the old flag back
gives the original state, so no other field is changed. -/
theorem getNeedsReRender_consumes_flag (s : DiagramBase) :
    (getNeedsReRender s).1 = s.needsReRender ∧
    (getNeedsReRender s).2.needsReRender = false ∧
    (getNeedsReRender (getNeedsReRender s).2).1 = false ∧
    ({ (getNeedsReRender s).2 with needsReRender := s.needsReRender } : DiagramBase) = s :=
  ⟨rfl, rfl, rfl, rfl⟩

/-- Claim C15 (as amended). The result of `getNiceNumberString` is the scientific string
`toString(number, max(digits - 2, 1), false, false, true)` of the fallback, or it has at
most `digits + 2` characters. -/
theorem getNiceNumberString_length_or_scientific (toString : ℚ → ℤ → Bool → Bool → Bool → List Char) (number : ℚ) (digits : ℤ) :
    getNiceNumberString toString number digits =
        toString number (max (digits - 2) 1) false false true ∨
    ((getNiceNumberString toString number digits).length : ℤ) ≤ digits + 2 := by
  simp only [getNiceNumberString]
  generalize removeDigitsAfterDecimalPoint
    (removeTrailingZeros (toString number digits true false false)) (digits + 2) = out
  by_cases h : (out.length : ℤ) > digits + 2 ∨ (out = ['0'] ∧ number > floatEpsilon)
  · rw [if_pos h]
    exact Or.inl rfl
  · rw [if_neg h]
    right
    push_neg at h
    exact h.1

/-- Claim C15, counterexample. For `number = 0.00001` and `digits = 2` the fixed string
`0.00` is shortened to `0`, the fallback is taken and the result `1.0e-05` has 7 characters,
more than `digits + 2 = 4`. -/
theorem getNiceNumberString_scientific_exceeds_length :
    getNiceNumberString toStringOfSmallNumber (1 / 100000) 2 = "1.0e-05".toList ∧
    ¬ ((getNiceNumberString toStringOfSmallNumber (1 / 100000) 2).length : ℤ) ≤ 2 + 2 := by
  have h : getNiceNumberString toStringOfSmallNumber (1 / 100000) 2 = "1.0e-05".toList := by
    have h1 : removeTrailingZeros "0.00".toList = ['0'] := by decide
    have h2 : stringFind ['0'] '.' = none := by decide
    have h3 : removeDigitsAfterDecimalPoint ['0'] (2 + 2) = ['0'] := by
      simp only [removeDigitsAfterDecimalPoint, h2]
    simp only [getNiceNumberString, toStringOfSmallNumber, if_true, h1, h3]
    norm_num [floatEpsilon]
  rw [h]
  exact ⟨rfl, by decide⟩

/-- Claim C16, the code at the failing input. For `number = 10.01` and `digits = 2` the
fixed string `10.01` has no trailing zero to strip, is then cut to `digits + 2 = 4`
characters, and the result `10.0` (no fallback) contains a decimal point and ends in `0`. -/
theorem getNiceNumberString_truncation_leaves_trailing_zero :
    getNiceNumberString toStringOfTenPointZeroOne (1001 / 100) 2 = "10.0".toList ∧
    '.' ∈ getNiceNumberString toStringOfTenPointZeroOne (1001 / 100) 2 ∧
    (getNiceNumberString toStringOfTenPointZeroOne (1001 / 100) 2).getLast? = some '0' ∧
    getNiceNumberString toStringOfTenPointZeroOne (1001 / 100) 2 ≠
      toStringOfTenPointZeroOne (1001 / 100) (max (2 - 2) 1) false false true := by
  have hmain : getNiceNumberString toStringOfTenPointZeroOne (1001 / 100) 2 =
      "10.0".toList := by
    have h1 : removeTrailingZeros "10.01".toList = "10.01".toList := by decide
    have h2 : stringFind "10.01".toList '.' = some 2 := by decide
    have h3 : removeDigitsAfterDecimalPoint "10.01".toList (2 + 2) = "10.0".toList := by
      simp only [removeDigitsAfterDecimalPoint, h2]
      decide
    simp only [getNiceNumberString, toStringOfTenPointZeroOne, if_true, h1, h3]
    have h4 : ¬ ((("10.0".toList).length : ℤ) > 2 + 2 ∨
        ("10.0".toList = ['0'] ∧ (1001 / 100 : ℚ) > floatEpsilon)) := by
      rintro (h | ⟨h, -⟩)
      · revert h; decide
      · revert h; decide
    rw [if_neg h4]
  rw [hmain]
  exact ⟨rfl, by decide, by decide, by decide⟩

/-- For four control points and order 4 the curve is the cubic Bernstein combination of the
control points. -/
theorem evaluateBSpline_four (t : ℚ) (h0 : 0 ≤ t) (h1 : t ≤ 1) (p0 p1 p2 p3 : ℚ × ℚ) :
    evaluateBSpline t 4 [p0, p1, p2, p3] =
      ((1 - t) ^ 3 * p0.1 + 3 * t * (1 - t) ^ 2 * p1.1 + 3 * t ^ 2 * (1 - t) * p2.1 +
          t ^ 3 * p3.1,
       (1 - t) ^ 3 * p0.2 + 3 * t * (1 - t) ^ 2 * p1.2 + 3 * t ^ 2 * (1 - t) * p2.2 +
          t ^ 3 * p3.2) := by
  have hspan : (0 ≤ t ∧ (t < 1 ∨ t = 1)) := ⟨h0, lt_or_eq_of_le h1⟩
  have hlo : ¬ (t < 0) := not_lt.mpr h0
  have hhi : ¬ (1 ≤ t ∧ t < 1) := fun h => absurd h.2 (not_lt.mpr h.1)
  simp only [evaluateBSpline, weightedSum, bsplineBasis, bsplineKnot, List.length_cons,
    List.length_nil]
  norm_num [hspan, hlo, hhi]
  constructor <;> ring


/-- Claim C17. For four control points and order 4, `evaluateBSpline` returns the first
control point at `t = 0` and the last control point at `t = 1`. -/
theorem evaluateBSpline_endpoints (p0 p1 p2 p3 : ℚ × ℚ) :
    evaluateBSpline 0 4 [p0, p1, p2, p3] = p0 ∧
    evaluateBSpline 1 4 [p0, p1, p2, p3] = p3 := by
  rw [evaluateBSpline_four 0 le_rfl zero_le_one, evaluateBSpline_four 1 zero_le_one le_rfl]
  constructor <;> ext <;> simp

/-- Claim C18 (as amended). For four collinear control points that are equally spaced
(`P1 = P0 + (P3 - P0) / 3`, `P2 = P0 + 2 (P3 - P0) / 3`) and every `t` in `[0, 1]`,
`evaluateBSpline(t, 4, controlPoints)` is the linear interpolation `(1 - t) P0 + t P3`. -/
theorem evaluateBSpline_equally_spaced_is_linear (t : ℚ) (h0 : 0 ≤ t) (h1 : t ≤ 1) (p0 p3 : ℚ × ℚ) :
    evaluateBSpline t 4
        [p0, (p0.1 + (p3.1 - p0.1) / 3, p0.2 + (p3.2 - p0.2) / 3),
          (p0.1 + 2 * (p3.1 - p0.1) / 3, p0.2 + 2 * (p3.2 - p0.2) / 3), p3] =
      ((1 - t) * p0.1 + t * p3.1, (1 - t) * p0.2 + t * p3.2) := by
  rw [evaluateBSpline_four t h0 h1]
  ext <;> simp only <;> ring

/-- Claim C18, counterexample. The control points `(0,0), (0,0), (0,0), (1,0)` are collinear;
at `t = 1/2` the curve point is `(1/8, 0)`, not the linear interpolation `(1/2, 0)`. -/
theorem evaluateBSpline_collinear_not_linear :
    (0 : ℚ) ≤ 1 / 2 ∧ (1 / 2 : ℚ) ≤ 1 ∧
    evaluateBSpline (1 / 2) 4 [(0, 0), (0, 0), (0, 0), (1, 0)] = (1 / 8, 0) ∧
    evaluateBSpline (1 / 2) 4 [(0, 0), (0, 0), (0, 0), (1, 0)] ≠
      ((1 - 1 / 2) * 0 + 1 / 2 * 1, (1 - 1 / 2) * 0 + 1 / 2 * 0) := by
  rw [evaluateBSpline_four (1 / 2) (by norm_num) (by norm_num)]
  refine ⟨by norm_num, by norm_num, ?_, ?_⟩
  · ext <;> norm_num
  · intro h
    have := congrArg Prod.fst h
    norm_num at this

/-- A read within bounds does not throw. -/
theorem vectorAt_of_lt {α : Type} (v : List α) (i : ℤ) (h0 : 0 ≤ i) (h1 : i < (v.length : ℤ)) :
    ∃ x, vectorAt v i = some x := by
  have h2 : i.toNat < v.length := by omega
  exact ⟨v.get ⟨i.toNat, h2⟩, by simp [vectorAt, h0, List.get?_eq_get h2]⟩

/-- A write within bounds does not throw and keeps the size. -/
theorem vectorSet_of_lt {α : Type} (v : List α) (i : ℤ) (x : α) (h0 : 0 ≤ i)
    (h1 : i < (v.length : ℤ)) :
    ∃ w, vectorSet v i x = some w ∧ w.length = v.length := by
  have h2 : i.toNat < v.length := by omega
  exact ⟨v.set i.toNat x, by simp [vectorSet, h0, h2], by simp⟩

/-- The size after `resize(n)` is `n`. -/
theorem vectorResize_length {α : Type} (v : List α) (n : ℕ) (x : α) :
    (vectorResize v n x).length = n := by
  simp only [vectorResize, List.length_append, List.length_take, List.length_replicate]
  omega

/-- A loop whose body does not throw on states satisfying an invariant, and keeps the
invariant, does not throw and ends in a state satisfying the invariant. -/
theorem forLoop_invariant {σ : Type} (body : ℕ → σ → Option σ) (inv : σ → Prop) (n : ℕ) :
    ∀ (start : ℕ) (s : σ), inv s →
      (∀ i t, start ≤ i → i < start + n → inv t → ∃ t1, body i t = some t1 ∧ inv t1) →
      ∃ s1, forLoop body start n s = some s1 ∧ inv s1 := by
  induction n with
  | zero => exact fun _ s hs _ => ⟨s, rfl, hs⟩
  | succ n ih =>
    intro start s hs hbody
    obtain ⟨t1, ht1, hinv⟩ := hbody start s le_rfl (by omega) hs
    obtain ⟨s1, hs1, hinv1⟩ := ih (start + 1) t1 hinv
      (fun i t hi hlt ht => hbody i t (by omega) (by omega) ht)
    exact ⟨s1, by simp only [forLoop, ht1, hs1], hinv1⟩

/-- The node loop body writes within bounds. -/
theorem initNode_ok (math : FloatMath) (numPoints i : ℕ) (nodesList : List (ℚ × ℚ))
    (hi : i < numPoints) (hlen : nodesList.length = numPoints) :
    ∃ w, initNode math numPoints i nodesList = some w ∧ w.length = numPoints := by
  obtain ⟨w, hw, hl⟩ := vectorSet_of_lt nodesList (i : ℤ)
    (math.cos (math.twoPi * (i : ℚ) / (numPoints : ℚ)),
      math.sin (math.twoPi * (i : ℚ) / (numPoints : ℚ))) (by omega) (by omega)
  exact ⟨w, hw, by omega⟩

/-- The curve-sample loop body writes within bounds. -/
theorem initCurvePoint_ok (controlPoints : List (ℚ × ℚ)) (numLines lineIdx ptIdx : ℕ)
    (curvePoints : List (ℚ × ℚ)) (hl : lineIdx < numLines) (hp : ptIdx < NUM_SUBDIVISIONS)
    (hlen : curvePoints.length = numLines * NUM_SUBDIVISIONS) :
    ∃ w, initCurvePoint controlPoints lineIdx ptIdx curvePoints = some w ∧
      w.length = numLines * NUM_SUBDIVISIONS := by
  have hb : lineIdx * NUM_SUBDIVISIONS + ptIdx < numLines * NUM_SUBDIVISIONS := by
    have : (lineIdx + 1) * NUM_SUBDIVISIONS ≤ numLines * NUM_SUBDIVISIONS :=
      Nat.mul_le_mul_right _ hl
    rw [Nat.add_mul, Nat.one_mul] at this
    omega
  obtain ⟨w, hw, hwl⟩ := vectorSet_of_lt curvePoints
    ((lineIdx : ℤ) * (NUM_SUBDIVISIONS : ℤ) + (ptIdx : ℤ))
    (evaluateBSpline ((ptIdx : ℚ) / ((NUM_SUBDIVISIONS - 1 : ℕ) : ℚ))
      (if controlPoints.length = 3 then 3 else 4) controlPoints)
    (by positivity) (by rw [hlen]; exact_mod_cast hb)
  exact ⟨w, hw, by omega⟩

/-- The curve loop body reads and writes within bounds. -/
theorem initCurve_ok (numPoints : ℕ) (nodesList : List (ℚ × ℚ)) (lineIdx : ℕ)
    (curvePoints : List (ℚ × ℚ)) (hn : nodesList.length = numPoints)
    (hl : lineIdx < numPoints * numPoints)
    (hlen : curvePoints.length = numPoints * numPoints * NUM_SUBDIVISIONS) :
    ∃ w, initCurve numPoints nodesList lineIdx curvePoints = some w ∧
      w.length = numPoints * numPoints * NUM_SUBDIVISIONS := by
  have hpos : 0 < numPoints := by
    rcases Nat.eq_zero_or_pos numPoints with h | h
    · rw [h] at hl; simp at hl
    · exact h
  have hi : lineIdx / numPoints < numPoints := Nat.div_lt_of_lt_mul hl
  have hj : lineIdx % numPoints < numPoints := Nat.mod_lt _ hpos
  obtain ⟨pt0, h0⟩ := vectorAt_of_lt nodesList ((lineIdx / numPoints : ℕ) : ℤ)
    (Int.natCast_nonneg _) (by rw [hn]; exact_mod_cast hi)
  obtain ⟨pt1, h1⟩ := vectorAt_of_lt nodesList ((lineIdx % numPoints : ℕ) : ℤ)
    (Int.natCast_nonneg _) (by rw [hn]; exact_mod_cast hj)
  simp only [initCurve, h0, h1]
  exact forLoop_invariant _ (fun c => c.length = numPoints * numPoints * NUM_SUBDIVISIONS)
    NUM_SUBDIVISIONS 0 curvePoints hlen
    (fun p c _ hp hc => initCurvePoint_ok _ (numPoints * numPoints) lineIdx p c hl
      (by omega) hc)

/-- The method `initialize` does not throw, and it leaves 25 nodes, 625 lines and
`625 * 50` curve samples. -/
theorem initDiagram_ok (math : FloatMath) (d : ChordDiagram) :
    ∃ d1, initDiagram math d = some d1 ∧ d1.nodesList.length = 25 ∧
      d1.numLinesTotal = 625 ∧ d1.curvePoints.length = 625 * NUM_SUBDIVISIONS := by
  obtain ⟨nodes, hnodes, hnl⟩ := forLoop_invariant (initNode math 25)
    (fun v => v.length = 25) 25 0 (vectorResize d.nodesList 25 (0, 0))
    (vectorResize_length _ _ _)
    (fun i v _ hi hv => initNode_ok math 25 i v (by omega) hv)
  obtain ⟨curve, hcurve, hcl⟩ := forLoop_invariant (initCurve 25 nodes)
    (fun c => c.length = 25 * 25 * NUM_SUBDIVISIONS) (25 * 25) 0
    (vectorResize d.curvePoints (25 * 25 * NUM_SUBDIVISIONS) (0, 0))
    (vectorResize_length _ _ _)
    (fun i c _ hi hc => initCurve_ok 25 nodes i c hnl (by omega) hc)
  have h : ∃ d1, initDiagram math d = some d1 ∧ d1.nodesList = nodes ∧
      d1.numLinesTotal = ((25 * 25 : ℕ) : ℤ) ∧ d1.curvePoints = curve := by
    simp only [initDiagram, hnodes, hcurve]
    exact ⟨_, rfl, rfl, rfl, rfl⟩
  obtain ⟨d1, h1, h2, h3, h4⟩ := h
  exact ⟨d1, h1, by rw [h2]; exact hnl, by rw [h3]; norm_num, by rw [h4, hcl]⟩

/-- The layout block does not touch the vectors, the line count and the selection. -/
theorem updateRadii_frame (d : ChordDiagram) :
    (updateRadii d).curvePoints = d.curvePoints ∧
    (updateRadii d).nodesList = d.nodesList ∧
    (updateRadii d).numLinesTotal = d.numLinesTotal ∧
    (updateRadii d).selectedLineIdx = d.selectedLineIdx ∧
    (updateRadii d).selectedPointIndices0 = d.selectedPointIndices0 ∧
    (updateRadii d).selectedPointIndices1 = d.selectedPointIndices1 := by
  simp only [updateRadii]
  split_ifs <;> exact ⟨rfl, rfl, rfl, rfl, rfl, rfl⟩

/-- A curve sample within bounds is read without an exception. -/
theorem curveVertex_ok (d : ChordDiagram) (idx : ℤ) (h0 : 0 ≤ idx)
    (h1 : idx < (d.curvePoints.length : ℤ)) : ∃ p, curveVertex d idx = some p := by
  obtain ⟨pt, hpt⟩ := vectorAt_of_lt d.curvePoints idx h0 h1
  simp only [curveVertex, hpt]
  exact ⟨_, rfl⟩

/-- The `nvgLineTo` loop of one line within the line count does not throw. -/
theorem curveLineTo_loop_ok (d : ChordDiagram) (lineIdx : ℤ) (cmds : List NvgCmd)
    (hlen : (d.curvePoints.length : ℤ) = d.numLinesTotal * (NUM_SUBDIVISIONS : ℤ))
    (h0 : 0 ≤ lineIdx) (h1 : lineIdx < d.numLinesTotal) :
    ∃ c, forLoop (curveLineTo d lineIdx) 1 (NUM_SUBDIVISIONS - 1) cmds = some c := by
  obtain ⟨c, hc, -⟩ := forLoop_invariant (curveLineTo d lineIdx) (fun _ => True)
    (NUM_SUBDIVISIONS - 1) 1 cmds trivial (fun i t _ hi _ => by
      have hi2 : (i : ℤ) < 50 := by simp only [NUM_SUBDIVISIONS] at hi; omega
      obtain ⟨p, hp⟩ := curveVertex_ok d (lineIdx * (NUM_SUBDIVISIONS : ℤ) + (i : ℤ))
        (by simp only [NUM_SUBDIVISIONS]; push_cast; omega)
        (by rw [hlen]; simp only [NUM_SUBDIVISIONS]; push_cast; omega)
      simp only [curveLineTo, hp]
      exact ⟨_, rfl, trivial⟩)
  exact ⟨c, hc⟩

/-- The first sample of a line within the line count is read without an exception. -/
theorem curveVertex_first_ok (d : ChordDiagram) (lineIdx : ℤ)
    (hlen : (d.curvePoints.length : ℤ) = d.numLinesTotal * (NUM_SUBDIVISIONS : ℤ))
    (h0 : 0 ≤ lineIdx) (h1 : lineIdx < d.numLinesTotal) :
    ∃ p, curveVertex d (lineIdx * (NUM_SUBDIVISIONS : ℤ) + 0) = some p :=
  curveVertex_ok d _ (by simp only [NUM_SUBDIVISIONS]; push_cast; omega)
    (by rw [hlen]; simp only [NUM_SUBDIVISIONS]; push_cast; omega)

/-- The body of the curve loop does not throw for a line within the line count. -/
theorem renderCurve_ok (d : ChordDiagram) (color : NVGcolor) (lineIdx : ℕ)
    (cmds : List NvgCmd)
    (hlen : (d.curvePoints.length : ℤ) = d.numLinesTotal * (NUM_SUBDIVISIONS : ℤ))
    (h1 : (lineIdx : ℤ) < d.numLinesTotal) :
    ∃ c, renderCurve d color lineIdx cmds = some c := by
  unfold renderCurve
  by_cases hsel : (lineIdx : ℤ) = d.selectedLineIdx
  · rw [if_pos hsel]; exact ⟨_, rfl⟩
  · rw [if_neg hsel]
    obtain ⟨p, hp⟩ := curveVertex_first_ok d (lineIdx : ℤ) hlen (Int.natCast_nonneg _) h1
    obtain ⟨c, hc⟩ := curveLineTo_loop_ok d (lineIdx : ℤ)
      (cmds ++ [NvgCmd.nvgBeginPath] ++ [NvgCmd.nvgMoveTo p.1 p.2]) hlen
      (Int.natCast_nonneg _) h1
    simp only [hp, hc]
    exact ⟨_, rfl⟩

/-- The block of the selected curve does not throw when the selected line is `-1` or within
the line count. -/
theorem renderSelectedCurve_ok (d : ChordDiagram) (color : NVGcolor) (cmds : List NvgCmd)
    (hlen : (d.curvePoints.length : ℤ) = d.numLinesTotal * (NUM_SUBDIVISIONS : ℤ))
    (h1 : d.selectedLineIdx < d.numLinesTotal) :
    ∃ c, renderSelectedCurve d color cmds = some c := by
  unfold renderSelectedCurve
  by_cases hsel : 0 ≤ d.selectedLineIdx
  · rw [if_pos hsel]
    obtain ⟨p, hp⟩ := curveVertex_first_ok d d.selectedLineIdx hlen hsel h1
    simp only [hp]
    obtain ⟨c, hc⟩ := curveLineTo_loop_ok d d.selectedLineIdx
      (cmds ++ [NvgCmd.nvgStrokeWidth (d.curveThickness * 3), NvgCmd.nvgBeginPath] ++
        [NvgCmd.nvgMoveTo p.1 p.2]) hlen hsel h1
    simp only [hc]
    generalize hout : (if d.isDarkMode = true then d.backgroundFillColorDark
      else d.backgroundFillColorBright) = outlineColor
    obtain ⟨c2, hc2⟩ := curveLineTo_loop_ok d d.selectedLineIdx
      (c ++ [NvgCmd.nvgStrokeColor
          (nvgRGBA outlineColor.r outlineColor.g outlineColor.b outlineColor.a),
          NvgCmd.nvgStroke] ++
        [NvgCmd.nvgStrokeWidth (d.curveThickness * 2), NvgCmd.nvgBeginPath,
          NvgCmd.nvgMoveTo p.1 p.2]) hlen hsel h1
    simp only [hc2]
    exact ⟨_, rfl⟩
  · rw [if_neg hsel]; exact ⟨_, rfl⟩

/-- The body of the first point loop does not throw for a node index within bounds. -/
theorem renderPoint_ok (d : ChordDiagram) (pointRadius : ℚ) (leafIdx : ℕ)
    (cmds : List NvgCmd) (h : leafIdx < d.nodesList.length) :
    ∃ c, renderPoint d pointRadius leafIdx cmds = some c := by
  obtain ⟨leaf, hleaf⟩ := vectorAt_of_lt d.nodesList (leafIdx : ℤ) (Int.natCast_nonneg _)
    (by exact_mod_cast h)
  simp only [renderPoint, hleaf]
  split_ifs <;> exact ⟨_, rfl⟩

/-- The body of the second point loop does not throw when the selected index it reads is
within bounds. -/
theorem renderSelectedPoint_ok (d : ChordDiagram) (pointRadius : ℚ) (color : NVGcolor)
    (idx : ℕ) (cmds : List NvgCmd)
    (h0 : 0 ≤ (if idx = 0 then d.selectedPointIndices0 else d.selectedPointIndices1))
    (h1 : (if idx = 0 then d.selectedPointIndices0 else d.selectedPointIndices1) <
      (d.nodesList.length : ℤ)) :
    ∃ c, renderSelectedPoint d pointRadius color idx cmds = some c := by
  obtain ⟨leaf, hleaf⟩ := vectorAt_of_lt d.nodesList
    (0 + (if idx = 0 then d.selectedPointIndices0 else d.selectedPointIndices1))
    (by omega) (by omega)
  simp only [renderSelectedPoint, hleaf]
  exact ⟨_, rfl⟩

/-- The method `renderChordDiagramNanoVG` does not throw when the curve buffer has
`numLinesTotal * NUM_SUBDIVISIONS` samples and the selected indices are `-1` or within
bounds. -/
theorem renderChordDiagramNanoVG_ok (d : ChordDiagram)
    (hlen : (d.curvePoints.length : ℤ) = d.numLinesTotal * (NUM_SUBDIVISIONS : ℤ))
    (hline : d.selectedLineIdx < d.numLinesTotal)
    (hp0 : d.selectedPointIndices0 < (d.nodesList.length : ℤ))
    (hp1 : d.selectedPointIndices1 < (d.nodesList.length : ℤ)) :
    ∃ r, renderChordDiagramNanoVG d = some r := by
  obtain ⟨f1, f2, f3, f4, f5, f6⟩ := updateRadii_frame d
  have hlen1 : ((updateRadii d).curvePoints.length : ℤ) =
      (updateRadii d).numLinesTotal * (NUM_SUBDIVISIONS : ℤ) := by rw [f1, f3]; exact hlen
  have hline1 : (updateRadii d).selectedLineIdx < (updateRadii d).numLinesTotal := by
    rw [f4, f3]; exact hline
  have hq0 : (updateRadii d).selectedPointIndices0 < ((updateRadii d).nodesList.length : ℤ) := by
    rw [f5, f2]; exact hp0
  have hq1 : (updateRadii d).selectedPointIndices1 < ((updateRadii d).nodesList.length : ℤ) := by
    rw [f6, f2]; exact hp1
  unfold renderChordDiagramNanoVG
  generalize updateRadii d = e at hlen1 hline1 hq0 hq1
  simp only
  generalize nvgRGBA 100 255 100 (max 0 (min 255 ⌈e.curveOpacity * 255⌉)).toNat = color
  -- the curves
  have hcurves : ∃ c, (if e.curvePoints ≠ [] then
      match forLoop (renderCurve e color) 0 e.numLinesTotal.toNat
          [NvgCmd.nvgStrokeWidth e.curveThickness] with
      | none => none
      | some cmds => renderSelectedCurve e color cmds
    else some []) = some c := by
    split_ifs
    · obtain ⟨c, hc, -⟩ := forLoop_invariant (renderCurve e color) (fun _ => True)
        e.numLinesTotal.toNat 0 [NvgCmd.nvgStrokeWidth e.curveThickness] trivial
        (fun i t _ hi _ => by
          obtain ⟨c, hc⟩ := renderCurve_ok e color i t hlen1 (by omega)
          exact ⟨c, hc, trivial⟩)
      obtain ⟨c2, hc2⟩ := renderSelectedCurve_ok e color c hlen1 hline1
      simp only [hc, hc2]
      exact ⟨_, rfl⟩
    · exact ⟨_, rfl⟩
  obtain ⟨c, hc⟩ := hcurves
  rw [hc]
  simp only
  -- the points
  obtain ⟨c3, hc3, -⟩ := forLoop_invariant
    (renderPoint e (e.curveThickness * e.pointRadiusBase)) (fun _ => True)
    e.nodesList.length 0 (c ++ [NvgCmd.nvgBeginPath]) trivial
    (fun i t _ hi _ => by
      obtain ⟨c, hc⟩ := renderPoint_ok e (e.curveThickness * e.pointRadiusBase) i t (by omega)
      exact ⟨c, hc, trivial⟩)
  rw [hc3]
  simp only
  generalize nvgRGBA e.circleFillColorSelected0.r e.circleFillColorSelected0.g
    e.circleFillColorSelected0.b e.circleFillColorSelected0.a = colorSel
  obtain ⟨c4, hc4, -⟩ := forLoop_invariant
    (renderSelectedPoint e (e.curveThickness * e.pointRadiusBase) colorSel) (fun _ => True)
    (if e.selectedPointIndices0 < 0 then 0 else (if e.selectedPointIndices1 < 0 then 1 else 2))
    0 (c3 ++ [NvgCmd.nvgFillColor (nvgRGBA e.circleFillColor.r e.circleFillColor.g
        e.circleFillColor.b e.circleFillColor.a), NvgCmd.nvgFill]) trivial
    (fun i t _ hi _ => by
      have hb : 0 ≤ (if i = 0 then e.selectedPointIndices0 else e.selectedPointIndices1) ∧
          (if i = 0 then e.selectedPointIndices0 else e.selectedPointIndices1) <
            (e.nodesList.length : ℤ) := by
        split_ifs at hi ⊢ <;> omega
      obtain ⟨c, hc⟩ := renderSelectedPoint_ok e (e.curveThickness * e.pointRadiusBase)
        colorSel i t hb.1 hb.2
      exact ⟨c, hc, trivial⟩)
  rw [hc4]
  exact ⟨_, rfl⟩

/-- The state returned by `renderChordDiagramNanoVG` is the state after the layout block. -/
theorem renderChordDiagramNanoVG_state (d : ChordDiagram) (r : ChordDiagram × List NvgCmd)
    (h : renderChordDiagramNanoVG d = some r) : r.1 = updateRadii d := by
  unfold renderChordDiagramNanoVG at h
  simp only at h
  split at h
  · cases h
  · split at h
    · cases h
    · split at h
      · cases h
      · cases h
        rfl

/-- The function `std::round` maps non-negative numbers to non-negative numbers. -/
theorem stdRound_nonneg (x : ℚ) (h : 0 ≤ x) : 0 ≤ stdRound x := by
  simp only [stdRound, if_pos h]
  have : (0 : ℤ) ≤ ⌊x + 1 / 2⌋ := Int.floor_nonneg.mpr (by linarith)
  exact_mod_cast this

/-- Radii after the layout block, in terms of the smaller inner dimension. -/
theorem updateRadii_radii (d : ChordDiagram) :
    (updateRadii d).totalRadius =
      stdRound (1 / 2 * min
        (d.windowWidth - 2 * (if d.windowWidth < 360 ∨ d.windowHeight < 360 then 10
          else min d.windowWidth d.windowHeight / 36))
        (d.windowHeight - 2 * (if d.windowWidth < 360 ∨ d.windowHeight < 360 then 10
          else min d.windowWidth d.windowHeight / 36))) ∧
    (updateRadii d).chartRadius = (updateRadii d).totalRadius * (1 - d.outerRingSizePct) := by
  simp only [updateRadii]
  split_ifs <;> exact ⟨rfl, rfl⟩

/-- Claim C20 (as amended). For `windowWidth >= 20` and `windowHeight >= 20` (and
`outerRingSizePct <= 1`, its value being `0.1`) the `totalRadius` and `chartRadius` computed
by `renderChordDiagramNanoVG` are non-negative. -/
theorem updateRadii_nonneg_of_window_at_least_20 (d : ChordDiagram) (hw : 20 ≤ d.windowWidth) (hh : 20 ≤ d.windowHeight)
    (hpct : d.outerRingSizePct ≤ 1) :
    0 ≤ (updateRadii d).totalRadius ∧ 0 ≤ (updateRadii d).chartRadius ∧
    ∀ r, renderChordDiagramNanoVG d = some r → 0 ≤ r.1.totalRadius ∧ 0 ≤ r.1.chartRadius := by
  obtain ⟨h1, h2⟩ := updateRadii_radii d
  have ht : 0 ≤ (updateRadii d).totalRadius := by
    rw [h1]
    apply stdRound_nonneg
    have hmin : 0 ≤ min d.windowWidth d.windowHeight := le_min (by linarith) (by linarith)
    have hminw : min d.windowWidth d.windowHeight ≤ d.windowWidth := min_le_left _ _
    have hminh : min d.windowWidth d.windowHeight ≤ d.windowHeight := min_le_right _ _
    split_ifs
    · have : 0 ≤ min (d.windowWidth - 2 * 10) (d.windowHeight - 2 * 10) :=
        le_min (by linarith) (by linarith)
      exact mul_nonneg (by norm_num) this
    · have : 0 ≤ min (d.windowWidth - 2 * (min d.windowWidth d.windowHeight / 36))
          (d.windowHeight - 2 * (min d.windowWidth d.windowHeight / 36)) :=
        le_min (by linarith) (by linarith)
      exact mul_nonneg (by norm_num) this
  have hc : 0 ≤ (updateRadii d).chartRadius := by
    rw [h2]
    exact mul_nonneg ht (by linarith)
  refine ⟨ht, hc, fun r hr => ?_⟩
  rw [renderChordDiagramNanoVG_state d r hr]
  exact ⟨ht, hc⟩

/-- Claim C20, counterexample. For a window of size `0 x 0` the border is 10, the smaller
inner dimension is `-20`, and `renderChordDiagramNanoVG` computes `totalRadius = -10` and
`chartRadius = -9`: nothing is clamped. -/
theorem updateRadii_negative_for_empty_window :
    (0 : ℚ) ≤ (ChordDiagram.new 0 0).windowWidth ∧
    (0 : ℚ) ≤ (ChordDiagram.new 0 0).windowHeight ∧
    (updateRadii (ChordDiagram.new 0 0)).totalRadius = -10 ∧
    (updateRadii (ChordDiagram.new 0 0)).chartRadius = -9 ∧
    (∃ cmds, renderChordDiagramNanoVG (ChordDiagram.new 0 0) =
      some (updateRadii (ChordDiagram.new 0 0), cmds)) ∧
    ¬ (0 ≤ (updateRadii (ChordDiagram.new 0 0)).totalRadius) ∧
    ¬ (0 ≤ (updateRadii (ChordDiagram.new 0 0)).chartRadius) := by
  obtain ⟨h1, h2⟩ := updateRadii_radii (ChordDiagram.new 0 0)
  have hfloor : ⌊(10 : ℚ) + 1 / 2⌋ = 10 := by
    rw [Int.floor_eq_iff]
    constructor <;> norm_num
  have ht : (updateRadii (ChordDiagram.new 0 0)).totalRadius = -10 := by
    rw [h1]
    norm_num [ChordDiagram.new, stdRound, hfloor]
  have hc : (updateRadii (ChordDiagram.new 0 0)).chartRadius = -9 := by
    rw [h2, ht]
    norm_num [ChordDiagram.new]
  have hr : ∃ r, renderChordDiagramNanoVG (ChordDiagram.new 0 0) = some r :=
    renderChordDiagramNanoVG_ok (ChordDiagram.new 0 0) (by simp [ChordDiagram.new])
      (by simp [ChordDiagram.new]) (by simp [ChordDiagram.new]) (by simp [ChordDiagram.new])
  obtain ⟨r, hr⟩ := hr
  have hs := renderChordDiagramNanoVG_state _ r hr
  refine ⟨le_rfl, le_rfl, ht, hc, ⟨r.2, ?_⟩, ?_, ?_⟩
  · rw [hr, ← hs]
  · rw [ht]; norm_num
  · rw [hc]; norm_num

/-- Claim C19. The method `initialize` does not throw, and after it, for every
`selectedLineIdx` in `[-1, numLinesTotal)` and all selected point indices in
`[-1, nodesList.size())`, `renderChordDiagramNanoVG` does not throw: every bounds-checked
access of the two methods is within bounds. -/
theorem init_and_render_do_not_throw (math : FloatMath) (d0 : ChordDiagram) :
    ∃ d, initDiagram math d0 = some d ∧
      ∀ line p0 p1 : ℤ, -1 ≤ line → line < d.numLinesTotal →
        -1 ≤ p0 → p0 < (d.nodesList.length : ℤ) →
        -1 ≤ p1 → p1 < (d.nodesList.length : ℤ) →
        (renderChordDiagramNanoVG
          { d with selectedLineIdx := line
                   selectedPointIndices0 := p0
                   selectedPointIndices1 := p1 }).isSome = true := by
  obtain ⟨d, hd, hn, hl, hc⟩ := initDiagram_ok math d0
  refine ⟨d, hd, fun line p0 p1 _ h1 _ h2 _ h3 => ?_⟩
  obtain ⟨r, hr⟩ := renderChordDiagramNanoVG_ok
    { d with selectedLineIdx := line, selectedPointIndices0 := p0, selectedPointIndices1 := p1 }
    (by simp only [hc, hl, NUM_SUBDIVISIONS]; norm_num) h1 h2 h3
  rw [hr]
  rfl

/-- Claim C13, witness: press, held move and release alternate, and after the first two of
these calls the square widget is not both dragging and resizing. -/
theorem drag_and_resize_exclusive_when_presses_alternate_witness :
    pressesAlternate false
      [Call.update (pressFrame 2 200), Call.update (heldMoveFrame 12 200 410 420),
        Call.update (releaseFrame 12 200)] = true ∧
    ¬ ((run squareWidget
          (List.take 2 [Call.update (pressFrame 2 200),
            Call.update (heldMoveFrame 12 200 410 420),
            Call.update (releaseFrame 12 200)])).isDraggingWindow = true ∧
       (run squareWidget
          (List.take 2 [Call.update (pressFrame 2 200),
            Call.update (heldMoveFrame 12 200 410 420),
            Call.update (releaseFrame 12 200)])).isResizingWindow = true) :=
  ⟨rfl, drag_and_resize_exclusive_when_presses_alternate 0 0 420 420 1 420 420
    [Call.update (pressFrame 2 200), Call.update (heldMoveFrame 12 200 410 420),
      Call.update (releaseFrame 12 200)] 2 rfl⟩

/-- Claim C18, witness: for the equally spaced control points `(0,0), (1,0), (2,0), (3,0)`
the curve point at `t = 1/2` is the midpoint `(3/2, 0)`. -/
theorem evaluateBSpline_equally_spaced_is_linear_witness :
    (0 : ℚ) ≤ 1 / 2 ∧ (1 / 2 : ℚ) ≤ 1 ∧
    evaluateBSpline (1 / 2) 4 [(0, 0), (1, 0), (2, 0), (3, 0)] = (3 / 2, 0) := by
  have h := evaluateBSpline_equally_spaced_is_linear (1 / 2) (by norm_num) (by norm_num)
    (0, 0) (3, 0)
  norm_num at h
  exact ⟨by norm_num, by norm_num, h⟩

/-- Claim C20, witness: the window of 420 by 420 pixels set by `initialize` gets non-negative
radii. -/
theorem updateRadii_nonneg_of_window_at_least_20_witness :
    (20 : ℚ) ≤ (ChordDiagram.new 420 420).windowWidth ∧
    (20 : ℚ) ≤ (ChordDiagram.new 420 420).windowHeight ∧
    0 ≤ (updateRadii (ChordDiagram.new 420 420)).totalRadius ∧
    0 ≤ (updateRadii (ChordDiagram.new 420 420)).chartRadius :=
  have h := updateRadii_nonneg_of_window_at_least_20 (ChordDiagram.new 420 420)
    (by norm_num [ChordDiagram.new]) (by norm_num [ChordDiagram.new])
    (by norm_num [ChordDiagram.new])
  ⟨by norm_num [ChordDiagram.new], by norm_num [ChordDiagram.new], h.1, h.2.1⟩

/-- A move handled by `mouseMoveEvent` in a state with no direction and no drag active
changes neither the geometry nor the gesture fields. -/
theorem mouseMoveEvent_of_no_gesture (s : DiagramBase) (m : SglFrame) (px py : ℤ)
    (hn : s.resizeDirection = NONE) (hd : s.isDraggingWindow = false)
    (hz : s.isResizingWindow = false) :
    (mouseMoveEvent s m px py).windowOffsetX = s.windowOffsetX ∧
    (mouseMoveEvent s m px py).windowOffsetY = s.windowOffsetY ∧
    (mouseMoveEvent s m px py).windowWidth = s.windowWidth ∧
    (mouseMoveEvent s m px py).windowHeight = s.windowHeight ∧
    (mouseMoveEvent s m px py).isDraggingWindow = false ∧
    (mouseMoveEvent s m px py).isResizingWindow = false ∧
    (mouseMoveEvent s m px py).resizeDirection = NONE := by
  cases hr : m.buttonReleased
  · simp [mouseMoveEvent, hr, hn, dragWindowOffset, hd, hz]
  · simp [mouseMoveEvent, hr, dragWindowOffset]

/-- A move handled by `mouseMoveEventParent` in a state with no direction and no drag active
changes neither the geometry nor the gesture fields. -/
theorem mouseMoveEventParent_of_no_gesture (s : DiagramBase) (m : SglFrame) (px py : ℤ)
    (hn : s.resizeDirection = NONE) (hd : s.isDraggingWindow = false)
    (hz : s.isResizingWindow = false) :
    (mouseMoveEventParent s m px py).windowOffsetX = s.windowOffsetX ∧
    (mouseMoveEventParent s m px py).windowOffsetY = s.windowOffsetY ∧
    (mouseMoveEventParent s m px py).windowWidth = s.windowWidth ∧
    (mouseMoveEventParent s m px py).windowHeight = s.windowHeight ∧
    (mouseMoveEventParent s m px py).isDraggingWindow = false ∧
    (mouseMoveEventParent s m px py).isResizingWindow = false ∧
    (mouseMoveEventParent s m px py).resizeDirection = NONE := by
  cases hu : m.isButtonUp
  · simp [mouseMoveEventParent, hu, hn, dragWindowOffset, hd, hz]
  · simp [mouseMoveEventParent, hu, dragWindowOffset]

/-- The move block of `update` in a state with no direction and no drag active changes
neither the geometry nor the gesture fields, and never the grab and fixed flags. -/
theorem mouseMoveDispatch_of_no_gesture (s : DiagramBase) (m : SglFrame) (o : Bool)
    (px py : ℤ) (hn : s.resizeDirection = NONE) (hd : s.isDraggingWindow = false)
    (hz : s.isResizingWindow = false) :
    (mouseMoveDispatch s m o px py).windowOffsetX = s.windowOffsetX ∧
    (mouseMoveDispatch s m o px py).windowOffsetY = s.windowOffsetY ∧
    (mouseMoveDispatch s m o px py).windowWidth = s.windowWidth ∧
    (mouseMoveDispatch s m o px py).windowHeight = s.windowHeight ∧
    (mouseMoveDispatch s m o px py).isDraggingWindow = false ∧
    (mouseMoveDispatch s m o px py).isResizingWindow = false ∧
    (mouseMoveDispatch s m o px py).resizeDirection = NONE ∧
    (mouseMoveDispatch s m o px py).isMouseGrabbed = s.isMouseGrabbed ∧
    (mouseMoveDispatch s m o px py).isWindowFixed = s.isWindowFixed := by
  unfold mouseMoveDispatch
  split_ifs
  · obtain ⟨a1, a2, a3, a4, a5, a6, a7⟩ := mouseMoveEvent_of_no_gesture s m px py hn hd hz
    exact ⟨a1, a2, a3, a4, a5, a6, a7, by simp, by simp⟩
  · obtain ⟨a1, a2, a3, a4, a5, a6, a7⟩ := mouseMoveEventParent_of_no_gesture s m px py hn hd hz
    exact ⟨a1, a2, a3, a4, a5, a6, a7, by simp, by simp⟩
  · exact ⟨rfl, rfl, rfl, rfl, hd, hz, hn, rfl, rfl⟩

/-- The release block of `update` never changes the geometry or the fixed flag. -/
theorem mouseReleaseEvent_geometry (s : DiagramBase) (m : SglFrame) (px py : ℤ) :
    (mouseReleaseEvent s m px py).windowOffsetX = s.windowOffsetX ∧
    (mouseReleaseEvent s m px py).windowOffsetY = s.windowOffsetY ∧
    (mouseReleaseEvent s m px py).windowWidth = s.windowWidth ∧
    (mouseReleaseEvent s m px py).windowHeight = s.windowHeight ∧
    (mouseReleaseEvent s m px py).isWindowFixed = s.isWindowFixed := by
  unfold mouseReleaseEvent
  split_ifs <;> simp

/-- One update of a fixed, idle widget: geometry unchanged, still fixed and idle. -/
theorem update_of_fixed_idle (s : DiagramBase) (m : SglFrame)
    (hf : s.isWindowFixed = true) (hd : s.isDraggingWindow = false)
    (hz : s.isResizingWindow = false) (hn : s.resizeDirection = NONE)
    (hg : s.isMouseGrabbed = false) :
    (update s m).windowOffsetX = s.windowOffsetX ∧
    (update s m).windowOffsetY = s.windowOffsetY ∧
    (update s m).windowWidth = s.windowWidth ∧
    (update s m).windowHeight = s.windowHeight ∧
    (update s m).isWindowFixed = true ∧
    (update s m).isDraggingWindow = false ∧
    (update s m).isResizingWindow = false ∧
    (update s m).resizeDirection = NONE ∧
    (update s m).isMouseGrabbed = false := by
  have hpress : ∀ (o : Bool) (px py : ℤ),
      mousePressEvent { s with windowMoveOrResizeJustFinished := false } m o px py =
        { s with windowMoveOrResizeJustFinished := false } := by
    intro o px py
    simp [mousePressEvent, hf]
  simp only [update, hpress]
  generalize (mousePositionPx s m).1 = px
  generalize (mousePositionPx s m).2 = py
  generalize (m.isMouseOverDiagram && !s.isMouseGrabbedByParent) = o
  generalize hs0 : ({ s with windowMoveOrResizeJustFinished := false } : DiagramBase) = s0
  have k1 : s0.resizeDirection = NONE := by rw [← hs0]; exact hn
  have k2 : s0.isDraggingWindow = false := by rw [← hs0]; exact hd
  have k3 : s0.isResizingWindow = false := by rw [← hs0]; exact hz
  obtain ⟨a1, a2, a3, a4, a5, a6, a7, a8, a9⟩ :=
    mouseMoveDispatch_of_no_gesture s0 m o px py k1 k2 k3
  have e1 : s0.windowOffsetX = s.windowOffsetX := by rw [← hs0]
  have e2 : s0.windowOffsetY = s.windowOffsetY := by rw [← hs0]
  have e3 : s0.windowWidth = s.windowWidth := by rw [← hs0]
  have e4 : s0.windowHeight = s.windowHeight := by rw [← hs0]
  have e5 : s0.isMouseGrabbed = false := by rw [← hs0]; exact hg
  have e6 : s0.isWindowFixed = true := by rw [← hs0]; exact hf
  rw [e1] at a1; rw [e2] at a2; rw [e3] at a3; rw [e4] at a4; rw [e5] at a8; rw [e6] at a9
  generalize mouseMoveDispatch s0 m o px py = s2 at a1 a2 a3 a4 a5 a6 a7 a8 a9 ⊢
  obtain ⟨b1, b2, b3, b4, b5⟩ := mouseReleaseEvent_geometry s2 m px py
  refine ⟨b1.trans a1, b2.trans a2, b3.trans a3, b4.trans a4, b5.trans a9, ?_, ?_, ?_, ?_⟩ <;>
    · unfold mouseReleaseEvent
      split_ifs <;> simp [a5, a6, a7, a8]

/-- Claim C25. When `isWindowFixed` is true, resize and grabbing are disabled: from an idle
state (not dragging, not resizing, direction `NONE`, mouse not grabbed), after every sequence
of `update` calls the window offsets and the window size have their initial values and
`isDraggingWindow`, `isResizingWindow` and `isMouseGrabbed` are false. -/
theorem fixed_window_ignores_press_move_release (s : DiagramBase) (frames : List SglFrame)
    (hf : s.isWindowFixed = true) (hd : s.isDraggingWindow = false)
    (hz : s.isResizingWindow = false) (hn : s.resizeDirection = NONE)
    (hg : s.isMouseGrabbed = false) :
    (runUpdates s frames).windowOffsetX = s.windowOffsetX ∧
    (runUpdates s frames).windowOffsetY = s.windowOffsetY ∧
    (runUpdates s frames).windowWidth = s.windowWidth ∧
    (runUpdates s frames).windowHeight = s.windowHeight ∧
    (runUpdates s frames).isDraggingWindow = false ∧
    (runUpdates s frames).isResizingWindow = false ∧
    (runUpdates s frames).isMouseGrabbed = false := by
  induction frames generalizing s with
  | nil => exact ⟨rfl, rfl, rfl, rfl, hd, hz, hg⟩
  | cons m ms ih =>
    obtain ⟨a1, a2, a3, a4, a5, a6, a7, a8, a9⟩ := update_of_fixed_idle s m hf hd hz hn hg
    obtain ⟨b1, b2, b3, b4, b5, b6, b7⟩ := ih (update s m) a5 a6 a7 a8 a9
    exact ⟨b1.trans a1, b2.trans a2, b3.trans a3, b4.trans a4, b5, b6, b7⟩

/-- Claim C25, witness: the fixed square widget after a press in the left margin, a move of
300 pixels with the button held and the release is where it was, 420 pixels wide. -/
theorem fixed_window_ignores_press_move_release_witness :
    ({ squareWidget with isWindowFixed := true } : DiagramBase).isWindowFixed = true ∧
    (runUpdates { squareWidget with isWindowFixed := true }
      [pressFrame 2 200, heldMoveFrame 302 200 420 420, releaseFrame 302 200]).windowOffsetX =
      ({ squareWidget with isWindowFixed := true } : DiagramBase).windowOffsetX ∧
    (runUpdates { squareWidget with isWindowFixed := true }
      [pressFrame 2 200, heldMoveFrame 302 200 420 420, releaseFrame 302 200]).windowWidth =
      ({ squareWidget with isWindowFixed := true } : DiagramBase).windowWidth :=
  ⟨rfl, (fixed_window_ignores_press_move_release { squareWidget with isWindowFixed := true }
    [pressFrame 2 200, heldMoveFrame 302 200 420 420, releaseFrame 302 200]
    rfl rfl rfl rfl rfl).1,
   (fixed_window_ignores_press_move_release { squareWidget with isWindowFixed := true }
    [pressFrame 2 200, heldMoveFrame 302 200 420 420, releaseFrame 302 200]
    rfl rfl rfl rfl rfl).2.2.1⟩

/-- The press block of `update` never changes the geometry and never releases the grab. -/
theorem mousePressEvent_geometry (s : DiagramBase) (m : SglFrame) (o : Bool) (px py : ℤ) :
    (mousePressEvent s m o px py).windowOffsetX = s.windowOffsetX ∧
    (mousePressEvent s m o px py).windowOffsetY = s.windowOffsetY ∧
    (mousePressEvent s m o px py).windowWidth = s.windowWidth ∧
    (mousePressEvent s m o px py).windowHeight = s.windowHeight ∧
    (s.isMouseGrabbed = true → (mousePressEvent s m o px py).isMouseGrabbed = true) := by
  unfold mousePressEvent
  split_ifs <;> simp

/-- A move handled by `mouseMoveEvent` in the update that reports the release is not applied
to the geometry. -/
theorem mouseMoveEvent_geometry_of_released (s : DiagramBase) (m : SglFrame) (px py : ℤ)
    (hr : m.buttonReleased = true) :
    (mouseMoveEvent s m px py).windowOffsetX = s.windowOffsetX ∧
    (mouseMoveEvent s m px py).windowOffsetY = s.windowOffsetY ∧
    (mouseMoveEvent s m px py).windowWidth = s.windowWidth ∧
    (mouseMoveEvent s m px py).windowHeight = s.windowHeight := by
  simp [mouseMoveEvent, hr, dragWindowOffset]

/-- An update that reports a move and the release, in a state that holds the grab, leaves
the geometry as it was. -/
theorem update_geometry_of_release_grabbed (s : DiagramBase) (m : SglFrame)
    (hg : s.isMouseGrabbed = true) (hm : m.mouseMoved = true)
    (hr : m.buttonReleased = true) :
    (update s m).windowOffsetX = s.windowOffsetX ∧
    (update s m).windowOffsetY = s.windowOffsetY ∧
    (update s m).windowWidth = s.windowWidth ∧
    (update s m).windowHeight = s.windowHeight := by
  simp only [update]
  generalize (mousePositionPx s m).1 = px
  generalize (mousePositionPx s m).2 = py
  generalize (m.isMouseOverDiagram && !s.isMouseGrabbedByParent) = o
  obtain ⟨a1, a2, a3, a4, a5⟩ := mousePressEvent_geometry
    { s with windowMoveOrResizeJustFinished := false } m o px py
  have a6 := a5 hg
  generalize mousePressEvent { s with windowMoveOrResizeJustFinished := false } m o px py = s1
    at a1 a2 a3 a4 a6 ⊢
  have hdis : mouseMoveDispatch s1 m o px py = mouseMoveEvent s1 m px py := by
    simp [mouseMoveDispatch, hm, a6]
  rw [hdis]
  obtain ⟨b1, b2, b3, b4⟩ := mouseMoveEvent_geometry_of_released s1 m px py hr
  obtain ⟨c1, c2, c3, c4, -⟩ := mouseReleaseEvent_geometry (mouseMoveEvent s1 m px py) m px py
  exact ⟨c1.trans (b1.trans a1), c2.trans (b2.trans a2), c3.trans (b3.trans a3),
    c4.trans (b4.trans a4)⟩

/-- The just-finished flag after an update that reports a release and no press, as a
Boolean value. -/
theorem update_flag_of_release_no_press (s : DiagramBase) (m : SglFrame)
    (hr : m.buttonReleased = true) (hp : m.buttonPressed = false) :
    (update s m).windowMoveOrResizeJustFinished =
      (s.isResizingWindow ||
        (s.isDraggingWindow &&
          (decide ((mousePositionPx s m).1 ≠ s.mouseDragStartPosX) ||
           decide ((mousePositionPx s m).2 ≠ s.mouseDragStartPosY)))) := by
  rw [update_of_release_no_press s m hr hp]
  generalize (mousePositionPx s m).1 = px
  generalize (mousePositionPx s m).2 = py
  generalize hs0 : ({ s with windowMoveOrResizeJustFinished := false } : DiagramBase) = s0
  have h1 : s0.isResizingWindow = s.isResizingWindow := by rw [← hs0]
  have h2 : s0.isDraggingWindow = s.isDraggingWindow := by rw [← hs0]
  have h3 : s0.mouseDragStartPosX = s.mouseDragStartPosX := by rw [← hs0]
  have h4 : s0.mouseDragStartPosY = s.mouseDragStartPosY := by rw [← hs0]
  have h5 : s0.windowMoveOrResizeJustFinished = false := by rw [← hs0]
  have e1 := mouseMoveEvent_of_released s0 m px py hr
  have e2 := mouseMoveEventParent_of_buttonUp s0 m px py
  have e3 := mouseMoveEventParent_gesture s0 m px py
  split_ifs with hm ho
  · simp [e1, h1, h2, h3, h4, h5]
  · cases hu : m.isButtonUp
    · simp [e3 hu, h1, h2, h3, h4, h5]
    · simp [e2 hu, h1, h2, h3, h4, h5]
  · simp [h1, h2, h3, h4, h5]

/-- Claim C26. State invariant of the interaction machine: after every host call of every
run from the initial state (also runs with repeated presses), `resizeDirection != NONE`
implies `isResizingWindow`, and `isDraggingWindow` or `isResizingWindow` implies
`isMouseGrabbed`. -/
theorem direction_implies_resizing_and_gesture_implies_grab (offsetX offsetY width height scale : ℚ) (fboWidth fboHeight : ℤ)
    (calls : List Call) :
    ((run (initialState offsetX offsetY width height scale fboWidth fboHeight)
        calls).resizeDirection ≠ NONE →
      (run (initialState offsetX offsetY width height scale fboWidth fboHeight)
        calls).isResizingWindow = true) ∧
    ((run (initialState offsetX offsetY width height scale fboWidth fboHeight)
        calls).isDraggingWindow = true ∨
      (run (initialState offsetX offsetY width height scale fboWidth fboHeight)
        calls).isResizingWindow = true →
      (run (initialState offsetX offsetY width height scale fboWidth fboHeight)
        calls).isMouseGrabbed = true) :=
  run_inv calls _ (initialState_inv offsetX offsetY width height scale fboWidth fboHeight)

/-- Claim C27. A mouse move reported in the same update as the primary-button release is not
applied to the geometry: in every dragging or resizing state reached from the initial state,
an update that reports a move and the release leaves the window offsets and the window size
as they were; when it reports no press, the just-finished flag is true afterwards exactly
when the widget was resizing, or was dragging and the pointer position of this update
differs from the drag start. -/
theorem move_with_release_not_applied_to_geometry (offsetX offsetY width height scale : ℚ) (fboWidth fboHeight : ℤ)
    (calls : List Call) (m : SglFrame)
    (hg : (run (initialState offsetX offsetY width height scale fboWidth fboHeight)
        calls).isDraggingWindow = true ∨
      (run (initialState offsetX offsetY width height scale fboWidth fboHeight)
        calls).isResizingWindow = true)
    (hm : m.mouseMoved = true) (hr : m.buttonReleased = true) :
    (update (run (initialState offsetX offsetY width height scale fboWidth fboHeight) calls)
        m).windowOffsetX =
      (run (initialState offsetX offsetY width height scale fboWidth fboHeight)
        calls).windowOffsetX ∧
    (update (run (initialState offsetX offsetY width height scale fboWidth fboHeight) calls)
        m).windowOffsetY =
      (run (initialState offsetX offsetY width height scale fboWidth fboHeight)
        calls).windowOffsetY ∧
    (update (run (initialState offsetX offsetY width height scale fboWidth fboHeight) calls)
        m).windowWidth =
      (run (initialState offsetX offsetY width height scale fboWidth fboHeight)
        calls).windowWidth ∧
    (update (run (initialState offsetX offsetY width height scale fboWidth fboHeight) calls)
        m).windowHeight =
      (run (initialState offsetX offsetY width height scale fboWidth fboHeight)
        calls).windowHeight ∧
    (m.buttonPressed = false →
      ((update (run (initialState offsetX offsetY width height scale fboWidth fboHeight) calls)
          m).windowMoveOrResizeJustFinished = true ↔
        ((run (initialState offsetX offsetY width height scale fboWidth fboHeight)
            calls).isResizingWindow = true ∨
          ((run (initialState offsetX offsetY width height scale fboWidth fboHeight)
              calls).isDraggingWindow = true ∧
            ((mousePositionPx
                (run (initialState offsetX offsetY width height scale fboWidth fboHeight)
                  calls) m).1 ≠
              (run (initialState offsetX offsetY width height scale fboWidth fboHeight)
                calls).mouseDragStartPosX ∨
             (mousePositionPx
                (run (initialState offsetX offsetY width height scale fboWidth fboHeight)
                  calls) m).2 ≠
              (run (initialState offsetX offsetY width height scale fboWidth fboHeight)
                calls).mouseDragStartPosY))))) := by
  have hinv := run_inv calls _
    (initialState_inv offsetX offsetY width height scale fboWidth fboHeight)
  generalize run (initialState offsetX offsetY width height scale fboWidth fboHeight) calls = s
    at hg hinv ⊢
  obtain ⟨a1, a2, a3, a4⟩ := update_geometry_of_release_grabbed s m (hinv.2 hg) hm hr
  refine ⟨a1, a2, a3, a4, fun hp => ?_⟩
  rw [update_flag_of_release_no_press s m hr hp]
  simp

/-- Claim C28. The two copies of the margin hit test agree: the direction
`resizeDirectionCurr` that `mouseMoveEvent` computes for the hover cursor is the
`resizeDirection` that `mousePressEventResizeWindow` stores for a press at the same position
in the same geometry; so the cursor that a hovering move stores is the glyph of the direction
of such a press, and when it is a resize glyph the press starts a resize in that direction. -/
theorem hover_direction_equals_press_direction (s : DiagramBase) (m n : SglFrame) (px py : ℤ)
    (hp : n.buttonPressed = true) :
    resizeDirectionCurr s px py = (mousePressEventResizeWindow s n px py).resizeDirection ∧
    (s.resizeDirection = NONE ∨ m.buttonReleased = true →
      (mouseMoveEvent s m px py).cursorShape =
        newCursorShape (mousePressEventResizeWindow s n px py).resizeDirection) ∧
    (newCursorShape (resizeDirectionCurr s px py) ≠ CursorType.DEFAULT →
      (mousePressEventResizeWindow s n px py).isResizingWindow = true ∧
      (mousePressEventResizeWindow s n px py).resizeDirection ≠ NONE) := by
  have heq : resizeDirectionCurr s px py =
      (mousePressEventResizeWindow s n px py).resizeDirection := by
    rw [resizeDirectionCurr_eq, mousePressEventResizeWindow_direction s n px py hp]
  refine ⟨heq, fun h => ?_, fun hc => ?_⟩
  · rw [mouseMoveEvent_cursorShape_of_hover s m px py h, heq]
  · have hne : (mousePressEventResizeWindow s n px py).resizeDirection ≠ NONE := by
      intro h0
      rw [heq, h0] at hc
      exact hc (by decide)
    refine ⟨?_, hne⟩
    rw [mousePressEventResizeWindow_isResizingWindow s n px py hp]
    simp [hne]

/-- Claim C27, witness: the square widget resizing after a press at `(2, 200)`; an update
that reports a move to `(250, 200)` together with the release leaves the width as it was. -/
theorem move_with_release_not_applied_to_geometry_witness :
    ((run (initialState 0 0 420 420 1 420 420)
        [Call.update (pressFrame 2 200)]).isDraggingWindow = true ∨
      (run (initialState 0 0 420 420 1 420 420)
        [Call.update (pressFrame 2 200)]).isResizingWindow = true) ∧
    ({ releaseFrame 250 200 with mouseMoved := true } : SglFrame).mouseMoved = true ∧
    ({ releaseFrame 250 200 with mouseMoved := true } : SglFrame).buttonReleased = true ∧
    (update (run (initialState 0 0 420 420 1 420 420) [Call.update (pressFrame 2 200)])
        { releaseFrame 250 200 with mouseMoved := true }).windowWidth =
      (run (initialState 0 0 420 420 1 420 420)
        [Call.update (pressFrame 2 200)]).windowWidth :=
  ⟨Or.inr squareWidget_press_state.2.1, rfl, rfl,
    (move_with_release_not_applied_to_geometry 0 0 420 420 1 420 420
      [Call.update (pressFrame 2 200)] { releaseFrame 250 200 with mouseMoved := true }
      (Or.inr squareWidget_press_state.2.1) rfl rfl).2.2.1⟩

/-- Claim C28, witness: at `(2, 200)` on the square widget the hover direction is the
direction that a press there stores. -/
theorem hover_direction_equals_press_direction_witness :
    (pressFrame 2 200).buttonPressed = true ∧
    resizeDirectionCurr squareWidget 2 200 =
      (mousePressEventResizeWindow squareWidget (pressFrame 2 200) 2 200).resizeDirection :=
  ⟨rfl, (hover_direction_equals_press_direction squareWidget (heldMoveFrame 2 200 420 420)
    (pressFrame 2 200) 2 200 rfl).1⟩

/-- Claim C22, the code at the failing input. The numeral `100` has no decimal point; the
loop strips its two zeros all the same and returns `1`, a prefix that denotes another number;
`1.200` gives `1.2` and `3.000` gives `3`. -/
theorem removeTrailingZeros_strips_zeros_of_integer :
    removeTrailingZeros "100".toList = "1".toList ∧
    removeTrailingZeros "100".toList ≠ "100".toList ∧
    removeTrailingZeros "1.200".toList = "1.2".toList ∧
    removeTrailingZeros "3.000".toList = "3".toList := by
  have h1 : removeTrailingZeros "100".toList = ['1'] := by decide
  exact ⟨h1, by rw [h1]; decide, by decide, by decide⟩

/-- A loop whose body does not throw on states satisfying the invariant of its index, and
establishes the invariant of the next index, ends in a state satisfying the invariant of the
final index. -/
theorem forLoop_invariant_indexed {σ : Type} (body : ℕ → σ → Option σ) (inv : ℕ → σ → Prop)
    (n : ℕ) :
    ∀ (start : ℕ) (s : σ), inv start s →
      (∀ i t, start ≤ i → i < start + n → inv i t → ∃ t1, body i t = some t1 ∧ inv (i + 1) t1) →
      ∃ s1, forLoop body start n s = some s1 ∧ inv (start + n) s1 := by
  induction n with
  | zero => exact fun _ s hs _ => ⟨s, rfl, hs⟩
  | succ n ih =>
    intro start s hs hbody
    obtain ⟨t1, ht1, hinv⟩ := hbody start s le_rfl (by omega) hs
    obtain ⟨s1, hs1, hinv1⟩ := ih (start + 1) t1 hinv
      (fun i t hi hlt ht => hbody i t (by omega) (by omega) ht)
    refine ⟨s1, by simp only [forLoop, ht1, hs1], ?_⟩
    have e : start + (n + 1) = start + 1 + n := by omega
    rw [e]
    exact hinv1

/-- A write at a natural-number index within bounds is `List.set`. -/
theorem vectorSet_natCast {α : Type} (v : List α) (i : ℕ) (x : α) (h : i < v.length) :
    vectorSet v (i : ℤ) x = some (v.set i x) := by
  simp [vectorSet, h]

/-- A read at a natural-number index is the list lookup. -/
theorem vectorAt_natCast {α : Type} (v : List α) (i : ℕ) : vectorAt v (i : ℤ) = v[i]? := by
  simp [vectorAt]

/-- The node loop of `initialize` stores the position of node `k` at index `k`. -/
theorem initNode_loop (math : FloatMath) (numPoints : ℕ) (v0 : List (ℚ × ℚ))
    (h0 : v0.length = numPoints) :
    ∃ v, forLoop (initNode math numPoints) 0 numPoints v0 = some v ∧ v.length = numPoints ∧
      ∀ k, k < numPoints → v[k]? = some (nodePosition math numPoints k) := by
  obtain ⟨v, hv, hl, hk⟩ := forLoop_invariant_indexed (initNode math numPoints)
    (fun i v => v.length = numPoints ∧ ∀ k, k < i → v[k]? = some (nodePosition math numPoints k))
    numPoints 0 v0 ⟨h0, fun k hk => absurd hk (Nat.not_lt_zero k)⟩
    (fun i t _ hi ht => by
      have hlt : i < t.length := by rw [ht.1]; omega
      refine ⟨_, vectorSet_natCast t i _ hlt, by simp [ht.1], fun k hk => ?_⟩
      rcases Nat.lt_succ_iff_lt_or_eq.mp hk with h | h
      · rw [List.getElem?_set_ne (by omega)]
        exact ht.2 k h
      · rw [h, List.getElem?_set_self hlt]
        rfl)
  rw [Nat.zero_add] at hk
  exact ⟨v, hv, hl, hk⟩

/-- The body of the sample loop of `initialize` as a list update. -/
theorem initCurvePoint_eq (p0 p1 p2 p3 : ℚ × ℚ) (lineIdx ptIdx : ℕ)
    (buf : List (ℚ × ℚ)) (h : lineIdx * NUM_SUBDIVISIONS + ptIdx < buf.length) :
    initCurvePoint [p0, p1, p2, p3] lineIdx ptIdx buf =
      some (buf.set (lineIdx * NUM_SUBDIVISIONS + ptIdx)
        (evaluateBSpline ((ptIdx : ℚ) / ((NUM_SUBDIVISIONS - 1 : ℕ) : ℚ)) 4 [p0, p1, p2, p3])) := by
  have e : (lineIdx : ℤ) * (NUM_SUBDIVISIONS : ℤ) + (ptIdx : ℤ) =
      ((lineIdx * NUM_SUBDIVISIONS + ptIdx : ℕ) : ℤ) := by push_cast; ring
  simp only [initCurvePoint, e]
  rw [vectorSet_natCast _ _ _ h]
  rfl

/-- The sample loop of `initialize` for one line fills the run of that line and leaves the
samples before it as they are. -/
theorem initCurve_run (math : FloatMath) (numPoints : ℕ) (nodes : List (ℚ × ℚ))
    (lineIdx numLines : ℕ) (c0 : List (ℚ × ℚ))
    (hnodes : ∀ k, k < numPoints → nodes[k]? = some (nodePosition math numPoints k))
    (hl : lineIdx < numPoints * numPoints)
    (hlen : c0.length = numLines * NUM_SUBDIVISIONS) (hlines : lineIdx < numLines) :
    ∃ buf, initCurve numPoints nodes lineIdx c0 = some buf ∧
      buf.length = numLines * NUM_SUBDIVISIONS ∧
      (∀ idx, idx < lineIdx * NUM_SUBDIVISIONS → buf[idx]? = c0[idx]?) ∧
      ∀ q, q < NUM_SUBDIVISIONS → buf[lineIdx * NUM_SUBDIVISIONS + q]? =
        some (curveSample math numPoints (lineIdx / numPoints) (lineIdx % numPoints) q) := by
  have hpos : 0 < numPoints := by
    rcases Nat.eq_zero_or_pos numPoints with h | h
    · rw [h] at hl; simp at hl
    · exact h
  have hi : lineIdx / numPoints < numPoints := Nat.div_lt_of_lt_mul hl
  have hj : lineIdx % numPoints < numPoints := Nat.mod_lt _ hpos
  have hb : ∀ q, q < NUM_SUBDIVISIONS →
      lineIdx * NUM_SUBDIVISIONS + q < numLines * NUM_SUBDIVISIONS := by
    intro q hq
    have : (lineIdx + 1) * NUM_SUBDIVISIONS ≤ numLines * NUM_SUBDIVISIONS :=
      Nat.mul_le_mul_right _ hlines
    rw [Nat.add_mul, Nat.one_mul] at this
    omega
  simp only [initCurve, vectorAt_natCast, hnodes _ hi, hnodes _ hj]
  obtain ⟨c, hc, h1, h2, h3⟩ := forLoop_invariant_indexed
    (initCurvePoint [nodePosition math numPoints (lineIdx / numPoints), (-1 / 10, 1 / 10),
      (1 / 10, -1 / 10), nodePosition math numPoints (lineIdx % numPoints)] lineIdx)
    (fun p buf => buf.length = numLines * NUM_SUBDIVISIONS ∧
      (∀ idx, idx < lineIdx * NUM_SUBDIVISIONS → buf[idx]? = c0[idx]?) ∧
      ∀ q, q < p → buf[lineIdx * NUM_SUBDIVISIONS + q]? =
        some (curveSample math numPoints (lineIdx / numPoints) (lineIdx % numPoints) q))
    NUM_SUBDIVISIONS 0 c0 ⟨hlen, fun _ _ => rfl, fun q hq => absurd hq (Nat.not_lt_zero q)⟩
    (fun p t _ hp ht => by
      have hlt : lineIdx * NUM_SUBDIVISIONS + p < t.length := by
        rw [ht.1]; exact hb p (by omega)
      refine ⟨_, initCurvePoint_eq _ _ _ _ lineIdx p t hlt, by simp [ht.1],
        fun idx hidx => ?_, fun q hq => ?_⟩
      · rw [List.getElem?_set_ne (by omega)]
        exact ht.2.1 idx hidx
      · rcases Nat.lt_succ_iff_lt_or_eq.mp hq with h | h
        · rw [List.getElem?_set_ne (by omega)]
          exact ht.2.2 q h
        · rw [h, List.getElem?_set_self hlt]
          rfl)
  rw [Nat.zero_add] at h3
  exact ⟨c, hc, h1, h2, h3⟩

/-- The curve loop of `initialize` fills the run of every line. -/
theorem initCurve_loop (math : FloatMath) (numPoints : ℕ) (nodes : List (ℚ × ℚ))
    (c0 : List (ℚ × ℚ))
    (hnodes : ∀ k, k < numPoints → nodes[k]? = some (nodePosition math numPoints k))
    (hlen : c0.length = numPoints * numPoints * NUM_SUBDIVISIONS) :
    ∃ buf, forLoop (initCurve numPoints nodes) 0 (numPoints * numPoints) c0 = some buf ∧
      buf.length = numPoints * numPoints * NUM_SUBDIVISIONS ∧
      ∀ l q, l < numPoints * numPoints → q < NUM_SUBDIVISIONS →
        buf[l * NUM_SUBDIVISIONS + q]? =
          some (curveSample math numPoints (l / numPoints) (l % numPoints) q) := by
  obtain ⟨c, hc, h1, h2⟩ := forLoop_invariant_indexed (initCurve numPoints nodes)
    (fun l buf => buf.length = numPoints * numPoints * NUM_SUBDIVISIONS ∧
      ∀ l1 q, l1 < l → q < NUM_SUBDIVISIONS → buf[l1 * NUM_SUBDIVISIONS + q]? =
        some (curveSample math numPoints (l1 / numPoints) (l1 % numPoints) q))
    (numPoints * numPoints) 0 c0 ⟨hlen, fun l1 _ h => absurd h (Nat.not_lt_zero l1)⟩
    (fun l t _ hl ht => by
      obtain ⟨c, hc, g1, g2, g3⟩ := initCurve_run math numPoints nodes l
        (numPoints * numPoints) t hnodes (by omega) ht.1 (by omega)
      refine ⟨c, hc, g1, fun l1 q hl1 hq => ?_⟩
      rcases Nat.lt_succ_iff_lt_or_eq.mp hl1 with h | h
      · have hidx : l1 * NUM_SUBDIVISIONS + q < l * NUM_SUBDIVISIONS := by
          have : (l1 + 1) * NUM_SUBDIVISIONS ≤ l * NUM_SUBDIVISIONS :=
            Nat.mul_le_mul_right _ h
          rw [Nat.add_mul, Nat.one_mul] at this
          omega
        rw [g2 _ hidx]
        exact ht.2 l1 q h hq
      · rw [h]
        exact g3 q hq)
  rw [Nat.zero_add] at h2
  exact ⟨c, hc, h1, h2⟩

/-- The state that `initialize` returns: 25 nodes at their positions and the filled curve
buffer. -/
theorem initDiagram_buffers (math : FloatMath) (d0 : ChordDiagram) :
    ∃ d, initDiagram math d0 = some d ∧
      d.numLinesTotal = 625 ∧
      d.nodesList.length = 25 ∧
      (∀ k, k < 25 → d.nodesList[k]? = some (nodePosition math 25 k)) ∧
      d.curvePoints.length = 25 * 25 * NUM_SUBDIVISIONS ∧
      ∀ l q, l < 25 * 25 → q < NUM_SUBDIVISIONS →
        d.curvePoints[l * NUM_SUBDIVISIONS + q]? =
          some (curveSample math 25 (l / 25) (l % 25) q) := by
  obtain ⟨nodes, hnodes, hnl, hnk⟩ := initNode_loop math 25 (vectorResize d0.nodesList 25 (0, 0))
    (vectorResize_length _ _ _)
  obtain ⟨curve, hcurve, hcl, hck⟩ := initCurve_loop math 25 nodes
    (vectorResize d0.curvePoints (25 * 25 * NUM_SUBDIVISIONS) (0, 0)) hnk
    (vectorResize_length _ _ _)
  have h : ∃ d1, initDiagram math d0 = some d1 ∧ d1.nodesList = nodes ∧
      d1.numLinesTotal = ((25 * 25 : ℕ) : ℤ) ∧ d1.curvePoints = curve := by
    simp only [initDiagram, hnodes, hcurve]
    exact ⟨_, rfl, rfl, rfl, rfl⟩
  obtain ⟨d1, h1, h2, h3, h4⟩ := h
  refine ⟨d1, h1, by rw [h3]; norm_num, by rw [h2]; exact hnl, ?_, by rw [h4]; exact hcl, ?_⟩
  · rw [h2]; exact hnk
  · rw [h4]; exact hck

/-- Claim C23. After `initialize` the curve sample buffer holds exactly one run of
`NUM_SUBDIVISIONS = 50` samples per ordered node pair: `curvePoints` has `25 * 25 * 50`
entries; `lineIdx -> (lineIdx / 25, lineIdx % 25)` maps `[0, 625)` into `[0, 25) x [0, 25)`
and every pair `(i, j)` is the image of exactly one `lineIdx`, namely `25 i + j`; the entry
at index `(25 i + j) * 50 + p` is sample `p` of the curve between the nodes `i` and `j`; and
every index of the buffer lies in the run of exactly one pair. -/
theorem initDiagram_one_run_per_node_pair (math : FloatMath) (d0 : ChordDiagram) :
    ∃ d, initDiagram math d0 = some d ∧
      d.curvePoints.length = 25 * 25 * 50 ∧
      (∀ lineIdx : ℕ, lineIdx < 625 → lineIdx / 25 < 25 ∧ lineIdx % 25 < 25) ∧
      (∀ i j : ℕ, i < 25 → j < 25 →
        25 * i + j < 625 ∧ (25 * i + j) / 25 = i ∧ (25 * i + j) % 25 = j ∧
        ∀ lineIdx : ℕ, lineIdx / 25 = i → lineIdx % 25 = j → lineIdx = 25 * i + j) ∧
      (∀ i j p : ℕ, i < 25 → j < 25 → p < 50 →
        (25 * i + j) * 50 + p < d.curvePoints.length ∧
        d.curvePoints[(25 * i + j) * 50 + p]? = some (curveSample math 25 i j p)) ∧
      (∀ idx : ℕ, idx < d.curvePoints.length →
        ∃ i j p : ℕ, i < 25 ∧ j < 25 ∧ p < 50 ∧ idx = (25 * i + j) * 50 + p ∧
          ∀ i1 j1 p1 : ℕ, i1 < 25 → j1 < 25 → p1 < 50 → idx = (25 * i1 + j1) * 50 + p1 →
            i1 = i ∧ j1 = j ∧ p1 = p) := by
  obtain ⟨d, hd, -, -, -, hlen, hk⟩ := initDiagram_buffers math d0
  simp only [NUM_SUBDIVISIONS] at hlen hk
  refine ⟨d, hd, hlen, fun l hl => by omega,
    fun i j hi hj => ⟨by omega, by omega, by omega, fun l h1 h2 => by omega⟩,
    fun i j p hi hj hp => ⟨by rw [hlen]; omega, ?_⟩, fun idx hidx => ?_⟩
  · have h := hk (25 * i + j) p (by omega) hp
    have e1 : (25 * i + j) / 25 = i := by omega
    have e2 : (25 * i + j) % 25 = j := by omega
    rw [e1, e2] at h
    exact h
  · rw [hlen] at hidx
    refine ⟨idx / 50 / 25, idx / 50 % 25, idx % 50, by omega, by omega, by omega, by omega,
      fun i1 j1 p1 h1 h2 h3 h4 => by omega⟩

/-- The `nvgLineTo` loop appends one call per sample. -/
theorem curveLineTo_loop_eq (d : ChordDiagram) (lineIdx : ℤ) (n : ℕ) :
    ∀ (start : ℕ) (cmds : List NvgCmd),
      (∀ p, start ≤ p → p < start + n →
        ∃ v, curveVertex d (lineIdx * (NUM_SUBDIVISIONS : ℤ) + (p : ℤ)) = some v) →
      forLoop (curveLineTo d lineIdx) start n cmds =
        some (cmds ++ (List.range n).map (fun p =>
          NvgCmd.nvgLineTo (curveVertexD d lineIdx (start + p)).1
            (curveVertexD d lineIdx (start + p)).2)) := by
  induction n with
  | zero => intro start cmds _; simp [forLoop]
  | succ n ih =>
    intro start cmds h
    obtain ⟨v, hv⟩ := h start le_rfl (by omega)
    have hb : curveLineTo d lineIdx start cmds =
        some (cmds ++ [NvgCmd.nvgLineTo (curveVertexD d lineIdx start).1
          (curveVertexD d lineIdx start).2]) := by
      simp only [curveLineTo, curveVertexD, hv, Option.getD_some]
    simp only [forLoop, hb]
    rw [ih (start + 1) _ (fun p hp1 hp2 => h p (by omega) (by omega)),
      List.range_succ_eq_map, List.map_cons, List.map_map, List.append_assoc]
    congr 2
    simp only [List.singleton_append, Nat.add_zero, List.cons.injEq, true_and]
    apply List.map_congr_left
    intro p _
    simp only [Function.comp, Nat.succ_eq_add_one]
    have e : start + 1 + p = start + (p + 1) := by omega
    rw [e]

/-- Calls of `nvgLineTo` extend the current path and stroke nothing. -/
theorem foldl_strokeStep_lineTo (f : ℕ → ℚ × ℚ) (l : List ℕ) :
    ∀ (w : ℚ) (path : List NvgCmd) (log : List (ℚ × List NvgCmd)),
      (l.map (fun p => NvgCmd.nvgLineTo (f p).1 (f p).2)).foldl strokeStep (w, path, log) =
        (w, path ++ l.map (fun p => NvgCmd.nvgLineTo (f p).1 (f p).2), log) := by
  induction l with
  | nil => intro w path log; simp
  | cons a l ih =>
    intro w path log
    simp only [List.map_cons, List.foldl_cons, strokeStep]
    rw [ih]
    simp

/-- Drawing one polyline from an empty path and stroking it adds one stroke. -/
theorem foldl_strokeStep_polyline (d : ChordDiagram) (lineIdx : ℤ) (color : NVGcolor)
    (w : ℚ) (path : List NvgCmd) (log : List (ℚ × List NvgCmd)) :
    (NvgCmd.nvgBeginPath :: (curvePolyline d lineIdx ++
        [NvgCmd.nvgStrokeColor color, NvgCmd.nvgStroke])).foldl strokeStep (w, path, log) =
      (w, curvePolyline d lineIdx, log ++ [(w, curvePolyline d lineIdx)]) := by
  simp only [curvePolyline, List.foldl_cons, List.cons_append, List.foldl_append, strokeStep,
    List.nil_append, foldl_strokeStep_lineTo (fun p => curveVertexD d lineIdx (1 + p)),
    List.foldl_nil, List.singleton_append]

/-- Setting the stroke width, drawing one polyline from an empty path and stroking it adds
one stroke of that width. -/
theorem foldl_strokeStep_width_polyline (d : ChordDiagram) (lineIdx : ℤ) (color : NVGcolor)
    (w w1 : ℚ) (path : List NvgCmd) (log : List (ℚ × List NvgCmd)) :
    (NvgCmd.nvgStrokeWidth w1 :: NvgCmd.nvgBeginPath :: (curvePolyline d lineIdx ++
        [NvgCmd.nvgStrokeColor color, NvgCmd.nvgStroke])).foldl strokeStep (w, path, log) =
      (w1, curvePolyline d lineIdx, log ++ [(w1, curvePolyline d lineIdx)]) := by
  rw [List.foldl_cons]
  exact foldl_strokeStep_polyline d lineIdx color w1 path log

/-- Every sample of a line within the line count is read without an exception. -/
theorem curveVertex_line_ok (d : ChordDiagram) (lineIdx : ℤ)
    (hlen : (d.curvePoints.length : ℤ) = d.numLinesTotal * (NUM_SUBDIVISIONS : ℤ))
    (h0 : 0 ≤ lineIdx) (h1 : lineIdx < d.numLinesTotal) (p : ℕ) (hp : p < NUM_SUBDIVISIONS) :
    ∃ v, curveVertex d (lineIdx * (NUM_SUBDIVISIONS : ℤ) + (p : ℤ)) = some v := by
  have hp2 : (p : ℤ) < 50 := by simp only [NUM_SUBDIVISIONS] at hp; omega
  exact curveVertex_ok d _ (by simp only [NUM_SUBDIVISIONS]; push_cast; omega)
    (by rw [hlen]; simp only [NUM_SUBDIVISIONS]; push_cast; omega)

/-- The `nvgMoveTo` and the `nvgLineTo` loop of a line within the line count append the
polyline of that line. -/
theorem curvePolyline_loop_eq (d : ChordDiagram) (lineIdx : ℤ) (cmds : List NvgCmd)
    (hlen : (d.curvePoints.length : ℤ) = d.numLinesTotal * (NUM_SUBDIVISIONS : ℤ))
    (h0 : 0 ≤ lineIdx) (h1 : lineIdx < d.numLinesTotal) :
    curveVertex d (lineIdx * (NUM_SUBDIVISIONS : ℤ) + 0) = some (curveVertexD d lineIdx 0) ∧
    forLoop (curveLineTo d lineIdx) 1 (NUM_SUBDIVISIONS - 1)
        (cmds ++ [NvgCmd.nvgMoveTo (curveVertexD d lineIdx 0).1 (curveVertexD d lineIdx 0).2]) =
      some (cmds ++ curvePolyline d lineIdx) := by
  constructor
  · obtain ⟨v, hv⟩ := curveVertex_line_ok d lineIdx hlen h0 h1 0 (by decide)
    have e : lineIdx * (NUM_SUBDIVISIONS : ℤ) + ((0 : ℕ) : ℤ) =
        lineIdx * (NUM_SUBDIVISIONS : ℤ) + 0 := by simp
    rw [e] at hv
    simp only [curveVertexD, e, hv, Option.getD_some]
  · rw [curveLineTo_loop_eq d lineIdx (NUM_SUBDIVISIONS - 1) 1 _
      (fun p _ hp => curveVertex_line_ok d lineIdx hlen h0 h1 p
        (by simp only [NUM_SUBDIVISIONS] at hp ⊢; omega))]
    simp only [curvePolyline, List.append_assoc, List.singleton_append]

/-- The body of the curve loop for a line that is not selected appends `nvgBeginPath`, the
polyline of the line, the colour and one `nvgStroke`. -/
theorem renderCurve_eq (d : ChordDiagram) (color : NVGcolor) (lineIdx : ℕ)
    (cmds : List NvgCmd)
    (hlen : (d.curvePoints.length : ℤ) = d.numLinesTotal * (NUM_SUBDIVISIONS : ℤ))
    (h1 : (lineIdx : ℤ) < d.numLinesTotal) (hsel : (lineIdx : ℤ) ≠ d.selectedLineIdx) :
    renderCurve d color lineIdx cmds =
      some (cmds ++ NvgCmd.nvgBeginPath :: (curvePolyline d (lineIdx : ℤ) ++
        [NvgCmd.nvgStrokeColor color, NvgCmd.nvgStroke])) := by
  obtain ⟨e1, e2⟩ := curvePolyline_loop_eq d (lineIdx : ℤ) (cmds ++ [NvgCmd.nvgBeginPath]) hlen
    (Int.natCast_nonneg _) h1
  simp only [renderCurve, if_neg hsel, e1, e2]
  simp

/-- The body of the curve loop for the selected line draws nothing. -/
theorem renderCurve_of_selected (d : ChordDiagram) (color : NVGcolor) (lineIdx : ℕ)
    (cmds : List NvgCmd) (hsel : (lineIdx : ℤ) = d.selectedLineIdx) :
    renderCurve d color lineIdx cmds = some cmds := by
  simp only [renderCurve, if_pos hsel]

/-- The block of the selected curve appends two strokes of the polyline of the selected
line: the outline with three times the curve thickness, then the line itself with twice the
curve thickness. -/
theorem renderSelectedCurve_eq (d : ChordDiagram) (color : NVGcolor) (cmds : List NvgCmd)
    (hlen : (d.curvePoints.length : ℤ) = d.numLinesTotal * (NUM_SUBDIVISIONS : ℤ))
    (h0 : 0 ≤ d.selectedLineIdx) (h1 : d.selectedLineIdx < d.numLinesTotal) :
    ∃ outline : NVGcolor, renderSelectedCurve d color cmds =
      some (cmds ++ (NvgCmd.nvgStrokeWidth (d.curveThickness * 3) ::
        NvgCmd.nvgBeginPath :: (curvePolyline d d.selectedLineIdx ++
          [NvgCmd.nvgStrokeColor outline, NvgCmd.nvgStroke])) ++
        (NvgCmd.nvgStrokeWidth (d.curveThickness * 2) ::
        NvgCmd.nvgBeginPath :: (curvePolyline d d.selectedLineIdx ++
          [NvgCmd.nvgStrokeColor { color with a := 1 }, NvgCmd.nvgStroke]))) := by
  generalize hout : (if d.isDarkMode = true then d.backgroundFillColorDark
    else d.backgroundFillColorBright) = outlineColor
  refine ⟨nvgRGBA outlineColor.r outlineColor.g outlineColor.b outlineColor.a, ?_⟩
  obtain ⟨e1, e2⟩ := curvePolyline_loop_eq d d.selectedLineIdx
    (cmds ++ [NvgCmd.nvgStrokeWidth (d.curveThickness * 3), NvgCmd.nvgBeginPath]) hlen h0 h1
  obtain ⟨-, e3⟩ := curvePolyline_loop_eq d d.selectedLineIdx
    (cmds ++ [NvgCmd.nvgStrokeWidth (d.curveThickness * 3), NvgCmd.nvgBeginPath] ++
      curvePolyline d d.selectedLineIdx ++
      [NvgCmd.nvgStrokeColor (nvgRGBA outlineColor.r outlineColor.g outlineColor.b
        outlineColor.a), NvgCmd.nvgStroke] ++
      [NvgCmd.nvgStrokeWidth (d.curveThickness * 2), NvgCmd.nvgBeginPath]) hlen h0 h1
  simp only [List.append_assoc, List.cons_append, List.nil_append] at e2 e3
  simp only [renderSelectedCurve, if_pos h0, hout, e1, List.append_assoc, List.cons_append,
    List.nil_append, e2, e3]

/-- The stroke state after the strokes of one more line of the curve loop. -/
theorem strokeState_renderCurve_loop (d : ChordDiagram) (color : NVGcolor)
    (hlen : (d.curvePoints.length : ℤ) = d.numLinesTotal * (NUM_SUBDIVISIONS : ℤ)) (n : ℕ)
    (hn : (n : ℤ) ≤ d.numLinesTotal) :
    ∃ cmds, forLoop (renderCurve d color) 0 n [NvgCmd.nvgStrokeWidth d.curveThickness] =
        some cmds ∧
      ∃ path, strokeState cmds = (d.curveThickness, path,
        ((List.range n).filter (fun l : ℕ => decide ((l : ℤ) ≠ d.selectedLineIdx))).map
          (fun l : ℕ => (d.curveThickness, curvePolyline d (l : ℤ)))) := by
  obtain ⟨cmds, h1, h2⟩ := forLoop_invariant_indexed (renderCurve d color)
    (fun l cmds => ∃ path, strokeState cmds = (d.curveThickness, path,
        ((List.range l).filter (fun l : ℕ => decide ((l : ℤ) ≠ d.selectedLineIdx))).map
          (fun l : ℕ => (d.curveThickness, curvePolyline d (l : ℤ)))))
    n 0 [NvgCmd.nvgStrokeWidth d.curveThickness] ⟨[], rfl⟩
    (fun l t _ hl ht => by
      obtain ⟨path, hpath⟩ := ht
      by_cases hsel : (l : ℤ) = d.selectedLineIdx
      · refine ⟨t, renderCurve_of_selected d color l t hsel, path, ?_⟩
        rw [hpath, List.range_succ, List.filter_append]
        simp [hsel]
      · refine ⟨_, renderCurve_eq d color l t hlen (by omega) hsel, curvePolyline d (l : ℤ), ?_⟩
        simp only [strokeState] at hpath ⊢
        rw [List.foldl_append, hpath, foldl_strokeStep_polyline, List.range_succ,
          List.filter_append]
        simp [hsel])
  rw [Nat.zero_add] at h2
  exact ⟨cmds, h1, h2⟩

/-- The stroke state after more calls is the state after the first calls, continued. -/
theorem strokeState_append (cmds extra : List NvgCmd) :
    strokeState (cmds ++ extra) = extra.foldl strokeStep (strokeState cmds) := by
  simp only [strokeState, List.foldl_append]

/-- The body of the first point loop strokes nothing. -/
theorem renderPoint_strokes (d : ChordDiagram) (pointRadius : ℚ) (leafIdx : ℕ)
    (cmds out : List NvgCmd) (h : renderPoint d pointRadius leafIdx cmds = some out) :
    strokes out = strokes cmds := by
  unfold renderPoint at h
  split at h
  · cases h
  · simp only at h
    split_ifs at h
    · cases h; rfl
    · cases h
      simp only [strokes, strokeState_append, List.foldl_cons, List.foldl_nil, strokeStep]

/-- The body of the second point loop strokes nothing. -/
theorem renderSelectedPoint_strokes (d : ChordDiagram) (pointRadius : ℚ) (color : NVGcolor)
    (idx : ℕ) (cmds out : List NvgCmd)
    (h : renderSelectedPoint d pointRadius color idx cmds = some out) :
    strokes out = strokes cmds := by
  unfold renderSelectedPoint at h
  simp only at h
  split at h
  · cases h
  · cases h
    simp only [strokes, strokeState_append, List.foldl_cons, List.foldl_nil, strokeStep]

/-- The layout block does not touch the curve thickness. -/
theorem updateRadii_curveThickness (d : ChordDiagram) :
    (updateRadii d).curveThickness = d.curveThickness := by
  simp only [updateRadii]
  split_ifs <;> rfl

/-- The strokes of one render pass with a selected line: one stroke of width
`curveThickness` per line that is not selected, in the order of the lines, then the selected
line with three times and with twice that width. -/
theorem renderChordDiagramNanoVG_strokes (d : ChordDiagram)
    (hlen : (d.curvePoints.length : ℤ) = d.numLinesTotal * (NUM_SUBDIVISIONS : ℤ))
    (hsel : 0 ≤ d.selectedLineIdx) (hline : d.selectedLineIdx < d.numLinesTotal)
    (hp0 : d.selectedPointIndices0 < (d.nodesList.length : ℤ))
    (hp1 : d.selectedPointIndices1 < (d.nodesList.length : ℤ)) :
    ∃ r, renderChordDiagramNanoVG d = some r ∧
      strokes r.2 =
        ((List.range d.numLinesTotal.toNat).filter
            (fun l : ℕ => decide ((l : ℤ) ≠ d.selectedLineIdx))).map
          (fun l : ℕ => (d.curveThickness, curvePolyline (updateRadii d) (l : ℤ))) ++
        [(d.curveThickness * 3, curvePolyline (updateRadii d) d.selectedLineIdx),
         (d.curveThickness * 2, curvePolyline (updateRadii d) d.selectedLineIdx)] := by
  obtain ⟨f1, f2, f3, f4, f5, f6⟩ := updateRadii_frame d
  have f7 := updateRadii_curveThickness d
  have hlen1 : ((updateRadii d).curvePoints.length : ℤ) =
      (updateRadii d).numLinesTotal * (NUM_SUBDIVISIONS : ℤ) := by rw [f1, f3]; exact hlen
  have hline1 : (updateRadii d).selectedLineIdx < (updateRadii d).numLinesTotal := by
    rw [f4, f3]; exact hline
  have hsel1 : 0 ≤ (updateRadii d).selectedLineIdx := by rw [f4]; exact hsel
  have hq0 : (updateRadii d).selectedPointIndices0 < ((updateRadii d).nodesList.length : ℤ) := by
    rw [f5, f2]; exact hp0
  have hq1 : (updateRadii d).selectedPointIndices1 < ((updateRadii d).nodesList.length : ℤ) := by
    rw [f6, f2]; exact hp1
  rw [← f3, ← f4, ← f7]
  unfold renderChordDiagramNanoVG
  generalize updateRadii d = e at hlen1 hline1 hsel1 hq0 hq1
  simp only
  generalize nvgRGBA 100 255 100 (max 0 (min 255 ⌈e.curveOpacity * 255⌉)).toNat = color
  have hne : e.curvePoints ≠ [] := by
    intro h0
    rw [h0] at hlen1
    simp only [List.length_nil, NUM_SUBDIVISIONS] at hlen1
    push_cast at hlen1
    omega
  -- the curves
  obtain ⟨c1, hc1, path, hst⟩ := strokeState_renderCurve_loop e color hlen1
    e.numLinesTotal.toNat (by omega)
  obtain ⟨outline, hc2⟩ := renderSelectedCurve_eq e color c1 hlen1 hsel1 hline1
  rw [if_pos hne, hc1]
  simp only [hc2]
  generalize hL : ((List.range e.numLinesTotal.toNat).filter
      (fun l : ℕ => decide ((l : ℤ) ≠ e.selectedLineIdx))).map
      (fun l : ℕ => (e.curveThickness, curvePolyline e (l : ℤ))) ++
      [(e.curveThickness * 3, curvePolyline e e.selectedLineIdx),
       (e.curveThickness * 2, curvePolyline e e.selectedLineIdx)] = L
  have hcurves : strokes (c1 ++ (NvgCmd.nvgStrokeWidth (e.curveThickness * 3) ::
        NvgCmd.nvgBeginPath :: (curvePolyline e e.selectedLineIdx ++
          [NvgCmd.nvgStrokeColor outline, NvgCmd.nvgStroke])) ++
        (NvgCmd.nvgStrokeWidth (e.curveThickness * 2) ::
        NvgCmd.nvgBeginPath :: (curvePolyline e e.selectedLineIdx ++
          [NvgCmd.nvgStrokeColor { color with a := 1 }, NvgCmd.nvgStroke])) ++
        [NvgCmd.nvgBeginPath]) = L := by
    rw [← hL, strokes, strokeState_append, strokeState_append, strokeState_append, hst,
      foldl_strokeStep_width_polyline, foldl_strokeStep_width_polyline]
    simp only [List.foldl_cons, List.foldl_nil, strokeStep, List.append_assoc,
      List.singleton_append]
  generalize c1 ++ (NvgCmd.nvgStrokeWidth (e.curveThickness * 3) ::
        NvgCmd.nvgBeginPath :: (curvePolyline e e.selectedLineIdx ++
          [NvgCmd.nvgStrokeColor outline, NvgCmd.nvgStroke])) ++
        (NvgCmd.nvgStrokeWidth (e.curveThickness * 2) ::
        NvgCmd.nvgBeginPath :: (curvePolyline e e.selectedLineIdx ++
          [NvgCmd.nvgStrokeColor { color with a := 1 }, NvgCmd.nvgStroke])) ++
        [NvgCmd.nvgBeginPath] = c2 at hcurves ⊢
  -- the points
  obtain ⟨c3, hc3, hs3⟩ := forLoop_invariant
    (renderPoint e (e.curveThickness * e.pointRadiusBase)) (fun c => strokes c = L)
    e.nodesList.length 0 c2 hcurves
    (fun i t _ hi ht => by
      obtain ⟨c, hc⟩ := renderPoint_ok e (e.curveThickness * e.pointRadiusBase) i t (by omega)
      exact ⟨c, hc, (renderPoint_strokes e _ i t c hc).trans ht⟩)
  rw [hc3]
  simp only
  generalize nvgRGBA e.circleFillColorSelected0.r e.circleFillColorSelected0.g
    e.circleFillColorSelected0.b e.circleFillColorSelected0.a = colorSel
  have hs3b : strokes (c3 ++ [NvgCmd.nvgFillColor (nvgRGBA e.circleFillColor.r
      e.circleFillColor.g e.circleFillColor.b e.circleFillColor.a), NvgCmd.nvgFill]) = L := by
    rw [← hs3]
    simp only [strokes, strokeState_append, List.foldl_cons, List.foldl_nil, strokeStep]
  obtain ⟨c4, hc4, hs4⟩ := forLoop_invariant
    (renderSelectedPoint e (e.curveThickness * e.pointRadiusBase) colorSel)
    (fun c => strokes c = L)
    (if e.selectedPointIndices0 < 0 then 0 else (if e.selectedPointIndices1 < 0 then 1 else 2))
    0 (c3 ++ [NvgCmd.nvgFillColor (nvgRGBA e.circleFillColor.r e.circleFillColor.g
        e.circleFillColor.b e.circleFillColor.a), NvgCmd.nvgFill]) hs3b
    (fun i t _ hi ht => by
      have hb : 0 ≤ (if i = 0 then e.selectedPointIndices0 else e.selectedPointIndices1) ∧
          (if i = 0 then e.selectedPointIndices0 else e.selectedPointIndices1) <
            (e.nodesList.length : ℤ) := by
        split_ifs at hi ⊢ <;> omega
      obtain ⟨c, hc⟩ := renderSelectedPoint_ok e (e.curveThickness * e.pointRadiusBase)
        colorSel i t hb.1 hb.2
      exact ⟨c, hc, (renderSelectedPoint_strokes e _ colorSel i t c hc).trans ht⟩)
  rw [hc4]
  exact ⟨_, rfl, hs4⟩

/-- The polyline of a line is one `nvgMoveTo` followed by `NUM_SUBDIVISIONS - 1` calls of
`nvgLineTo`. -/
theorem curvePolyline_shape (d : ChordDiagram) (lineIdx : ℤ) :
    ∃ x y rest, curvePolyline d lineIdx = NvgCmd.nvgMoveTo x y :: rest ∧
      rest.length = NUM_SUBDIVISIONS - 1 ∧ ∀ c ∈ rest, ∃ x1 y1, c = NvgCmd.nvgLineTo x1 y1 := by
  refine ⟨_, _, _, rfl, by simp, fun c hc => ?_⟩
  obtain ⟨p, -, hp⟩ := List.mem_map.mp hc
  exact ⟨_, _, hp.symm⟩

/-- The single curve diagram satisfies the size conditions of a render pass. -/
theorem oneCurveDiagram_bounds :
    ((oneCurveDiagram.curvePoints.length : ℤ) =
      oneCurveDiagram.numLinesTotal * (NUM_SUBDIVISIONS : ℤ)) ∧
    0 ≤ oneCurveDiagram.selectedLineIdx ∧
    oneCurveDiagram.selectedLineIdx < oneCurveDiagram.numLinesTotal ∧
    oneCurveDiagram.selectedPointIndices0 < (oneCurveDiagram.nodesList.length : ℤ) ∧
    oneCurveDiagram.selectedPointIndices1 < (oneCurveDiagram.nodesList.length : ℤ) := by
  simp [oneCurveDiagram, ChordDiagram.new, NUM_SUBDIVISIONS]

/-- Claim C24 (as amended). For every render pass with a selected line
(`0 <= selectedLineIdx < numLinesTotal`, the curve buffer holding `NUM_SUBDIVISIONS` samples
per line): every line that is not selected is stroked exactly once, with width
`curveThickness`; then the selected line is stroked twice, first with width
`curveThickness * 3` (the outline) and then with width `curveThickness * 2`; there are no
other strokes, and every stroked path is a polyline of one `nvgMoveTo` followed by
`NUM_SUBDIVISIONS - 1` calls of `nvgLineTo`. -/
theorem render_strokes_selected_twice_others_once (d : ChordDiagram)
    (hlen : (d.curvePoints.length : ℤ) = d.numLinesTotal * (NUM_SUBDIVISIONS : ℤ))
    (hsel : 0 ≤ d.selectedLineIdx) (hline : d.selectedLineIdx < d.numLinesTotal)
    (hp0 : d.selectedPointIndices0 < (d.nodesList.length : ℤ))
    (hp1 : d.selectedPointIndices1 < (d.nodesList.length : ℤ)) :
    ∃ r, renderChordDiagramNanoVG d = some r ∧
      strokes r.2 =
        ((List.range d.numLinesTotal.toNat).filter
            (fun l : ℕ => decide ((l : ℤ) ≠ d.selectedLineIdx))).map
          (fun l : ℕ => (d.curveThickness, curvePolyline (updateRadii d) (l : ℤ))) ++
        [(d.curveThickness * 3, curvePolyline (updateRadii d) d.selectedLineIdx),
         (d.curveThickness * 2, curvePolyline (updateRadii d) d.selectedLineIdx)] ∧
      ∀ lineIdx : ℤ, ∃ x y rest,
        curvePolyline (updateRadii d) lineIdx = NvgCmd.nvgMoveTo x y :: rest ∧
        rest.length = NUM_SUBDIVISIONS - 1 ∧
        ∀ c ∈ rest, ∃ x1 y1, c = NvgCmd.nvgLineTo x1 y1 := by
  obtain ⟨r, hr, hs⟩ := renderChordDiagramNanoVG_strokes d hlen hsel hline hp0 hp1
  exact ⟨r, hr, hs, fun l => curvePolyline_shape (updateRadii d) l⟩

/-- Claim C24, counterexample. In the diagram with a single curve, which is selected, the
render pass draws exactly two strokes, of widths `9/2` and `3` (three times and twice the
curve thickness `3/2`): the selected curve is stroked twice, not three times, and the second
stroke is narrower than the first. -/
theorem render_strokes_selected_curve_only_twice :
    0 ≤ oneCurveDiagram.selectedLineIdx ∧
    oneCurveDiagram.selectedLineIdx < oneCurveDiagram.numLinesTotal ∧
    ∃ r, renderChordDiagramNanoVG oneCurveDiagram = some r ∧
      (strokes r.2).map Prod.fst = [9 / 2, 3] ∧
      (strokes r.2).length = 2 ∧ (strokes r.2).length ≠ 3 := by
  obtain ⟨b1, b2, b3, b4, b5⟩ := oneCurveDiagram_bounds
  obtain ⟨r, hr, hs⟩ := renderChordDiagramNanoVG_strokes oneCurveDiagram b1 b2 b3 b4 b5
  have h2 : (strokes r.2).length = 2 := by
    rw [hs]
    simp [oneCurveDiagram, ChordDiagram.new]
  refine ⟨b2, b3, r, hr, ?_, h2, by rw [h2]; decide⟩
  rw [hs]
  simp [oneCurveDiagram, ChordDiagram.new]
  norm_num

/-- Claim C24, witness: the render pass of the diagram with a single, selected curve. -/
theorem render_strokes_selected_twice_others_once_witness :
    ((oneCurveDiagram.curvePoints.length : ℤ) =
      oneCurveDiagram.numLinesTotal * (NUM_SUBDIVISIONS : ℤ)) ∧
    0 ≤ oneCurveDiagram.selectedLineIdx ∧
    oneCurveDiagram.selectedLineIdx < oneCurveDiagram.numLinesTotal ∧
    oneCurveDiagram.selectedPointIndices0 < (oneCurveDiagram.nodesList.length : ℤ) ∧
    oneCurveDiagram.selectedPointIndices1 < (oneCurveDiagram.nodesList.length : ℤ) ∧
    ∃ r, renderChordDiagramNanoVG oneCurveDiagram = some r ∧
      strokes r.2 =
        ((List.range oneCurveDiagram.numLinesTotal.toNat).filter
            (fun l : ℕ => decide ((l : ℤ) ≠ oneCurveDiagram.selectedLineIdx))).map
          (fun l : ℕ => (oneCurveDiagram.curveThickness,
            curvePolyline (updateRadii oneCurveDiagram) (l : ℤ))) ++
        [(oneCurveDiagram.curveThickness * 3,
            curvePolyline (updateRadii oneCurveDiagram) oneCurveDiagram.selectedLineIdx),
         (oneCurveDiagram.curveThickness * 2,
            curvePolyline (updateRadii oneCurveDiagram) oneCurveDiagram.selectedLineIdx)] :=
  ⟨oneCurveDiagram_bounds.1, oneCurveDiagram_bounds.2.1, oneCurveDiagram_bounds.2.2.1,
    oneCurveDiagram_bounds.2.2.2.1, oneCurveDiagram_bounds.2.2.2.2,
    (render_strokes_selected_twice_others_once oneCurveDiagram oneCurveDiagram_bounds.1
      oneCurveDiagram_bounds.2.1 oneCurveDiagram_bounds.2.2.1 oneCurveDiagram_bounds.2.2.2.1
      oneCurveDiagram_bounds.2.2.2.2).imp (fun _ h => ⟨h.1, h.2.1⟩)⟩

/-- The rounding to the nearest integer moves a number by at most one half. -/
theorem roundHalfEven_abs_sub_le (q : ℚ) : |(roundHalfEven q : ℚ) - q| ≤ 1 / 2 := by
  have h1 := Int.floor_le q
  have h2 := Int.lt_floor_add_one q
  unfold roundHalfEven
  split_ifs with a b c
  · rw [abs_le]; constructor <;> linarith
  · rw [abs_le]; push_cast; constructor <;> linarith
  · rw [abs_le]; constructor <;> linarith
  · rw [abs_le]; push_cast; constructor <;> linarith

/-- The rounding to the nearest integer leaves integers as they are. -/
theorem roundHalfEven_intCast (k : ℤ) : roundHalfEven (k : ℚ) = k := by
  simp [roundHalfEven]

/-- The exponent used by `f32round` for a number below `2 ^ (E + 1)` is at most `E`. -/
theorem f32_exponent_le (x : ℚ) (E : ℤ) (hE : -126 ≤ E) (h0 : x ≠ 0)
    (hx : |x| < (2 : ℚ) ^ (E + 1)) : max (Int.log 2 |x|) (-126) ≤ E := by
  apply max_le _ hE
  have h := (Int.lt_zpow_iff_log_lt (b := 2) (by norm_num) (abs_pos.mpr h0) (x := E + 1)).mp
    (by simpa using hx)
  omega

/-- A number below `2 ^ (E + 1)` in magnitude, with `-126 <= E`, that stays below `2 ^ 128`
when `2 ^ (E - 24)` is added, rounds to a finite float that differs from it by at most
`2 ^ (E - 24)`. -/
theorem f32round_of_lt (x : ℚ) (E : ℤ) (hE : -126 ≤ E)
    (hx : |x| < (2 : ℚ) ^ (E + 1))
    (hfin : |x| + (2 : ℚ) ^ (E - 24) < (2 : ℚ) ^ (128 : ℤ)) :
    ∃ y, f32round x = some y ∧ |y - x| ≤ (2 : ℚ) ^ (E - 24) := by
  by_cases h0 : x = 0
  · refine ⟨0, by simp [f32round, h0], ?_⟩
    rw [h0]
    simp only [sub_zero, abs_zero]
    positivity
  · have he := f32_exponent_le x E hE h0 hx
    simp only [f32round, if_neg h0]
    generalize max (Int.log 2 |x|) (-126) = e at he ⊢
    have hulp : (0 : ℚ) < (2 : ℚ) ^ (e - 23) := by positivity
    have herr : |(roundHalfEven (x / (2 : ℚ) ^ (e - 23)) : ℚ) * (2 : ℚ) ^ (e - 23) - x| ≤
        (2 : ℚ) ^ (E - 24) := by
      have h1 := roundHalfEven_abs_sub_le (x / (2 : ℚ) ^ (e - 23))
      have h2 : (roundHalfEven (x / (2 : ℚ) ^ (e - 23)) : ℚ) * (2 : ℚ) ^ (e - 23) - x =
          ((roundHalfEven (x / (2 : ℚ) ^ (e - 23)) : ℚ) - x / (2 : ℚ) ^ (e - 23)) *
            (2 : ℚ) ^ (e - 23) := by
        field_simp
      rw [h2, abs_mul, abs_of_pos hulp]
      have h3 : (2 : ℚ) ^ (E - 24) = 1 / 2 * (2 : ℚ) ^ (E - 23) := by
        rw [show E - 24 = (E - 23) + (-1) by ring, zpow_add₀ (by norm_num : (2 : ℚ) ≠ 0)]
        norm_num
        ring
      have h4 : (2 : ℚ) ^ (e - 23) ≤ (2 : ℚ) ^ (E - 23) :=
        zpow_le_zpow_right₀ (by norm_num) (by omega)
      rw [h3]
      exact mul_le_mul h1 h4 hulp.le (by norm_num)
    have hfin2 : |(roundHalfEven (x / (2 : ℚ) ^ (e - 23)) : ℚ) * (2 : ℚ) ^ (e - 23)| <
        (2 : ℚ) ^ (128 : ℤ) := by
      have h5 : |(roundHalfEven (x / (2 : ℚ) ^ (e - 23)) : ℚ) * (2 : ℚ) ^ (e - 23)| ≤
          |(roundHalfEven (x / (2 : ℚ) ^ (e - 23)) : ℚ) * (2 : ℚ) ^ (e - 23) - x| + |x| := by
        have := abs_add ((roundHalfEven (x / (2 : ℚ) ^ (e - 23)) : ℚ) * (2 : ℚ) ^ (e - 23) - x) x
        simpa using this
      linarith
    rw [if_pos hfin2]
    exact ⟨_, rfl, herr⟩

/-- A finite float is at most the largest float `2 ^ 128 - 2 ^ 104` in magnitude. -/
theorem isF32_abs_le (x : ℚ) (h : IsF32 x) :
    |x| ≤ (2 : ℚ) ^ (128 : ℤ) - (2 : ℚ) ^ (104 : ℤ) := by
  by_cases h0 : x = 0
  · rw [h0, abs_zero]; norm_num
  · unfold IsF32 at h
    simp only [f32round, if_neg h0] at h
    split_ifs at h with hfin
    have hx := Option.some.inj h
    rw [hx] at hfin
    have he127 := f32_exponent_le x 127 (by norm_num) h0
      (by rw [show ((127 : ℤ) + 1) = 128 by norm_num]; exact hfin)
    have hlog : |x| < (2 : ℚ) ^ (max (Int.log 2 |x|) (-126) + 1) := by
      have h1 := Int.lt_zpow_succ_log_self (b := 2) (by norm_num) |x|
      have h2 : ((2 : ℕ) : ℚ) ^ (Int.log 2 |x| + 1) ≤
          (2 : ℚ) ^ (max (Int.log 2 |x|) (-126) + 1) := by
        rw [Nat.cast_ofNat]
        exact zpow_le_zpow_right₀ (by norm_num)
          (by have := le_max_left (Int.log 2 |x|) (-126); omega)
      exact lt_of_lt_of_le h1 h2
    generalize max (Int.log 2 |x|) (-126) = e at hx hlog he127
    generalize roundHalfEven (x / (2 : ℚ) ^ (e - 23)) = n at hx
    by_cases he : e ≤ 126
    · have h3 : (2 : ℚ) ^ (e + 1) ≤ (2 : ℚ) ^ (127 : ℤ) :=
        zpow_le_zpow_right₀ (by norm_num) (by omega)
      have h4 : (2 : ℚ) ^ (127 : ℤ) ≤ (2 : ℚ) ^ (128 : ℤ) - (2 : ℚ) ^ (104 : ℤ) := by norm_num
      linarith
    · have he2 : e = 127 := by omega
      rw [he2] at hx
      have habs : |x| = ((|n| : ℤ) : ℚ) * (2 : ℚ) ^ (104 : ℤ) := by
        rw [← hx, abs_mul, Int.cast_abs]
        norm_num
      have hn : |n| < 16777216 := by
        by_contra hcon
        have h5 : (16777216 : ℚ) ≤ ((|n| : ℤ) : ℚ) := by exact_mod_cast not_lt.mp hcon
        have h6 : (16777216 : ℚ) * (2 : ℚ) ^ (104 : ℤ) ≤
            ((|n| : ℤ) : ℚ) * (2 : ℚ) ^ (104 : ℤ) :=
          mul_le_mul_of_nonneg_right h5 (by positivity)
        have h7 : (16777216 : ℚ) * (2 : ℚ) ^ (104 : ℤ) = (2 : ℚ) ^ (128 : ℤ) := by norm_num
        rw [habs] at hfin
        linarith
      have hn2 : ((|n| : ℤ) : ℚ) ≤ 16777215 := by
        have : |n| ≤ 16777215 := by omega
        exact_mod_cast this
      have h8 : ((|n| : ℤ) : ℚ) * (2 : ℚ) ^ (104 : ℤ) ≤ 16777215 * (2 : ℚ) ^ (104 : ℤ) :=
        mul_le_mul_of_nonneg_right hn2 (by positivity)
      rw [habs]
      have h9 : (16777215 : ℚ) * (2 : ℚ) ^ (104 : ℤ) =
          (2 : ℚ) ^ (128 : ℤ) - (2 : ℚ) ^ (104 : ℤ) := by norm_num
      linarith

/-- Integers below `2 ^ 24` in magnitude are floats. -/
theorem f32round_intCast (n : ℤ) (hn : |n| < 16777216) : f32round (n : ℚ) = some (n : ℚ) := by
  by_cases h0 : (n : ℚ) = 0
  · simp [f32round, h0]
  · have hn0 : n ≠ 0 := by exact_mod_cast h0
    have habs : (1 : ℚ) ≤ |(n : ℚ)| := by
      have : (1 : ℤ) ≤ |n| := Int.one_le_abs hn0
      exact_mod_cast this
    have hlt : |(n : ℚ)| < (2 : ℚ) ^ ((23 : ℤ) + 1) := by
      have : ((|n| : ℤ) : ℚ) < 16777216 := by exact_mod_cast hn
      rw [Int.cast_abs] at this
      norm_num
      exact this
    have he1 := f32_exponent_le (n : ℚ) 23 (by norm_num) h0 hlt
    have he0 : 0 ≤ max (Int.log 2 |(n : ℚ)|) (-126) := by
      apply le_max_of_le_left
      have := (Int.zpow_le_iff_le_log (b := 2) (by norm_num) (abs_pos.mpr h0) (x := 0)).mp
        (by simpa using habs)
      exact this
    simp only [f32round, if_neg h0]
    generalize max (Int.log 2 |(n : ℚ)|) (-126) = e at he0 he1 ⊢
    obtain ⟨k, hk⟩ : ∃ k : ℕ, e - 23 = -(k : ℤ) := ⟨(23 - e).toNat, by omega⟩
    have hq : (n : ℚ) / (2 : ℚ) ^ (e - 23) = ((n * 2 ^ k : ℤ) : ℚ) := by
      rw [hk, zpow_neg, zpow_natCast]
      push_cast
      field_simp
    have hy : (((n * 2 ^ k : ℤ) : ℤ) : ℚ) * (2 : ℚ) ^ (e - 23) = (n : ℚ) := by
      rw [hk, zpow_neg, zpow_natCast]
      push_cast
      field_simp
    rw [hq, roundHalfEven_intCast, hy]
    have hfin : |(n : ℚ)| < (2 : ℚ) ^ (128 : ℤ) := by
      have : (2 : ℚ) ^ ((23 : ℤ) + 1) < (2 : ℚ) ^ (128 : ℤ) := by norm_num
      linarith
    rw [if_pos hfin]

/-- Every 32-bit integer converts to a finite float. -/
theorem f32ofInt_wrapInt32 (x : ℤ) : ∃ y, f32ofInt (wrapInt32 x) = some y ∧
    |y| ≤ 4294967296 := by
  have hb : |((wrapInt32 x : ℤ) : ℚ)| ≤ 2147483648 := by
    have h1 : -2147483648 ≤ wrapInt32 x ∧ wrapInt32 x < 2147483648 := by
      unfold wrapInt32; omega
    rw [abs_le]
    constructor
    · exact_mod_cast h1.1
    · exact_mod_cast h1.2.le
  obtain ⟨y, hy, herr⟩ := f32round_of_lt ((wrapInt32 x : ℤ) : ℚ) 31 (by norm_num)
    (by norm_num; linarith) (by norm_num; linarith)
  refine ⟨y, hy, ?_⟩
  have h2 : |y| ≤ |y - ((wrapInt32 x : ℤ) : ℚ)| + |((wrapInt32 x : ℤ) : ℚ)| := by
    have := abs_add (y - ((wrapInt32 x : ℤ) : ℚ)) ((wrapInt32 x : ℤ) : ℚ)
    simpa using this
  have h3 : (2 : ℚ) ^ ((31 : ℤ) - 24) ≤ 2147483648 := by norm_num
  linarith

/-- Evaluation of `f32round` from the binade of the argument and the rounded quotient. -/
theorem f32round_eval (x : ℚ) (e n : ℤ) (h1 : (2 : ℚ) ^ e ≤ |x|) (h2 : |x| < (2 : ℚ) ^ (e + 1))
    (he : -126 ≤ e) (hn : roundHalfEven (x / (2 : ℚ) ^ (e - 23)) = n)
    (hfin : |(n : ℚ) * (2 : ℚ) ^ (e - 23)| < (2 : ℚ) ^ (128 : ℤ)) :
    f32round x = some ((n : ℚ) * (2 : ℚ) ^ (e - 23)) := by
  have h0 : x ≠ 0 := by
    intro h
    rw [h, abs_zero] at h1
    have : (0 : ℚ) < (2 : ℚ) ^ e := by positivity
    linarith
  have hlog : Int.log 2 |x| = e := by
    have a1 := (Int.zpow_le_iff_le_log (b := 2) (by norm_num) (abs_pos.mpr h0) (x := e)).mp
      (by simpa using h1)
    have a2 := (Int.lt_zpow_iff_log_lt (b := 2) (by norm_num) (abs_pos.mpr h0)
      (x := e + 1)).mp (by simpa using h2)
    omega
  simp only [f32round, if_neg h0, hlog, max_eq_left he, hn, if_pos hfin]

/-- Evaluation of `roundHalfEven` below the half. -/
theorem roundHalfEven_of_lt (q : ℚ) (f : ℤ) (h1 : (f : ℚ) ≤ q) (h2 : q < (f : ℚ) + 1 / 2) :
    roundHalfEven q = f := by
  have hf : ⌊q⌋ = f := Int.floor_eq_iff.mpr ⟨h1, by linarith⟩
  simp only [roundHalfEven, hf]
  rw [if_pos (by linarith)]

/-- Evaluation of `roundHalfEven` above the half. -/
theorem roundHalfEven_of_gt (q : ℚ) (f : ℤ) (h1 : (f : ℚ) + 1 / 2 < q) (h2 : q < (f : ℚ) + 1) :
    roundHalfEven q = f + 1 := by
  have hf : ⌊q⌋ = f := Int.floor_eq_iff.mpr ⟨by linarith, h2⟩
  simp only [roundHalfEven, hf]
  rw [if_neg (by linarith), if_pos (by linarith)]

/-- Evaluation of `roundHalfEven` at a tie above an even integer. -/
theorem roundHalfEven_of_tie_even (q : ℚ) (f : ℤ) (h1 : q = (f : ℚ) + 1 / 2) (h2 : f % 2 = 0) :
    roundHalfEven q = f := by
  have hf : ⌊q⌋ = f := Int.floor_eq_iff.mpr ⟨by linarith, by linarith⟩
  simp only [roundHalfEven, hf]
  rw [if_neg (by linarith), if_neg (by linarith), if_pos h2]

/-- The integer `2 ^ 24 + 1` is not a float: it rounds to `2 ^ 24`. -/
theorem f32round_16777217 : f32round 16777217 = some 16777216 := by
  have h := f32round_eval 16777217 24 8388608 (by norm_num) (by norm_num) (by norm_num)
    (roundHalfEven_of_tie_even _ 8388608 (by norm_num) (by decide)) (by norm_num)
  rw [h]
  norm_num

/-- The quotient `10 / 3` as a float. -/
theorem f32round_10_div_3 : f32round (10 / 3) = some (13981013 / 4194304) := by
  have h := f32round_eval (10 / 3) 1 13981013
    (by rw [abs_of_pos (by norm_num)]; norm_num) (by rw [abs_of_pos (by norm_num)]; norm_num)
    (by norm_num) (roundHalfEven_of_lt _ 13981013 (by norm_num) (by norm_num))
    (by rw [abs_of_pos (by norm_num)]; norm_num)
  rw [h]
  norm_num

/-- The sum `420 + fl(10 / 3)` as a float. -/
theorem f32round_420_add : f32round (420 + 13981013 / 4194304) = some (13871787 / 32768) := by
  have h := f32round_eval (420 + 13981013 / 4194304) 8 (13871786 + 1)
    (by rw [abs_of_pos (by norm_num)]; norm_num) (by rw [abs_of_pos (by norm_num)]; norm_num)
    (by norm_num) (roundHalfEven_of_gt _ 13871786 (by norm_num) (by norm_num))
    (by rw [abs_of_pos (by norm_num)]; norm_num)
  rw [h]
  norm_num

/-- The resize branch with only `RIGHT` active: the width becomes the float sum of the width
and the float quotient `float(px - lastResizeMouseX) / scaleFactor`, nothing else of the
geometry changes, and there is no result exactly when one of these is not finite. -/
theorem resizeByMouseDeltaF32_of_right (s : DiagramBase) (m : SglFrame) (px py : ℤ)
    (hR : s.resizeDirection = RIGHT) :
    resizeByMouseDeltaF32 s m px py =
      ((f32ofInt (wrapInt32 (px - s.lastResizeMouseX))).bind fun d =>
        (f32div d s.scaleFactor).bind fun q => f32add s.windowWidth q).map fun w =>
        { s with windowWidth := w
                 lastResizeMouseX := px
                 lastResizeMouseY := py
                 needsReRender := true
                 fboWidthDisplay := m.fboWidthDisplay
                 fboHeightDisplay := m.fboHeightDisplay } := by
  obtain ⟨dy, hdy, -⟩ := f32ofInt_wrapInt32 (py - s.lastResizeMouseY)
  have b1 : ¬ (RIGHT &&& LEFT ≠ 0) := by decide
  have b2 : RIGHT &&& RIGHT ≠ 0 := by decide
  have b3 : ¬ (RIGHT &&& BOTTOM ≠ 0) := by decide
  have b4 : ¬ (RIGHT &&& TOP ≠ 0) := by decide
  simp only [resizeByMouseDeltaF32, hdy, resizeLeftF32, hR, if_neg b1, Option.some_bind,
    resizeRightF32, if_pos b2]
  cases f32ofInt (wrapInt32 (px - s.lastResizeMouseX)) with
  | none => rfl
  | some d =>
    simp only [Option.some_bind]
    cases f32div d s.scaleFactor with
    | none => rfl
    | some q =>
      simp only [Option.some_bind]
      cases f32add s.windowWidth q with
      | none => rfl
      | some w =>
        simp only [Option.some_bind, resizeBottomF32, resizeTopF32, hR, if_neg b3, if_neg b4,
          Option.map_some']

/-- The resize branch with only `TOP` active: the height becomes the float sum of the height
and the float quotient `float(py - lastResizeMouseY) / scaleFactor`, nothing else of the
geometry changes, and there is no result exactly when one of these is not finite. -/
theorem resizeByMouseDeltaF32_of_top (s : DiagramBase) (m : SglFrame) (px py : ℤ)
    (hT : s.resizeDirection = TOP) :
    resizeByMouseDeltaF32 s m px py =
      ((f32ofInt (wrapInt32 (py - s.lastResizeMouseY))).bind fun d =>
        (f32div d s.scaleFactor).bind fun q => f32add s.windowHeight q).map fun h =>
        { s with windowHeight := h
                 lastResizeMouseX := px
                 lastResizeMouseY := py
                 needsReRender := true
                 fboWidthDisplay := m.fboWidthDisplay
                 fboHeightDisplay := m.fboHeightDisplay } := by
  obtain ⟨dx, hdx, -⟩ := f32ofInt_wrapInt32 (px - s.lastResizeMouseX)
  have b1 : ¬ (TOP &&& LEFT ≠ 0) := by decide
  have b2 : ¬ (TOP &&& RIGHT ≠ 0) := by decide
  have b3 : ¬ (TOP &&& BOTTOM ≠ 0) := by decide
  have b4 : TOP &&& TOP ≠ 0 := by decide
  simp only [resizeByMouseDeltaF32, hdx, resizeLeftF32, hT, if_neg b1, resizeRightF32,
    if_neg b2, Option.some_bind, resizeBottomF32, if_neg b3, resizeTopF32, if_pos b4]
  cases f32ofInt (wrapInt32 (py - s.lastResizeMouseY)) with
  | none => rfl
  | some d =>
    simp only [Option.some_bind]
    cases f32div d s.scaleFactor with
    | none => rfl
    | some q =>
      simp only [Option.some_bind]
      cases f32add s.windowHeight q with
      | none => rfl
      | some w => simp only [Option.some_bind, Option.map_some']

/-- A result of the resize branch that keeps the drag flag down passes the drag block
unchanged. -/
theorem bind_dragWindowOffsetF32_of_not_dragging (r : Option DiagramBase) (px py : ℤ)
    (h : ∀ t, r = some t → t.isDraggingWindow = false) :
    r.bind (fun t => dragWindowOffsetF32 t px py) = r := by
  cases r with
  | none => rfl
  | some t => simp only [Option.some_bind, dragWindowOffsetF32, h t rfl, Bool.false_eq_true,
      if_false]

/-- With the button held, only `RIGHT` or only `TOP` active and no drag, the move handlers
are the resize branch. -/
theorem mouseMoveF32_of_resize_right_or_top (s : DiagramBase) (m : SglFrame) (px py : ℤ)
    (hd : s.isDraggingWindow = false)
    (hdir : s.resizeDirection = RIGHT ∨ s.resizeDirection = TOP) :
    (m.buttonReleased = false →
      mouseMoveEventF32 s m px py = resizeByMouseDeltaF32 s m px py) ∧
    (m.isButtonUp = false →
      mouseMoveEventParentF32 s m px py = resizeByMouseDeltaF32 s m px py) := by
  have hn : s.resizeDirection ≠ NONE := by
    rcases hdir with h | h <;> rw [h] <;> decide
  have hkeep : ∀ t, resizeByMouseDeltaF32 s m px py = some t → t.isDraggingWindow = false := by
    intro t ht
    rcases hdir with h | h
    · rw [resizeByMouseDeltaF32_of_right s m px py h, Option.map_eq_some'] at ht
      obtain ⟨w, -, hw⟩ := ht
      rw [← hw]
      exact hd
    · rw [resizeByMouseDeltaF32_of_top s m px py h, Option.map_eq_some'] at ht
      obtain ⟨w, -, hw⟩ := ht
      rw [← hw]
      exact hd
  constructor
  · intro hr
    simp only [mouseMoveEventF32, hr, Bool.false_eq_true, if_false, if_pos hn]
    exact bind_dragWindowOffsetF32_of_not_dragging _ px py hkeep
  · intro hu
    simp only [mouseMoveEventParentF32, hu, Bool.false_eq_true, if_false, if_pos hn]
    exact bind_dragWindowOffsetF32_of_not_dragging _ px py hkeep

/-- Without rounding: for scale factor 1 and integers below `2 ^ 24` in magnitude the size
grows by exactly `delta / scaleFactor`. -/
theorem growSizeF32_exact (w d : ℤ) (_ : |w| < 16777216) (hd : |d| < 16777216)
    (hs : |w + d| < 16777216) : growSizeF32 (w : ℚ) 1 d = some ((w : ℚ) + (d : ℚ) / 1) := by
  have hwrap : wrapInt32 d = d := by
    have := abs_lt.mp hd
    unfold wrapInt32
    omega
  have h1 : f32ofInt d = some (d : ℚ) := f32round_intCast d hd
  have h2 : f32div (d : ℚ) 1 = some (d : ℚ) := by
    simp only [f32div, one_ne_zero, if_false, div_one]
    exact f32round_intCast d hd
  have h3 : f32add (w : ℚ) (d : ℚ) = some ((w : ℚ) + (d : ℚ) / 1) := by
    have := f32round_intCast (w + d) hs
    simp only [f32add, div_one]
    push_cast at this
    exact this
  simp only [growSizeF32, hwrap, h1, Option.some_bind, h2, h3]

/-- Claim C8 (as amended). While resizing with only `RIGHT` active (resp. only `TOP`), no
drag in progress and the button held, a move handled by `mouseMoveEvent` or by
`mouseMoveEventParent`, computed in the machine arithmetic, leaves both window offsets and
the other size field unchanged, sets `windowWidth` (resp. `windowHeight`) to the float
result of `windowWidth + float(px - lastResizeMouseX) / scaleFactor` (`growSizeF32`: the
`int` difference, the conversion, the quotient and the sum each rounded), stores the pointer
as the new `lastResizeMouseX/Y`, and has no finite result exactly when that float result is
not finite; without rounding, as for scale factor 1 and integers below `2 ^ 24` in magnitude,
the size grows by exactly `(px - lastResizeMouseX) / scaleFactor`. -/
theorem mouseMoveF32_resize_right_top_grows_size (s : DiagramBase) (m : SglFrame) (px py : ℤ) (hd : s.isDraggingWindow = false) :
    (s.resizeDirection = RIGHT →
      (m.buttonReleased = false →
        mouseMoveEventF32 s m px py =
          (growSizeF32 s.windowWidth s.scaleFactor (px - s.lastResizeMouseX)).map fun w =>
            { s with windowWidth := w
                     lastResizeMouseX := px
                     lastResizeMouseY := py
                     needsReRender := true
                     fboWidthDisplay := m.fboWidthDisplay
                     fboHeightDisplay := m.fboHeightDisplay }) ∧
      (m.isButtonUp = false →
        mouseMoveEventParentF32 s m px py =
          (growSizeF32 s.windowWidth s.scaleFactor (px - s.lastResizeMouseX)).map fun w =>
            { s with windowWidth := w
                     lastResizeMouseX := px
                     lastResizeMouseY := py
                     needsReRender := true
                     fboWidthDisplay := m.fboWidthDisplay
                     fboHeightDisplay := m.fboHeightDisplay })) ∧
    (s.resizeDirection = TOP →
      (m.buttonReleased = false →
        mouseMoveEventF32 s m px py =
          (growSizeF32 s.windowHeight s.scaleFactor (py - s.lastResizeMouseY)).map fun h =>
            { s with windowHeight := h
                     lastResizeMouseX := px
                     lastResizeMouseY := py
                     needsReRender := true
                     fboWidthDisplay := m.fboWidthDisplay
                     fboHeightDisplay := m.fboHeightDisplay }) ∧
      (m.isButtonUp = false →
        mouseMoveEventParentF32 s m px py =
          (growSizeF32 s.windowHeight s.scaleFactor (py - s.lastResizeMouseY)).map fun h =>
            { s with windowHeight := h
                     lastResizeMouseX := px
                     lastResizeMouseY := py
                     needsReRender := true
                     fboWidthDisplay := m.fboWidthDisplay
                     fboHeightDisplay := m.fboHeightDisplay })) ∧
    (∀ w d : ℤ, |w| < 16777216 → |d| < 16777216 → |w + d| < 16777216 →
      growSizeF32 (w : ℚ) 1 d = some ((w : ℚ) + (d : ℚ) / 1)) := by
  refine ⟨fun hR => ?_, fun hT => ?_, growSizeF32_exact⟩
  · obtain ⟨h1, h2⟩ := mouseMoveF32_of_resize_right_or_top s m px py hd (Or.inl hR)
    exact ⟨fun hr => by rw [h1 hr, resizeByMouseDeltaF32_of_right s m px py hR]; rfl,
      fun hu => by rw [h2 hu, resizeByMouseDeltaF32_of_right s m px py hR]; rfl⟩
  · obtain ⟨h1, h2⟩ := mouseMoveF32_of_resize_right_or_top s m px py hd (Or.inr hT)
    exact ⟨fun hr => by rw [h1 hr, resizeByMouseDeltaF32_of_top s m px py hT]; rfl,
      fun hu => by rw [h2 hu, resizeByMouseDeltaF32_of_top s m px py hT]; rfl⟩

/-- Claim C8, counterexample. The square widget (420 wide) with scale factor 3, resizing
with only `RIGHT` active since a press at `(418, 200)`: the move to `(428, 200)` sets
`windowWidth` to the float `13871787 / 32768 = 423.33334...`, so the width does not change
by exactly `(428 - 418) / 3`. -/
theorem resize_right_width_change_is_rounded :
    ({ squareWidgetResizingRight with scaleFactor := 3 } : DiagramBase).resizeDirection =
      RIGHT ∧
    ∃ t, mouseMoveEventF32 { squareWidgetResizingRight with scaleFactor := 3 }
        (heldMoveFrame 428 200 420 420) 428 200 = some t ∧
      t.windowWidth = 13871787 / 32768 ∧
      t.windowWidth -
          ({ squareWidgetResizingRight with scaleFactor := 3 } : DiagramBase).windowWidth ≠
        ((428 - ({ squareWidgetResizingRight with scaleFactor := 3 } :
          DiagramBase).lastResizeMouseX : ℤ) : ℚ) /
          ({ squareWidgetResizingRight with scaleFactor := 3 } : DiagramBase).scaleFactor := by
  refine ⟨rfl, ?_⟩
  have h1 := (mouseMoveF32_of_resize_right_or_top
    { squareWidgetResizingRight with scaleFactor := 3 } (heldMoveFrame 428 200 420 420) 428 200
    rfl (Or.inl rfl)).1 rfl
  have hw : wrapInt32 (428 - 418) = 10 := by unfold wrapInt32; omega
  have h10 : f32ofInt 10 = some 10 := by
    have := f32round_intCast 10 (by decide)
    simpa [f32ofInt] using this
  have hdiv : f32div 10 3 = some (13981013 / 4194304) := by
    simp only [f32div]
    rw [if_neg (by norm_num)]
    exact f32round_10_div_3
  have hadd : f32add 420 (13981013 / 4194304) = some (13871787 / 32768) := f32round_420_add
  rw [h1, resizeByMouseDeltaF32_of_right _ _ _ _ rfl]
  have e1 : squareWidgetResizingRight.lastResizeMouseX = 418 := rfl
  have e3 : squareWidgetResizingRight.windowWidth = 420 := rfl
  simp only [e1, e3, hw, h10, Option.some_bind, hdiv, hadd, Option.map_some']
  refine ⟨_, rfl, rfl, ?_⟩
  simp only [e3]
  norm_num

/-- Claim C8, witness: with only `RIGHT` active and scale factor 1, a move from `(418, 200)`
to `(430, 200)` handled by `mouseMoveEvent` sets the width to the float of `420 + 12 / 1`. -/
theorem mouseMoveF32_resize_right_top_grows_size_witness :
    squareWidgetResizingRight.isDraggingWindow = false ∧
    mouseMoveEventF32 squareWidgetResizingRight (heldMoveFrame 430 200 432 420) 430 200 =
      (growSizeF32 squareWidgetResizingRight.windowWidth squareWidgetResizingRight.scaleFactor
        (430 - squareWidgetResizingRight.lastResizeMouseX)).map fun w =>
        { squareWidgetResizingRight with
          windowWidth := w
          lastResizeMouseX := 430
          lastResizeMouseY := 200
          needsReRender := true
          fboWidthDisplay := (heldMoveFrame 430 200 432 420).fboWidthDisplay
          fboHeightDisplay := (heldMoveFrame 430 200 432 420).fboHeightDisplay } :=
  ⟨rfl, ((mouseMoveF32_resize_right_top_grows_size squareWidgetResizingRight
    (heldMoveFrame 430 200 432 420) 430 200 rfl).1 rfl).1 rfl⟩

/-- The drag offset is finite for every base offset that is a float. -/
theorem dragOffsetF32_isSome (base : ℚ) (delta : ℤ) (hb : IsF32 base) :
    ∃ x, dragOffsetF32 base delta = some x := by
  obtain ⟨d, hd, hdb⟩ := f32ofInt_wrapInt32 delta
  have hbase := isF32_abs_le base hb
  have h1 := abs_add base d
  have h2 : (2 : ℚ) ^ (128 : ℤ) - (2 : ℚ) ^ (104 : ℤ) + 4294967296 +
      (2 : ℚ) ^ ((127 : ℤ) - 24) < (2 : ℚ) ^ (128 : ℤ) := by norm_num
  have h3 : (0 : ℚ) < (2 : ℚ) ^ ((127 : ℤ) - 24) := by positivity
  obtain ⟨x, hx, -⟩ := f32round_of_lt (base + d) 127 (by norm_num)
    (by norm_num at h2 ⊢; linarith) (by linarith)
  exact ⟨x, by simp only [dragOffsetF32, hd, Option.some_bind, f32add, hx]⟩

/-- With no displacement the drag offset is the base offset, when that is a float. -/
theorem dragOffsetF32_zero (base : ℚ) (hb : IsF32 base) : dragOffsetF32 base 0 = some base := by
  have hw : wrapInt32 0 = 0 := by unfold wrapInt32; omega
  have h0 : f32ofInt 0 = some 0 := by simp [f32ofInt, f32round]
  simp only [dragOffsetF32, hw, h0, Option.some_bind, f32add, add_zero]
  exact hb

/-- Without rounding: for integers below `2 ^ 24` in magnitude the drag offset is exactly
`base + delta`. -/
theorem dragOffsetF32_exact (o d : ℤ) (hd : |d| < 16777216) (hs : |o + d| < 16777216) :
    dragOffsetF32 (o : ℚ) d = some ((o : ℚ) + (d : ℚ)) := by
  have hwrap : wrapInt32 d = d := by
    have := abs_lt.mp hd
    unfold wrapInt32
    omega
  have h1 : f32ofInt d = some (d : ℚ) := f32round_intCast d hd
  have h3 := f32round_intCast (o + d) hs
  push_cast at h3
  simp only [dragOffsetF32, hwrap, h1, Option.some_bind, f32add, h3]

/-- The drag block in terms of the two drag offsets. -/
theorem dragWindowOffsetF32_of_dragging (s : DiagramBase) (px py : ℤ) (x y : ℚ)
    (hd : s.isDraggingWindow = true)
    (hx : dragOffsetF32 s.windowOffsetXBase (px - s.mouseDragStartPosX) = some x)
    (hy : dragOffsetF32 s.windowOffsetYBase (py - s.mouseDragStartPosY) = some y) :
    dragWindowOffsetF32 s px py =
      some { s with windowOffsetX := x, windowOffsetY := y, needsReRender := true } := by
  simp only [dragOffsetF32] at hx hy
  simp only [dragWindowOffsetF32, hd, if_true]
  cases h1 : f32ofInt (wrapInt32 (px - s.mouseDragStartPosX)) with
  | none => rw [h1] at hx; cases hx
  | some dx =>
    rw [h1, Option.some_bind] at hx
    cases h2 : f32ofInt (wrapInt32 (py - s.mouseDragStartPosY)) with
    | none => rw [h2] at hy; cases hy
    | some dy =>
      rw [h2, Option.some_bind] at hy
      simp only [Option.some_bind, hx, hy]

/-- A move handled by `mouseMoveEventF32` during a drag with the button held. -/
theorem mouseMoveEventF32_of_drag (s : DiagramBase) (m : SglFrame) (px py : ℤ) (x y : ℚ)
    (hr : m.buttonReleased = false) (hn : s.resizeDirection = NONE)
    (hd : s.isDraggingWindow = true)
    (hx : dragOffsetF32 s.windowOffsetXBase (px - s.mouseDragStartPosX) = some x)
    (hy : dragOffsetF32 s.windowOffsetYBase (py - s.mouseDragStartPosY) = some y) :
    mouseMoveEventF32 s m px py =
      some { updateCursorShape s px py with
        windowOffsetX := x, windowOffsetY := y, needsReRender := true } := by
  have hn2 : ¬ (s.resizeDirection ≠ NONE) := not_not.mpr hn
  simp only [mouseMoveEventF32, hr, Bool.false_eq_true, if_false, if_neg hn2, Option.some_bind]
  exact dragWindowOffsetF32_of_dragging (updateCursorShape s px py) px py x y
    (by simp [hd]) (by simpa using hx) (by simpa using hy)

/-- An update that reports no release is the move block applied to the state after the
press block. -/
theorem updateF32_of_not_released (s : DiagramBase) (m : SglFrame)
    (hr : m.buttonReleased = false) :
    updateF32 s m =
      mouseMoveDispatchF32 (update s { m with mouseMoved := false }) m
        (m.isMouseOverDiagram && !s.isMouseGrabbedByParent)
        (mousePositionPx s m).1 (mousePositionPx s m).2 := by
  have h1 : update s { m with mouseMoved := false } =
      mousePressEvent { s with windowMoveOrResizeJustFinished := false } m
        (m.isMouseOverDiagram && !s.isMouseGrabbedByParent)
        (mousePositionPx s m).1 (mousePositionPx s m).2 := by
    simp only [update, mouseMoveDispatch, Bool.false_eq_true, if_false, mouseReleaseEvent, hr]
    rfl
  rw [h1]
  simp only [updateF32]
  cases mouseMoveDispatchF32
    (mousePressEvent { s with windowMoveOrResizeJustFinished := false } m
      (m.isMouseOverDiagram && !s.isMouseGrabbedByParent)
      (mousePositionPx s m).1 (mousePositionPx s m).2) m
    (m.isMouseOverDiagram && !s.isMouseGrabbedByParent)
    (mousePositionPx s m).1 (mousePositionPx s m).2 with
  | none => rfl
  | some t => simp only [Option.map_some', mouseReleaseEvent_of_not_released t m _ _ hr]

/-- The move block on a dragging state with the button held: the drag facts persist, and
when a move is reported the offsets are the two drag offsets. -/
theorem mouseMoveDispatchF32_of_drag (startX startY : ℤ) (baseX baseY width height : ℚ)
    (imX imY : ℤ) (s : DiagramBase) (m : SglFrame) (o : Bool) (px py : ℤ)
    (h : DragInv startX startY baseX baseY width height imX imY s)
    (hbx : IsF32 baseX) (hby : IsF32 baseY)
    (hr : m.buttonReleased = false) :
    ∃ t, mouseMoveDispatchF32 s m o px py = some t ∧
      DragInv startX startY baseX baseY width height imX imY t ∧
      (m.mouseMoved = true →
        dragOffsetF32 baseX (px - startX) = some t.windowOffsetX ∧
        dragOffsetF32 baseY (py - startY) = some t.windowOffsetY) := by
  obtain ⟨h1, h2, h3, h4, h5, h6, h7, h8, h9, h10, h11⟩ := h
  cases hm : m.mouseMoved with
  | false =>
    refine ⟨s, by simp [mouseMoveDispatchF32, hm], ⟨h1, h2, h3, h4, h5, h6, h7, h8, h9, h10, h11⟩,
      fun hf => by cases hf⟩
  | true =>
    obtain ⟨x, hx⟩ := dragOffsetF32_isSome baseX (px - startX) hbx
    obtain ⟨y, hy⟩ := dragOffsetF32_isSome baseY (py - startY) hby
    have hev := mouseMoveEventF32_of_drag s m px py x y hr h2 h1
      (by rw [h6, h4]; exact hx) (by rw [h7, h5]; exact hy)
    have hdis : mouseMoveDispatchF32 s m o px py =
        some { updateCursorShape s px py with
          windowOffsetX := x, windowOffsetY := y, needsReRender := true } := by
      simp only [mouseMoveDispatchF32, hm, if_true, h3, Bool.or_true, hev]
    refine ⟨_, hdis, ?_, fun _ => ⟨hx, hy⟩⟩
    simp [DragInv, h1, h2, h3, h4, h5, h6, h7, h8, h9, h10, h11]

/-- An update with the button held (no press, no release) during a drag, in the machine
arithmetic: it has a result, the drag facts persist, and when the update reports a move the
offsets are the two drag offsets. -/
theorem updateF32_of_drag_held (startX startY : ℤ) (baseX baseY width height : ℚ)
    (imX imY : ℤ) (s : DiagramBase) (m : SglFrame)
    (h : DragInv startX startY baseX baseY width height imX imY s)
    (hbx : IsF32 baseX) (hby : IsF32 baseY)
    (hp : m.buttonPressed = false) (hr : m.buttonReleased = false) :
    ∃ t, updateF32 s m = some t ∧
      DragInv startX startY baseX baseY width height imX imY t ∧
      (m.mouseMoved = true →
        dragOffsetF32 baseX ((mousePositionPx s m).1 - startX) = some t.windowOffsetX ∧
        dragOffsetF32 baseY ((mousePositionPx s m).2 - startY) = some t.windowOffsetY) := by
  rw [updateF32_of_not_released s m hr]
  exact mouseMoveDispatchF32_of_drag startX startY baseX baseY width height imX imY _ m _ _ _
    (update_of_drag_held startX startY baseX baseY width height imX imY s
      { m with mouseMoved := false } h hp hr).1 hbx hby hr

/-- A press inside the widget that hits no margin starts a drag at the pointer position, in
the machine arithmetic. -/
theorem updateF32_press_starts_drag (s : DiagramBase) (m : SglFrame)
    (hp : m.buttonPressed = true) (hr : m.buttonReleased = false)
    (ho : m.isMouseOverDiagram = true) (hg : s.isMouseGrabbedByParent = false)
    (hf : s.isWindowFixed = false)
    (hL : (leftAabb s).contains (mousePositionPx s m).1 (mousePositionPx s m).2 = false)
    (hR : (rightAabb s).contains (mousePositionPx s m).1 (mousePositionPx s m).2 = false)
    (hB : (bottomAabb s).contains (mousePositionPx s m).1 (mousePositionPx s m).2 = false)
    (hT : (topAabb s).contains (mousePositionPx s m).1 (mousePositionPx s m).2 = false)
    (hbx : IsF32 s.windowOffsetX) (hby : IsF32 s.windowOffsetY) :
    ∃ t, updateF32 s m = some t ∧
      DragInv (mousePositionPx s m).1 (mousePositionPx s m).2 s.windowOffsetX s.windowOffsetY
        s.windowWidth s.windowHeight s.imGuiWindowOffsetX s.imGuiWindowOffsetY t := by
  rw [updateF32_of_not_released s m hr]
  obtain ⟨t, h1, h2, -⟩ := mouseMoveDispatchF32_of_drag _ _ _ _ _ _ _ _ _ m
    (m.isMouseOverDiagram && !s.isMouseGrabbedByParent)
    (mousePositionPx s m).1 (mousePositionPx s m).2
    (update_press_starts_drag s { m with mouseMoved := false } hp hr ho hg hf hL hR hB hT).1
    hbx hby hr
  exact ⟨t, h1, h2⟩

/-- The drag facts persist along every run of updates with the button held, in the machine
arithmetic, and the run has a result. -/
theorem runUpdatesF32_of_drag_held (startX startY : ℤ) (baseX baseY width height : ℚ)
    (imX imY : ℤ) (frames : List SglFrame) (s : DiagramBase)
    (h : DragInv startX startY baseX baseY width height imX imY s)
    (hbx : IsF32 baseX) (hby : IsF32 baseY)
    (hheld : ∀ f ∈ frames, f.buttonPressed = false ∧ f.buttonReleased = false) :
    ∃ t, runUpdatesF32 s frames = some t ∧
      DragInv startX startY baseX baseY width height imX imY t := by
  induction frames generalizing s with
  | nil => exact ⟨s, rfl, h⟩
  | cons f fs ih =>
    have hf := hheld f (List.mem_cons_self f fs)
    obtain ⟨s1, h1, h2, -⟩ := updateF32_of_drag_held startX startY baseX baseY width height
      imX imY s f h hbx hby hf.1 hf.2
    obtain ⟨t, h3, h4⟩ := ih s1 h2 (fun g hg => hheld g (List.mem_cons_of_mem f hg))
    exact ⟨t, by simp only [runUpdatesF32, h1, Option.some_bind, h3], h4⟩

/-- A run followed by one more update. -/
theorem runUpdatesF32_append_singleton (frames : List SglFrame) (last : SglFrame)
    (s : DiagramBase) :
    runUpdatesF32 s (frames ++ [last]) =
      (runUpdatesF32 s frames).bind fun t => updateF32 t last := by
  induction frames generalizing s with
  | nil =>
    simp only [List.nil_append, runUpdatesF32, Option.some_bind]
    cases updateF32 s last <;> rfl
  | cons f fs ih =>
    simp only [List.cons_append, runUpdatesF32]
    cases updateF32 s f with
    | none => rfl
    | some s1 =>
      simp only [Option.some_bind]
      exact ih s1

/-- The drag of a press followed by held updates and a last held move, in the machine
arithmetic: the run has a result, whose offsets are the drag offsets of the last pointer
position from the press position and the offsets at the press, with the size unchanged. -/
theorem runUpdatesF32_drag (s : DiagramBase) (press : SglFrame) (frames : List SglFrame)
    (last : SglFrame)
    (hp : press.buttonPressed = true) (hr : press.buttonReleased = false)
    (ho : press.isMouseOverDiagram = true) (hg : s.isMouseGrabbedByParent = false)
    (hf : s.isWindowFixed = false)
    (hL : (leftAabb s).contains (mousePositionPx s press).1 (mousePositionPx s press).2 = false)
    (hR : (rightAabb s).contains (mousePositionPx s press).1 (mousePositionPx s press).2 = false)
    (hB : (bottomAabb s).contains (mousePositionPx s press).1 (mousePositionPx s press).2 = false)
    (hT : (topAabb s).contains (mousePositionPx s press).1 (mousePositionPx s press).2 = false)
    (hheld : ∀ f ∈ frames, f.buttonPressed = false ∧ f.buttonReleased = false)
    (hlp : last.buttonPressed = false) (hlr : last.buttonReleased = false)
    (hlm : last.mouseMoved = true)
    (hbx : IsF32 s.windowOffsetX) (hby : IsF32 s.windowOffsetY) :
    ∃ t, runUpdatesF32 s (press :: (frames ++ [last])) = some t ∧
      dragOffsetF32 s.windowOffsetX
        ((mousePositionPx s last).1 - (mousePositionPx s press).1) = some t.windowOffsetX ∧
      dragOffsetF32 s.windowOffsetY
        ((mousePositionPx s last).2 - (mousePositionPx s press).2) = some t.windowOffsetY ∧
      t.windowWidth = s.windowWidth ∧ t.windowHeight = s.windowHeight := by
  obtain ⟨s1, h1, hinv1⟩ := updateF32_press_starts_drag s press hp hr ho hg hf hL hR hB hT
    hbx hby
  obtain ⟨s2, h2, hinv2⟩ := runUpdatesF32_of_drag_held _ _ _ _ _ _ _ _ frames s1 hinv1 hbx hby
    hheld
  obtain ⟨t, h3, hinv3, hoff⟩ := updateF32_of_drag_held _ _ _ _ _ _ _ _ s2 last hinv2 hbx hby
    hlp hlr
  have hpos : mousePositionPx s2 last = mousePositionPx s last :=
    mousePositionPx_congr s s2 last hinv2.2.2.2.2.2.2.2.2.2.1 hinv2.2.2.2.2.2.2.2.2.2.2
  rw [hpos] at hoff
  obtain ⟨hx, hy⟩ := hoff hlm
  refine ⟨t, ?_, hx, hy, hinv3.2.2.2.2.2.2.2.1, hinv3.2.2.2.2.2.2.2.2.1⟩
  simp only [runUpdatesF32, h1, Option.some_bind, runUpdatesF32_append_singleton, h2, h3]

/-- The integer `2 ^ 24` is a float. -/
theorem f32round_16777216 : f32round 16777216 = some 16777216 := by
  have h := f32round_eval 16777216 24 8388608 (by norm_num) (by norm_num) (by norm_num)
    (by
      have e : (16777216 : ℚ) / (2 : ℚ) ^ ((24 : ℤ) - 23) = ((8388608 : ℤ) : ℚ) := by norm_num
      rw [e, roundHalfEven_intCast]) (by norm_num)
  rw [h]
  norm_num

/-- The drag offset for base 0 and a displacement of `2 ^ 24 + 1` pixels is `2 ^ 24`. -/
theorem dragOffsetF32_zero_16777217 : dragOffsetF32 0 16777217 = some 16777216 := by
  have hw : wrapInt32 16777217 = 16777217 := by unfold wrapInt32; omega
  have h1 : f32ofInt 16777217 = some 16777216 := by
    have := f32round_16777217
    simpa [f32ofInt] using this
  have h2 : f32add 0 16777216 = some 16777216 := by
    simp only [f32add, zero_add]
    exact f32round_16777216
  unfold dragOffsetF32
  rw [hw, h1, Option.some_bind, h2]

/-- The idle square widget at the origin: a press more than 4 pixels inside hits no margin,
and the offsets are floats. -/
theorem squareWidget_drag_conditions (x y : ℤ) (hx : 4 < x) (hx2 : x < 416) (hy : 4 < y)
    (hy2 : y < 416) :
    (leftAabb squareWidget).contains (mousePositionPx squareWidget (pressFrame x y)).1
      (mousePositionPx squareWidget (pressFrame x y)).2 = false ∧
    (rightAabb squareWidget).contains (mousePositionPx squareWidget (pressFrame x y)).1
      (mousePositionPx squareWidget (pressFrame x y)).2 = false ∧
    (bottomAabb squareWidget).contains (mousePositionPx squareWidget (pressFrame x y)).1
      (mousePositionPx squareWidget (pressFrame x y)).2 = false ∧
    (topAabb squareWidget).contains (mousePositionPx squareWidget (pressFrame x y)).1
      (mousePositionPx squareWidget (pressFrame x y)).2 = false ∧
    IsF32 squareWidget.windowOffsetX ∧ IsF32 squareWidget.windowOffsetY := by
  have hx1 : (4 : ℚ) < (x : ℚ) := by exact_mod_cast hx
  have hx3 : (x : ℚ) < 416 := by exact_mod_cast hx2
  have hy1 : (4 : ℚ) < (y : ℚ) := by exact_mod_cast hy
  have hy3 : (y : ℚ) < 416 := by exact_mod_cast hy2
  refine ⟨?_, ?_, ?_, ?_, ?_, ?_⟩
  · simp [AABB2.contains, leftAabb, squareWidget, initialState, mousePositionPx, pressFrame]
    intros
    linarith
  · simp [AABB2.contains, rightAabb, squareWidget, initialState, mousePositionPx, pressFrame]
    intros
    norm_num at *
    linarith
  · simp [AABB2.contains, bottomAabb, squareWidget, initialState, mousePositionPx, pressFrame]
    intros
    linarith
  · simp [AABB2.contains, topAabb, squareWidget, initialState, mousePositionPx, pressFrame]
    intros
    norm_num at *
    linarith
  · simp [IsF32, f32round, squareWidget, initialState]
  · simp [IsF32, f32round, squareWidget, initialState]

/-- Claim C6 (as amended). While dragging, the offset is cumulative and not incremental, in
the machine arithmetic. A press at pixel position `p0` that starts a drag (inside the widget,
no margin hit) from window offset `o0` (a float), followed by any run of updates with the button held (no press, no release) and then one more such update
that reports a move to `p`: the run has a result, in which the window offset is per axis the
float `dragOffsetF32 o0 (p - p0)`, that is `o0 + float(p - p0)` with the `int` difference
wrapped to 32 bits and the conversion and the sum rounded, whatever the intermediate moves
were; the window size is unchanged; for `p = p0` the offset is `o0` again exactly; and
without rounding, as for an integer `o0` with `p - p0` and `o0 + (p - p0)` below `2 ^ 24` in
magnitude, the offset is exactly `o0 + (p - p0)`. -/
theorem drag_offset_is_cumulative_in_float (s : DiagramBase) (press : SglFrame) (frames : List SglFrame) (last : SglFrame)
    (hp : press.buttonPressed = true) (hr : press.buttonReleased = false)
    (ho : press.isMouseOverDiagram = true) (hg : s.isMouseGrabbedByParent = false)
    (hf : s.isWindowFixed = false)
    (hL : (leftAabb s).contains (mousePositionPx s press).1 (mousePositionPx s press).2 = false)
    (hR : (rightAabb s).contains (mousePositionPx s press).1 (mousePositionPx s press).2 = false)
    (hB : (bottomAabb s).contains (mousePositionPx s press).1 (mousePositionPx s press).2 = false)
    (hT : (topAabb s).contains (mousePositionPx s press).1 (mousePositionPx s press).2 = false)
    (hheld : ∀ f ∈ frames, f.buttonPressed = false ∧ f.buttonReleased = false)
    (hlp : last.buttonPressed = false) (hlr : last.buttonReleased = false)
    (hlm : last.mouseMoved = true)
    (hfx : IsF32 s.windowOffsetX) (hfy : IsF32 s.windowOffsetY) :
    ∃ t, runUpdatesF32 s (press :: (frames ++ [last])) = some t ∧
      dragOffsetF32 s.windowOffsetX
        ((mousePositionPx s last).1 - (mousePositionPx s press).1) = some t.windowOffsetX ∧
      dragOffsetF32 s.windowOffsetY
        ((mousePositionPx s last).2 - (mousePositionPx s press).2) = some t.windowOffsetY ∧
      t.windowWidth = s.windowWidth ∧ t.windowHeight = s.windowHeight ∧
      (mousePositionPx s last = mousePositionPx s press →
        t.windowOffsetX = s.windowOffsetX ∧ t.windowOffsetY = s.windowOffsetY) ∧
      (∀ o : ℤ, s.windowOffsetX = (o : ℚ) →
        |(mousePositionPx s last).1 - (mousePositionPx s press).1| < 16777216 →
        |o + ((mousePositionPx s last).1 - (mousePositionPx s press).1)| < 16777216 →
        t.windowOffsetX = s.windowOffsetX +
          (((mousePositionPx s last).1 - (mousePositionPx s press).1 : ℤ) : ℚ)) ∧
      (∀ o : ℤ, s.windowOffsetY = (o : ℚ) →
        |(mousePositionPx s last).2 - (mousePositionPx s press).2| < 16777216 →
        |o + ((mousePositionPx s last).2 - (mousePositionPx s press).2)| < 16777216 →
        t.windowOffsetY = s.windowOffsetY +
          (((mousePositionPx s last).2 - (mousePositionPx s press).2 : ℤ) : ℚ)) := by
  obtain ⟨t, ht, hx, hy, hw, hh⟩ := runUpdatesF32_drag s press frames last hp hr ho hg hf hL hR
    hB hT hheld hlp hlr hlm hfx hfy
  refine ⟨t, ht, hx, hy, hw, hh, fun heq => ?_, fun o ho hd hs => ?_, fun o ho hd hs => ?_⟩
  · rw [heq, sub_self, dragOffsetF32_zero _ hfx] at hx
    rw [heq, sub_self, dragOffsetF32_zero _ hfy] at hy
    exact ⟨(Option.some.inj hx).symm, (Option.some.inj hy).symm⟩
  · rw [ho, dragOffsetF32_exact o _ hd hs] at hx
    rw [ho]
    exact (Option.some.inj hx).symm
  · rw [ho, dragOffsetF32_exact o _ hd hs] at hy
    rw [ho]
    exact (Option.some.inj hy).symm

/-- Claim C6, counterexample. A drag of the square widget (offset 0) begun by a press at
`(100, 100)` and moved with the button held to `(16777317, 100)`, a displacement of
`2 ^ 24 + 1` pixels in x: the window offset is `16777216`, not `0 + 16777217`, because
`float(16777217)` is `16777216`. -/
theorem drag_offset_rounds_large_displacement :
    ∃ t, runUpdatesF32 squareWidget [pressFrame 100 100, heldMoveFrame 16777317 100 420 420] =
        some t ∧
      t.windowOffsetX = 16777216 ∧
      t.windowOffsetX ≠ squareWidget.windowOffsetX + (((16777317 : ℤ) - 100 : ℤ) : ℚ) := by
  obtain ⟨c1, c2, c3, c4, c5, c6⟩ := squareWidget_drag_conditions 100 100 (by decide)
    (by decide) (by decide) (by decide)
  obtain ⟨t, ht, hx, -, -, -⟩ := runUpdatesF32_drag squareWidget (pressFrame 100 100) []
    (heldMoveFrame 16777317 100 420 420) rfl rfl rfl rfl rfl c1 c2 c3 c4
    (fun f hf => absurd hf (List.not_mem_nil f)) rfl rfl rfl c5 c6
  have e1 : (mousePositionPx squareWidget (heldMoveFrame 16777317 100 420 420)).1 -
      (mousePositionPx squareWidget (pressFrame 100 100)).1 = 16777217 := by
    simp [mousePositionPx, heldMoveFrame, pressFrame]
  have e0 : squareWidget.windowOffsetX = 0 := rfl
  rw [e1, e0, dragOffsetF32_zero_16777217] at hx
  have hx2 : t.windowOffsetX = 16777216 := (Option.some.inj hx).symm
  refine ⟨t, ht, hx2, ?_⟩
  rw [hx2, e0]
  norm_num

/-- Claim C6, witness: a drag of the square widget begun at `(200, 200)`, moved to
`(230, 180)` and then to `(260, 210)`, ends with the window offset `(60, 10)`. -/
theorem drag_offset_is_cumulative_in_float_witness :
    ∃ t, runUpdatesF32 squareWidget (pressFrame 200 200 ::
        ([heldMoveFrame 230 180 420 420] ++ [heldMoveFrame 260 210 420 420])) = some t ∧
      t.windowOffsetX = 60 ∧ t.windowOffsetY = 10 := by
  obtain ⟨c1, c2, c3, c4, c5, c6⟩ := squareWidget_drag_conditions 200 200 (by decide)
    (by decide) (by decide) (by decide)
  obtain ⟨t, ht, -, -, -, -, -, hx, hy⟩ := drag_offset_is_cumulative_in_float squareWidget
    (pressFrame 200 200) [heldMoveFrame 230 180 420 420] (heldMoveFrame 260 210 420 420)
    rfl rfl rfl rfl rfl c1 c2 c3 c4
    (by intro f hf; rw [List.mem_singleton] at hf; subst hf; exact ⟨rfl, rfl⟩)
    rfl rfl rfl c5 c6
  have e1 : (mousePositionPx squareWidget (heldMoveFrame 260 210 420 420)).1 -
      (mousePositionPx squareWidget (pressFrame 200 200)).1 = 60 := by
    simp [mousePositionPx, heldMoveFrame, pressFrame]
  have e2 : (mousePositionPx squareWidget (heldMoveFrame 260 210 420 420)).2 -
      (mousePositionPx squareWidget (pressFrame 200 200)).2 = 10 := by
    simp [mousePositionPx, heldMoveFrame, pressFrame]
  have e0 : squareWidget.windowOffsetX = ((0 : ℤ) : ℚ) := by
    simp [squareWidget, initialState]
  have e0y : squareWidget.windowOffsetY = ((0 : ℤ) : ℚ) := by
    simp [squareWidget, initialState]
  have hx2 := hx 0 e0 (by rw [e1]; decide) (by rw [e1]; decide)
  have hy2 := hy 0 e0y (by rw [e2]; decide) (by rw [e2]; decide)
  rw [e1] at hx2
  rw [e2] at hy2
  refine ⟨t, ht, ?_, ?_⟩
  · rw [hx2]; norm_num [squareWidget, initialState]
  · rw [hy2]; norm_num [squareWidget, initialState]

end Diagram
